import Mathlib

/-!
# go-sns-message-validator: a shallow embedding

The packages `snserrors`, `snsvalidator` and `snsmessage` are embedded as Lean
definitions.

Conventions of the embedding.

* A Go `string` is a Lean `String`; a Go `map[string]string` is a function
  `String → Option String` (`none` for a key that is not in the map).
* A Go `error` result is an `Option SNSError`: `none` is the nil error.
* The standard-library primitives the validator calls (`url.Parse`,
  `http.Get`, `ioutil.ReadAll`, `pem.Decode`, `x509.ParseCertificate`,
  `base64.StdEncoding.DecodeString`, `(*x509.Certificate).CheckSignature`)
  are the fields of an environment `Env`; every theorem quantifies over the
  environment, that is over every outcome of these primitives.
* An operation that may touch the network returns a `Traced` value: its
  result together with the arguments of its calls of `http.Get`, in order, one
  entry for each call. What one call of `http.Get` sends on the network (the
  default client follows redirects) is the separate model `clientGet`.
* The compiled regular expression `defaultHostPatternRegexp` is a
  `RegularExpression Char`; `MatchString` is the derivative matcher `rmatch`.
-/

namespace SNS

/-! ## Package snserrors -/

/-- An SNS error: `t` is the type (kind) and `s` the message. -/
structure SNSError where
  t : String
  s : String
deriving DecidableEq, Repr

/-- Create and return an error with given type and message. -/
def New (errType : String) (errMsg : String) : SNSError :=
  ⟨errType, errMsg⟩

/-- Return the type of the error. -/
def SNSError.Type (err : SNSError) : String :=
  err.t

/-- Determine if an error is the given type. -/
def SNSError.Is (err : SNSError) (errType : String) : Bool :=
  decide (err.t = errType)

/-- Return the message of the error. -/
def SNSError.Error (err : SNSError) : String :=
  err.s

/-! ## Package snsvalidator: constants -/

def TypeNotification : String := "Notification"
def TypeSubscriptionConfirmation : String := "SubscriptionConfirmation"
def TypeUnsubscribeConfirmation : String := "UnsubscribeConfirmation"

def ErrMissingKey : String := "MissingKey"
def ErrInvalidType : String := "InvalidType"
def ErrInvalidCert : String := "InvalidCert"
def ErrIncorrectSignature : String := "IncorrectSignature"

/-- Required keys of a SNS Message. -/
def requiredKeys : List String :=
  [ "Type",
    "MessageId",
    "TopicArn",
    "Message",
    "Timestamp",
    "Signature",
    "SignatureVersion",
    "SigningCertURL" ]

/-- Required keys for SubscriptionConfirmation and UnsubscribeConfirmation. -/
def requiredSubscriptionKeys : List String :=
  [ "SubscribeURL",
    "Token" ]

/-- List of valid message types. -/
def validMessageTypes : List String :=
  [ TypeSubscriptionConfirmation,
    TypeUnsubscribeConfirmation,
    TypeNotification ]

/-- List of Subscription message types. -/
def subscriptionMessageTypes : List String :=
  [ TypeSubscriptionConfirmation,
    TypeUnsubscribeConfirmation ]

/-- Signable keys for SubscriptionConfirmation and UnsubscribeConfirmation. -/
def signableKeysForSubscription : List String :=
  [ "Message",
    "MessageId",
    "Subject",
    "SubscribeURL",
    "Timestamp",
    "Token",
    "TopicArn",
    "Type" ]

/-- Signable keys for Notification. -/
def signableKeysForNotification : List String :=
  [ "Message",
    "MessageId",
    "Subject",
    "SubscribeURL",
    "Timestamp",
    "TopicArn",
    "Type" ]

/-! ## The host pattern

The source constant is the pattern
  ^sns\.[a-zA-Z0-9\-]{3,}\.amazonaws\.com(\.cn)?$
compiled once by `regexp.MustCompile`. -/

/-- The regular expression of a literal string (escaped dots included):
the concatenation of its characters. -/
def literal (s : String) : RegularExpression Char :=
  s.toList.foldr (fun c r => RegularExpression.char c * r) 1

/-- The characters of a class range `lo-hi`, both ends included. -/
def rangeChars (lo hi : Char) : List Char :=
  (List.range (hi.toNat + 1 - lo.toNat)).map (fun i => Char.ofNat (lo.toNat + i))

/-- The regular expression of a character class: any one of the listed
characters. -/
def oneOf (cs : List Char) : RegularExpression Char :=
  cs.foldr (fun c r => RegularExpression.char c + r) 0

/-- The class `[a-zA-Z0-9\-]`. -/
def regionClassChars : List Char :=
  rangeChars 'a' 'z' ++ rangeChars 'A' 'Z' ++ rangeChars '0' '9' ++ ['-']

/-- The repetition `r{n,}`: at least `n` copies of `r`. -/
def repeatMin (r : RegularExpression Char) : Nat → RegularExpression Char
  | 0 => RegularExpression.star r
  | n + 1 => r * repeatMin r n

/-- The optional group `(r)?`. -/
def optional (r : RegularExpression Char) : RegularExpression Char :=
  r + 1

/-- The compiled `defaultHostPattern`, between the anchors `^` and `$`:
`sns\.`, then `[a-zA-Z0-9\-]{3,}`, then `\.amazonaws\.com`, then `(\.cn)?`. -/
def defaultHostPatternRegexp : RegularExpression Char :=
  literal "sns." * repeatMin (oneOf regionClassChars) 3 * literal ".amazonaws.com"
    * optional (literal ".cn")

/-- The call `defaultHostPatternRegexp.MatchString(s)`. The pattern starts with
`^` and ends with `$` (no multi-line flag), so a match is a match of the whole
of `s`. -/
def MatchString (s : String) : Bool :=
  defaultHostPatternRegexp.rmatch s.toList

/-! ## The validator -/

/-- The validator: a version tag and the message map. -/
structure SNSValidator where
  Version : Int
  MessageMap : String → Option String

/-- NewV1 returns a new version 1 validator with the specified map as the
message map. -/
def NewV1 (messageMap : String → Option String) : SNSValidator :=
  { Version := 1, MessageMap := messageMap }

/-- The Go index expression `validator.MessageMap[key]`: the value bound to
`key`, or the zero value `""` when the key is not in the map. -/
def SNSValidator.index (validator : SNSValidator) (key : String) : String :=
  match validator.MessageMap key with
  | some value => value
  | none => ""

/-- The method `has`: the key exists and its value is not the empty string. -/
def SNSValidator.has (validator : SNSValidator) (key : String) : Bool :=
  match validator.MessageMap key with
  | some value => if value ≠ "" then true else false
  | none => false

/-- The method `hasKeys`: whether all the keys of the list are there, and the
name of the first missing key when one is not. -/
def SNSValidator.hasKeys (validator : SNSValidator) : List String → Bool × String
  | [] => (true, "")
  | key :: keylist =>
    if !validator.has key then (false, key) else validator.hasKeys keylist

/-- The loop of `isTypes` over the list of types. -/
def isTypesLoop (messageType : String) : List String → Bool
  | [] => false
  | t :: typelist => if messageType = t then true else isTypesLoop messageType typelist

/-- The method `isTypes`: the message is one of the specified types. -/
def SNSValidator.isTypes (validator : SNSValidator) (typelist : List String) : Bool :=
  isTypesLoop (validator.index "Type") typelist

/-- The method `validateRequiredKeys`. -/
def SNSValidator.validateRequiredKeys (validator : SNSValidator) : Option SNSError :=
  match validator.hasKeys requiredKeys with
  | (valid, missingKey) =>
    if !valid then
      some (New ErrMissingKey ("\"" ++ missingKey ++ "\" is required in SNS message"))
    else none

/-- The method `validateMessageType`. -/
def SNSValidator.validateMessageType (validator : SNSValidator) : Option SNSError :=
  if !validator.isTypes validMessageTypes then
    some (New ErrInvalidType ("Invalid message type \"" ++ validator.index "Type" ++ "\""))
  else none

/-- The method `validateSubscriptionKeys`. -/
def SNSValidator.validateSubscriptionKeys (validator : SNSValidator) : Option SNSError :=
  match validator.hasKeys requiredSubscriptionKeys with
  | (valid, missingKey) =>
    if !valid then
      some (New ErrMissingKey ("\"" ++ missingKey ++ "\" is required in Subscription message"))
    else none

/-- The method `validateMessageStructure`. -/
def SNSValidator.validateMessageStructure (validator : SNSValidator) : Option SNSError :=
  match validator.validateRequiredKeys with
  | some err => some err
  | none =>
    match validator.validateMessageType with
    | some err => some err
    | none =>
      if validator.isTypes subscriptionMessageTypes then
        match validator.validateSubscriptionKeys with
        | some err => some err
        | none => none
      else none

/-- The method `buildSignableString`. The byte buffer is a `String`: each
`WriteString` appends the bytes of its argument. -/
def SNSValidator.buildSignableString (validator : SNSValidator) : String :=
  let signableKeys :=
    if validator.isTypes subscriptionMessageTypes then signableKeysForSubscription
    else signableKeysForNotification
  signableKeys.foldl
    (fun signableString key =>
      if validator.has key then
        (((signableString ++ key) ++ "\n") ++ validator.index key) ++ "\n"
      else signableString)
    ""

/-! ## The environment: network and crypto primitives -/

/-- A byte slice. -/
abbrev Bytes := List UInt8

/-- What the validator reads of a parsed URL: the field `Scheme` and the
result of the method `Hostname()`. -/
structure URL where
  Scheme : String
  Hostname : String
deriving DecidableEq, Repr

/-- What the validator reads of an HTTP response: the status code and the
outcome of `ioutil.ReadAll(res.Body)` (the body, or the text of the read
error). -/
structure Response where
  StatusCode : Int
  Body : Except String Bytes

/-- A parsed X.509 certificate, kept as the DER bytes it was parsed from. -/
structure Certificate where
  Raw : Bytes
deriving DecidableEq, Repr

/-- The signature algorithms of `crypto/x509`. -/
inductive SignatureAlgorithm where
  | UnknownSignatureAlgorithm
  | MD2WithRSA
  | MD5WithRSA
  | SHA1WithRSA
  | SHA256WithRSA
  | SHA384WithRSA
  | SHA512WithRSA
deriving DecidableEq, Repr

/-- The standard-library primitives. A failing primitive answers with the text
of its error (`err.Error()`). -/
structure Env where
  /-- The call `url.Parse`. -/
  urlParse : String → Except String URL
  /-- The call `http.Get`: a response, or the network failure. -/
  httpGet : String → Except String Response
  /-- The call `pem.Decode`: the bytes of the first block, or no block. -/
  pemDecode : Bytes → Option Bytes
  /-- The call `x509.ParseCertificate`. -/
  x509ParseCertificate : Bytes → Except String Certificate
  /-- The call `base64.StdEncoding.DecodeString`. -/
  base64DecodeString : String → Except String Bytes
  /-- The call `cert.CheckSignature(algo, signed, signature)`: `none` when the
  signature is valid, the error text otherwise. -/
  checkSignature : Certificate → SignatureAlgorithm → String → Bytes → Option String

/-- A result together with the calls of `http.Get` made while computing it:
`gets` lists the argument of each call, in order. The requests that the HTTP
client sends during one call are not listed here (see `clientGet`). -/
structure Traced (α : Type) where
  val : α
  gets : List String

/-- The method `getCertificate`: the pair (data, error) it returns, `none`
being nil, and its one call of `http.Get`, which comes before every return of
the method. -/
def SNSValidator.getCertificate (env : Env) (validator : SNSValidator) :
    Traced (Option Bytes × Option SNSError) :=
  let url := validator.index "SigningCertURL"
  match env.httpGet url with
  | .error err => ⟨(none, some (New ErrInvalidCert err)), [url]⟩
  | .ok res =>
    if res.StatusCode ≠ 200 then
      ⟨(none, some (New ErrInvalidCert "Could not retrive the certificate")), [url]⟩
    else
      match res.Body with
      | .error err => ⟨(none, some (New ErrInvalidCert err)), [url]⟩
      | .ok body => ⟨(some body, none), [url]⟩

/-- The method `verifySignature`. -/
def SNSValidator.verifySignature (env : Env) (validator : SNSValidator) :
    Traced (Option SNSError) :=
  match env.urlParse (validator.index "SigningCertURL") with
  | .error err => ⟨some (New ErrInvalidCert err), []⟩
  | .ok parsedUrl =>
    if parsedUrl.Scheme ≠ "https" then
      ⟨some (New ErrInvalidCert "The certificate URL is using insecure HTTP scheme"), []⟩
    else if !MatchString parsedUrl.Hostname then
      ⟨some (New ErrInvalidCert "The certificate URL belongs to an untrusted host"), []⟩
    else
      match validator.getCertificate env with
      | ⟨(_, some snserr), gets⟩ => ⟨some snserr, gets⟩
      | ⟨(certData, none), gets⟩ =>
        match env.pemDecode (certData.getD []) with
        | none => ⟨some (New ErrInvalidCert "Could not decode the certificate"), gets⟩
        | some blockBytes =>
          match env.x509ParseCertificate blockBytes with
          | .error err => ⟨some (New ErrInvalidCert err), gets⟩
          | .ok cert =>
            match env.base64DecodeString (validator.index "Signature") with
            | .error _ =>
              ⟨some (New ErrIncorrectSignature "Could not base64 decode the signature"), gets⟩
            | .ok decodedSignature =>
              match env.checkSignature cert SignatureAlgorithm.SHA1WithRSA
                  validator.buildSignableString decodedSignature with
              | some err =>
                ⟨some (New ErrIncorrectSignature ("Incorrect signature: " ++ err)), gets⟩
              | none => ⟨none, gets⟩

/-- The method `ValidateMessage`. -/
def SNSValidator.ValidateMessage (env : Env) (validator : SNSValidator) :
    Traced (Option SNSError) :=
  match validator.validateMessageStructure with
  | some err => ⟨some err, []⟩
  | none =>
    match validator.verifySignature env with
    | ⟨some err, gets⟩ => ⟨some err, gets⟩
    | ⟨none, gets⟩ => ⟨none, gets⟩

/-- A Go map literal: the binding of a key is the first pair of the list with
that key. -/
def mapOf (kvs : List (String × String)) : String → Option String :=
  fun key => (kvs.find? (fun kv => kv.1 = key)).map Prod.snd

/-! ## Vocabulary of the statements -/

/-- The field `key` is present in the map `m`: it is bound, and bound to a
value other than the empty string. -/
def Present (m : String → Option String) (key : String) : Prop :=
  m key ≠ none ∧ m key ≠ some ""

instance (m : String → Option String) (key : String) : Decidable (Present m key) := by
  unfold Present; infer_instance

/-- An environment in which every primitive fails. -/
def failingEnv : Env where
  urlParse := fun _ => .error "parse error"
  httpGet := fun _ => .error "connection refused"
  pemDecode := fun _ => none
  x509ParseCertificate := fun _ => .error "malformed certificate"
  base64DecodeString := fun _ => .error "illegal base64 data"
  checkSignature := fun _ _ _ _ => some "verification error"

/-- A Notification message with every required field, whose certificate URL
is on a trusted host. -/
def notificationMessage : SNSValidator :=
  NewV1 (mapOf
    [ ("Type", "Notification"),
      ("MessageId", "165545c9-2a5c-472c-8df2-7ff2be2b3b1b"),
      ("Token", ""),
      ("TopicArn", "arn:aws:sns:us-west-2:123456789012:MyTopic"),
      ("Message", "Test notification"),
      ("SubscribeURL", ""),
      ("Subject", "Test subject"),
      ("Timestamp", "2012-04-26T20:45:04.751Z"),
      ("SignatureVersion", "1"),
      ("Signature", "EXAMPLEpH+DcEwjAPg8O9mY8dReBSwksfg2S="),
      ("SigningCertURL", "https://sns.ap-northeast-1.amazonaws.com/cert.pem"),
      ("UnsubscribeURL", "https://localhost/unsubscribe") ])

/-- The map of `base` with `key` bound to `value`. -/
def withField (base : SNSValidator) (key value : String) : SNSValidator :=
  { base with MessageMap := fun k => if k = key then some value else base.MessageMap k }

/-- The map of `base` without a binding for `key`. -/
def withoutField (base : SNSValidator) (key : String) : SNSValidator :=
  { base with MessageMap := fun k => if k = key then none else base.MessageMap k }

/-- A SubscriptionConfirmation message with every required field, SubscribeURL
and Token included. -/
def subscriptionMessage : SNSValidator :=
  NewV1 (mapOf
    [ ("Type", "SubscriptionConfirmation"),
      ("MessageId", "165545c9-2a5c-472c-8df2-7ff2be2b3b1b"),
      ("Token", "2336412f37fb687f5d51e6e241d09c805a5a"),
      ("TopicArn", "arn:aws:sns:us-west-2:123456789012:MyTopic"),
      ("Message", "You have chosen to subscribe to the topic"),
      ("SubscribeURL", "https://localhost/subscribe"),
      ("Subject", ""),
      ("Timestamp", "2012-04-26T20:45:04.751Z"),
      ("SignatureVersion", "1"),
      ("Signature", "EXAMPLEpH+DcEwjAPg8O9mY8dReBSwksfg2S="),
      ("SigningCertURL", "https://sns.ap-northeast-1.amazonaws.com/cert.pem"),
      ("UnsubscribeURL", "") ])

/-- A table standing for `url.Parse` on three certificate URLs; every other
string fails to parse. -/
def exampleParse (rawurl : String) : Except String URL :=
  if rawurl = "https://sns.ap-northeast-1.amazonaws.com/cert.pem" then
    .ok ⟨"https", "sns.ap-northeast-1.amazonaws.com"⟩
  else if rawurl = "https://localhost/cert.pem" then
    .ok ⟨"https", "localhost"⟩
  else if rawurl = "http://sns.ap-northeast-1.amazonaws.com/cert.pem" then
    .ok ⟨"http", "sns.ap-northeast-1.amazonaws.com"⟩
  else .error "parse error"

/-- An environment in which every URL answers 200 with a certificate that
accepts every signature. -/
def servingEnv : Env where
  urlParse := exampleParse
  httpGet := fun _ => .ok ⟨200, .ok [1, 2, 3]⟩
  pemDecode := fun data => some data
  x509ParseCertificate := fun der => .ok ⟨der⟩
  base64DecodeString := fun _ => .ok [4, 5, 6]
  checkSignature := fun _ _ _ _ => none

/-! ## Concrete primitives for the examples -/

/-- The value of a character in the alphabet of `base64.StdEncoding`
(`A`-`Z`, `a`-`z`, `0`-`9`, `+`, `/`). -/
def base64Value (c : Char) : Option Nat :=
  if 65 ≤ c.toNat ∧ c.toNat ≤ 90 then some (c.toNat - 65)
  else if 97 ≤ c.toNat ∧ c.toNat ≤ 122 then some (c.toNat - 97 + 26)
  else if 48 ≤ c.toNat ∧ c.toNat ≤ 57 then some (c.toNat - 48 + 52)
  else if c = '+' then some 62
  else if c = '/' then some 63
  else none

/-- The decoding of padded base64 text, four characters at a time: a full
quantum gives three bytes, and only the last quantum may end in `=` (two
bytes) or `==` (one byte). Anything else is corrupt input. -/
def decodeQuanta : List Char → Except String Bytes
  | [] => .ok []
  | [a, b, c, d] =>
    match base64Value a, base64Value b with
    | some x, some y =>
      if c = '=' ∧ d = '=' then .ok [UInt8.ofNat ((x * 64 + y) / 16)]
      else
        match base64Value c with
        | some z =>
          if d = '=' then
            .ok [UInt8.ofNat (((x * 64 + y) * 64 + z) / 1024),
              UInt8.ofNat (((x * 64 + y) * 64 + z) / 4 % 256)]
          else
            match base64Value d with
            | some w =>
              .ok [UInt8.ofNat ((((x * 64 + y) * 64 + z) * 64 + w) / 65536),
                UInt8.ofNat ((((x * 64 + y) * 64 + z) * 64 + w) / 256 % 256),
                UInt8.ofNat ((((x * 64 + y) * 64 + z) * 64 + w) % 256)]
            | none => .error "illegal base64 data"
        | none => .error "illegal base64 data"
    | _, _ => .error "illegal base64 data"
  | a :: b :: c :: d :: rest =>
    match base64Value a, base64Value b, base64Value c, base64Value d with
    | some x, some y, some z, some w =>
      match decodeQuanta rest with
      | .ok bytes =>
        .ok (UInt8.ofNat ((((x * 64 + y) * 64 + z) * 64 + w) / 65536)
          :: UInt8.ofNat ((((x * 64 + y) * 64 + z) * 64 + w) / 256 % 256)
          :: UInt8.ofNat ((((x * 64 + y) * 64 + z) * 64 + w) % 256) :: bytes)
      | .error err => .error err
    | _, _, _, _ => .error "illegal base64 data"
  | _ => .error "illegal base64 data"

/-- A model of `base64.StdEncoding.DecodeString`: carriage returns and line
feeds are skipped, the rest is decoded as padded base64. The position that the
library appends to its error text is left out. -/
def stdDecodeString (s : String) : Except String Bytes :=
  decodeQuanta (s.toList.filter (fun c => c ≠ '\n' ∧ c ≠ '\r'))

/-- An environment that serves a certificate from every URL, decodes base64 as
`stdDecodeString`, and whose certificate accepts a signature only over the
signable string of `notificationMessage`, checked with SHA1WithRSA. -/
def pinnedEnv : Env where
  urlParse := exampleParse
  httpGet := fun _ => .ok ⟨200, .ok [1, 2, 3]⟩
  pemDecode := fun data => some data
  x509ParseCertificate := fun der => .ok ⟨der⟩
  base64DecodeString := stdDecodeString
  checkSignature := fun _ algo signed _ =>
    if algo = SignatureAlgorithm.SHA1WithRSA
        ∧ signed = notificationMessage.buildSignableString then none
    else some "crypto/rsa: verification error"

/-- An environment in which every URL answers with the given response, and
`pem.Decode` finds a block in every non-empty body. -/
def respondingEnv (res : Response) : Env where
  urlParse := exampleParse
  httpGet := fun _ => .ok res
  pemDecode := fun data => if data = [] then none else some data
  x509ParseCertificate := fun der => .ok ⟨der⟩
  base64DecodeString := stdDecodeString
  checkSignature := fun _ _ _ _ => none

/-- An environment in which every URL answers 200 with a PEM block whose bytes
are not a certificate. -/
def badCertificateEnv : Env where
  urlParse := exampleParse
  httpGet := fun _ => .ok ⟨200, .ok [1, 2, 3]⟩
  pemDecode := fun data => some data
  x509ParseCertificate := fun _ => .error "asn1: structure error"
  base64DecodeString := stdDecodeString
  checkSignature := fun _ _ _ _ => none

/-! ## Package snsmessage -/

def ErrMalformedJSON : String := "MalformedJSON"

/-- The structure `SNSMessage`; `Type_` is the Go field `Type`. The json tag of
every field is the name of the field. -/
structure SNSMessage where
  Type_ : String
  MessageId : String
  Token : String
  TopicArn : String
  Message : String
  Subject : String
  SubscribeURL : String
  Timestamp : String
  SignatureVersion : String
  Signature : String
  SigningCertURL : String
  UnsubscribeURL : String
deriving DecidableEq, Repr

/-- The function `NewFromJSON`. The argument `unmarshal` stands for
`json.Unmarshal(encoded, message)` on a zero `SNSMessage`: the filled structure,
or the text of the decoder's error. Both results are pointers, `none` being
nil. -/
def NewFromJSON (unmarshal : String → Except String SNSMessage) (encoded : String) :
    Option SNSMessage × Option SNSError :=
  match unmarshal encoded with
  | .error err => (none, some (New ErrMalformedJSON err))
  | .ok message => (some message, none)

/-- The method `toMap`. -/
def SNSMessage.toMap (message : SNSMessage) : String → Option String :=
  mapOf
    [ ("Type", message.Type_),
      ("MessageId", message.MessageId),
      ("Token", message.Token),
      ("TopicArn", message.TopicArn),
      ("Message", message.Message),
      ("Timestamp", message.Timestamp),
      ("Subject", message.Subject),
      ("SubscribeURL", message.SubscribeURL),
      ("SignatureVersion", message.SignatureVersion),
      ("Signature", message.Signature),
      ("SigningCertURL", message.SigningCertURL),
      ("UnsubscribeURL", message.UnsubscribeURL) ]

/-- The method `GetValidator`. -/
def SNSMessage.GetValidator (message : SNSMessage) : SNSValidator :=
  NewV1 message.toMap

/-! ### Go interface values of type `error` -/

/-- A value of the interface type `error`, as far as the packages produce one:
the nil interface, or an interface that holds a `*SNSError`, a pointer that may
itself be nil. -/
inductive ErrorInterface where
  | nil
  | pointer (p : Option SNSError)
deriving DecidableEq, Repr

/-- The conversion Go applies when a `*SNSError` is stored in a variable of type
`error`: the interface holds the pointer, also when the pointer is nil. -/
def asError (p : Option SNSError) : ErrorInterface :=
  ErrorInterface.pointer p

/-- The comparison `err == nil` on a value of type `error`. -/
def ErrorInterface.isNil : ErrorInterface → Bool
  | ErrorInterface.nil => true
  | ErrorInterface.pointer _ => false

/-! ### The decoder `json.Unmarshal`

`json.Unmarshal` belongs to Go's `encoding/json`, not to the repository. The
definitions of this section follow the comment on `SNSMessage` in the source
(an exact match of the key with the tag of a field first, then a
case-insensitive match) and the documentation of the library. A JSON object is
the list of its members, key and value, in the order of the text. -/

/-- The json tags of `SNSMessage`, in the order of its fields. -/
def fieldTags : List String :=
  [ "Type", "MessageId", "Token", "TopicArn", "Message", "Subject", "SubscribeURL",
    "Timestamp", "SignatureVersion", "Signature", "SigningCertURL", "UnsubscribeURL" ]

/-- Modelled from the spec: the external decoder `json.Unmarshal` is not part of
the repository. A value of a JSON object, as the decoder treats it when the
destination is a field of type `string`: `null`, a JSON string (its decoded
text), or a value of another kind (`number`, `bool`, `array`, `object`), under
the name the decoder gives the kind in its type error. -/
inductive JSONValue where
  | null
  | string (s : String)
  | other (kind : String)
deriving DecidableEq, Repr

/-- Modelled from the spec: the external decoder `json.Unmarshal` is not part of
the repository. The representative of a character under the case folding of the
decoder: an ASCII letter folds to its lower case, and the two characters outside
ASCII whose case folding meets ASCII, KELVIN SIGN (U+212A) and LATIN SMALL
LETTER LONG S (U+017F), fold to `k` and to `s`. -/
def foldRune (c : Char) : Char :=
  if c = Char.ofNat 0x212A then 'k'
  else if c = Char.ofNat 0x017F then 's'
  else c.toLower

/-- Modelled from the spec: the external decoder `json.Unmarshal` is not part of
the repository. The case-insensitive comparison of a tag with a key: equality
of the two strings character by character up to `foldRune`. It is the
comparison of the decoder whenever one of the two strings is ASCII, as every tag
of `SNSMessage` is. -/
def equalFold (s t : String) : Bool :=
  s.toList.map foldRune = t.toList.map foldRune

/-- Modelled from the spec: the external decoder `json.Unmarshal` is not part of
the repository. The tag of the field that receives the value of an object key:
the field whose tag is the key, or else the first field whose tag is the key up
to case. -/
def matchField (key : String) : Option String :=
  match fieldTags.find? (fun tag => tag = key) with
  | some tag => some tag
  | none => fieldTags.find? (fun tag => equalFold tag key)

/-- The message with the field of the given tag set to `value`. -/
def SNSMessage.setField (message : SNSMessage) (tag value : String) : SNSMessage :=
  if tag = "Type" then { message with Type_ := value }
  else if tag = "MessageId" then { message with MessageId := value }
  else if tag = "Token" then { message with Token := value }
  else if tag = "TopicArn" then { message with TopicArn := value }
  else if tag = "Message" then { message with Message := value }
  else if tag = "Subject" then { message with Subject := value }
  else if tag = "SubscribeURL" then { message with SubscribeURL := value }
  else if tag = "Timestamp" then { message with Timestamp := value }
  else if tag = "SignatureVersion" then { message with SignatureVersion := value }
  else if tag = "Signature" then { message with Signature := value }
  else if tag = "SigningCertURL" then { message with SigningCertURL := value }
  else if tag = "UnsubscribeURL" then { message with UnsubscribeURL := value }
  else message

/-- The zero value of `SNSMessage`. -/
def zeroMessage : SNSMessage :=
  ⟨"", "", "", "", "", "", "", "", "", "", "", ""⟩

/-- Modelled from the spec: the external decoder `json.Unmarshal` is not part of
the repository. The decoding of one member of the object. The state is the
message filled so far and the first type error met so far. A key that matches no
field is skipped with its value; for a key that matches a field, a JSON string
sets the field (a later member overwrites an earlier one), `null` leaves it
unchanged, and a value of another kind leaves it unchanged and is recorded as a
type error unless one is recorded already; decoding goes on after a type
error. -/
def unmarshalMember (state : SNSMessage × Option String) (member : String × JSONValue) :
    SNSMessage × Option String :=
  match matchField member.1 with
  | none => state
  | some tag =>
    match member.2 with
    | JSONValue.null => state
    | JSONValue.string s => (state.1.setField tag s, state.2)
    | JSONValue.other kind =>
      match state.2 with
      | some _ => state
      | none =>
        (state.1, some ("json: cannot unmarshal " ++ kind
          ++ " into Go struct field SNSMessage." ++ tag ++ " of type string"))

/-- Modelled from the spec: the external decoder `json.Unmarshal` is not part of
the repository. The decoding of a JSON object into a zero `SNSMessage`: the
members are taken in order; the result is the filled message, or the first type
error when there is one. -/
def unmarshalObject (members : List (String × JSONValue)) : Except String SNSMessage :=
  match members.foldl unmarshalMember (zeroMessage, none) with
  | (message, none) => .ok message
  | (_, some err) => .error err

/-- Modelled from the spec: the external decoder `json.Unmarshal` is not part of
the repository. A decoder made of a syntax parser, which yields the members of
the object or the text of a syntax error, followed by `unmarshalObject`. -/
def unmarshalWith (parse : String → Except String (List (String × JSONValue)))
    (encoded : String) : Except String SNSMessage :=
  match parse encoded with
  | .error err => .error err
  | .ok members => unmarshalObject members

/-- The callback-style spelling of a key: the three keys that end in `URL` end
in `Url`, every other key is unchanged. -/
def callbackStyle (key : String) : String :=
  if key = "SubscribeURL" then "SubscribeUrl"
  else if key = "SigningCertURL" then "SigningCertUrl"
  else if key = "UnsubscribeURL" then "UnsubscribeUrl"
  else key

/-- A server-style JSON message. -/
def serverJSON : String :=
  "\x7b\"Type\": \"SubscriptionConfirmation\", \"SubscribeURL\": \"https://localhost/subscribe\", \"SigningCertURL\": \"https://localhost/cert.pem\"\x7d"

/-- The same message spelled callback-style. -/
def callbackJSON : String :=
  "\x7b\"Type\": \"SubscriptionConfirmation\", \"SubscribeUrl\": \"https://localhost/subscribe\", \"SigningCertUrl\": \"https://localhost/cert.pem\"\x7d"

/-- A table standing for the JSON syntax parser on the two example messages;
every other input, the truncated `\x7b"Type": "SubscriptionConfirmation` among
them, is a syntax error. -/
def exampleParseJSON (encoded : String) : Except String (List (String × JSONValue)) :=
  if encoded = serverJSON then
    .ok [ ("Type", JSONValue.string "SubscriptionConfirmation"),
      ("SubscribeURL", JSONValue.string "https://localhost/subscribe"),
      ("SigningCertURL", JSONValue.string "https://localhost/cert.pem") ]
  else if encoded = callbackJSON then
    .ok [ ("Type", JSONValue.string "SubscriptionConfirmation"),
      ("SubscribeUrl", JSONValue.string "https://localhost/subscribe"),
      ("SigningCertUrl", JSONValue.string "https://localhost/cert.pem") ]
  else .error "unexpected end of JSON input"

/-- An environment in which every certificate URL parses as an `http` URL on
an untrusted host, while the network would serve an accepting certificate. -/
def insecureUntrustedEnv : Env where
  urlParse := fun _ => .ok ⟨"http", "attacker.example.com"⟩
  httpGet := fun _ => .ok ⟨200, .ok [1, 2, 3]⟩
  pemDecode := fun data => some data
  x509ParseCertificate := fun der => .ok ⟨der⟩
  base64DecodeString := fun _ => .ok [4, 5, 6]
  checkSignature := fun _ _ _ _ => none

/-! ## Vocabulary of the claims on the signable string -/

/-- The value of the local variable `signableKeys` of `buildSignableString`: the
key order selected for the message. -/
def SNSValidator.signableKeys (validator : SNSValidator) : List String :=
  if validator.isTypes subscriptionMessageTypes then signableKeysForSubscription
  else signableKeysForNotification

/-- The Notification example with MessageId `b` and Subject `c`. -/
def splitFieldsMessage : SNSValidator :=
  withField (withField notificationMessage "MessageId" "b") "Subject" "c"

/-- The Notification example with MessageId `b\nSubject\nc` and no Subject. -/
def mergedFieldsMessage : SNSValidator :=
  withoutField (withField notificationMessage "MessageId" "b\nSubject\nc") "Subject"

/-- An environment whose URLs parse by the example table and whose network
refuses every connection. -/
def unreachableEnv : Env where
  urlParse := exampleParse
  httpGet := fun _ => .error "dial tcp: connection refused"
  pemDecode := fun data => some data
  x509ParseCertificate := fun der => .ok ⟨der⟩
  base64DecodeString := stdDecodeString
  checkSignature := fun _ _ _ _ => none

/-! ## The requests behind one call of `http.Get`

`http.Get` is the method `Get` of the default client of Go's `net/http`, which
belongs to the library, not to the repository. The validator configures no
client of its own, so the redirect policy is the default one: a redirect is
followed, and the client gives up when ten requests in a row were answered by a
redirect. -/

/-- What a server answers to one GET request, as far as the default client
distinguishes: a redirect that the client follows to `location`, a response
that the client returns to its caller, or a failure of the exchange. -/
inductive WireAnswer where
  | redirect (location : String)
  | response (res : Response)
  | failure (err : String)

/-- A model of `http.Get` of the default client over a network `wire`, with
`budget` requests left: the result of the call, and the URLs requested on the
network, in order. -/
def clientGet (wire : String → WireAnswer) :
    Nat → String → Except String Response × List String
  | 0, _ => (.error "stopped after 10 redirects", [])
  | budget + 1, url =>
    match wire url with
    | WireAnswer.redirect location =>
      ((clientGet wire budget location).1, url :: (clientGet wire budget location).2)
    | WireAnswer.response res => (.ok res, [url])
    | WireAnswer.failure err => (.error err, [url])

/-- The environment `env` with `http.Get` played by the default client over the
network `wire`. -/
def overWire (env : Env) (wire : String → WireAnswer) : Env :=
  { env with httpGet := fun url => (clientGet wire 10 url).1 }

/-- The URLs requested on the network during one call of `ValidateMessage`: for
each call of `http.Get`, the requests the client sends. -/
def SNSValidator.wireRequests (env : Env) (wire : String → WireAnswer)
    (validator : SNSValidator) : List String :=
  (((validator.ValidateMessage (overWire env wire)).gets).map
    (fun url => (clientGet wire 10 url).2)).flatten

/-- A network on which the certificate URL of the examples, on a trusted host,
redirects to a URL on another host, which serves a certificate. -/
def redirectingWire (url : String) : WireAnswer :=
  if url = "https://sns.ap-northeast-1.amazonaws.com/cert.pem" then
    WireAnswer.redirect "https://attacker.example.com/cert.pem"
  else if url = "https://attacker.example.com/cert.pem" then
    WireAnswer.response ⟨200, .ok [1, 2, 3]⟩
  else WireAnswer.failure "dial tcp: connection refused"

/-! ## Basic lemmas on the map accessors -/

theorem has_eq_true_iff (validator : SNSValidator) (key : String) :
    validator.has key = true ↔ Present validator.MessageMap key := by
  unfold SNSValidator.has Present
  cases h : validator.MessageMap key with
  | none => simp
  | some value => by_cases hv : value = "" <;> simp [hv]

theorem has_eq_false_iff (validator : SNSValidator) (key : String) :
    validator.has key = false ↔ ¬ Present validator.MessageMap key := by
  rw [← has_eq_true_iff]; simp

theorem has_eq_index (validator : SNSValidator) (key : String) :
    validator.has key = decide (validator.index key ≠ "") := by
  unfold SNSValidator.has SNSValidator.index
  cases validator.MessageMap key with
  | none => simp
  | some value => by_cases hv : value = "" <;> simp [hv]

theorem index_of_some (validator : SNSValidator) (key value : String)
    (h : validator.MessageMap key = some value) : validator.index key = value := by
  simp [SNSValidator.index, h]

theorem hasKeys_all (validator : SNSValidator) (keylist : List String)
    (h : ∀ key ∈ keylist, validator.has key = true) :
    validator.hasKeys keylist = (true, "") := by
  induction keylist with
  | nil => rfl
  | cons key rest ih =>
    have hk : validator.has key = true := h key (List.mem_cons_self _ _)
    have hr : ∀ x ∈ rest, validator.has x = true :=
      fun x hx => h x (List.mem_cons_of_mem _ hx)
    simp [SNSValidator.hasKeys, hk, ih hr]

theorem hasKeys_first_missing (validator : SNSValidator) (pre post : List String)
    (key : String) (hpre : ∀ x ∈ pre, validator.has x = true)
    (hkey : validator.has key = false) :
    validator.hasKeys (pre ++ key :: post) = (false, key) := by
  induction pre with
  | nil => simp [SNSValidator.hasKeys, hkey]
  | cons x rest ih =>
    have hx : validator.has x = true := hpre x (List.mem_cons_self _ _)
    have hr : ∀ y ∈ rest, validator.has y = true :=
      fun y hy => hpre y (List.mem_cons_of_mem _ hy)
    simp [SNSValidator.hasKeys, hx, ih hr]

theorem isTypesLoop_eq_true_iff (messageType : String) (typelist : List String) :
    isTypesLoop messageType typelist = true ↔ messageType ∈ typelist := by
  induction typelist with
  | nil => simp [isTypesLoop]
  | cons t rest ih =>
    by_cases h : messageType = t
    · simp [isTypesLoop, h]
    · simp [isTypesLoop, h, ih]

theorem validateRequiredKeys_none (validator : SNSValidator)
    (h : ∀ key ∈ requiredKeys, Present validator.MessageMap key) :
    validator.validateRequiredKeys = none := by
  have h2 : ∀ key ∈ requiredKeys, validator.has key = true :=
    fun key hk => (has_eq_true_iff validator key).2 (h key hk)
  simp [SNSValidator.validateRequiredKeys, hasKeys_all validator requiredKeys h2]

theorem validateMessageStructure_of_missing (validator : SNSValidator)
    (pre post : List String) (key : String)
    (horder : requiredKeys = pre ++ key :: post)
    (hpre : ∀ x ∈ pre, Present validator.MessageMap x)
    (hkey : ¬ Present validator.MessageMap key) :
    validator.validateMessageStructure =
      some ⟨"MissingKey", "\"" ++ key ++ "\" is required in SNS message"⟩ := by
  have h1 : ∀ x ∈ pre, validator.has x = true :=
    fun x hx => (has_eq_true_iff validator x).2 (hpre x hx)
  have h2 : validator.has key = false := (has_eq_false_iff validator key).2 hkey
  have h3 := hasKeys_first_missing validator pre post key h1 h2
  simp [SNSValidator.validateMessageStructure, SNSValidator.validateRequiredKeys, horder, h3,
    New, ErrMissingKey]

theorem isTypes_eq_true_iff (validator : SNSValidator) (typelist : List String) :
    validator.isTypes typelist = true ↔ validator.index "Type" ∈ typelist := by
  unfold SNSValidator.isTypes
  exact isTypesLoop_eq_true_iff _ _

theorem validateMessageStructure_of_invalid_type (validator : SNSValidator) (t : String)
    (hreq : ∀ key ∈ requiredKeys, Present validator.MessageMap key)
    (ht : validator.MessageMap "Type" = some t)
    (hbad : t ∉ ["Notification", "SubscriptionConfirmation", "UnsubscribeConfirmation"]) :
    validator.validateMessageStructure =
      some ⟨"InvalidType", "Invalid message type \"" ++ t ++ "\""⟩ := by
  have h1 := validateRequiredKeys_none validator hreq
  have h2 : validator.index "Type" = t := index_of_some validator "Type" t ht
  have h3 : validator.isTypes validMessageTypes = false := by
    rw [← Bool.not_eq_true, isTypes_eq_true_iff, h2]
    simp only [validMessageTypes, TypeSubscriptionConfirmation, TypeUnsubscribeConfirmation,
      TypeNotification]
    simp only [List.mem_cons, List.mem_singleton, List.not_mem_nil, or_false] at hbad ⊢
    tauto
  simp [SNSValidator.validateMessageStructure, h1, SNSValidator.validateMessageType, h3, h2,
    New, ErrInvalidType]

theorem validateMessageStructure_of_subscription (validator : SNSValidator)
    (hreq : ∀ key ∈ requiredKeys, Present validator.MessageMap key)
    (htype : validator.MessageMap "Type" = some "SubscriptionConfirmation"
      ∨ validator.MessageMap "Type" = some "UnsubscribeConfirmation") :
    validator.validateMessageStructure = validator.validateSubscriptionKeys := by
  have h1 := validateRequiredKeys_none validator hreq
  have h2 : validator.index "Type" = "SubscriptionConfirmation"
      ∨ validator.index "Type" = "UnsubscribeConfirmation" := by
    rcases htype with h | h
    · exact Or.inl (index_of_some _ _ _ h)
    · exact Or.inr (index_of_some _ _ _ h)
  have h3 : validator.isTypes validMessageTypes = true := by
    rw [isTypes_eq_true_iff]
    rcases h2 with h | h <;> rw [h] <;> decide
  have h4 : validator.isTypes subscriptionMessageTypes = true := by
    rw [isTypes_eq_true_iff]
    rcases h2 with h | h <;> rw [h] <;> decide
  simp only [SNSValidator.validateMessageStructure, h1, SNSValidator.validateMessageType, h3,
    h4]
  cases validator.validateSubscriptionKeys <;> simp

theorem exists_missing_of_not_all (validator : SNSValidator) (keylist : List String)
    (h : ¬ ∀ key ∈ keylist, Present validator.MessageMap key) :
    ∃ pre key post, keylist = pre ++ key :: post
      ∧ (∀ x ∈ pre, Present validator.MessageMap x)
      ∧ ¬ Present validator.MessageMap key := by
  induction keylist with
  | nil => exact absurd (fun _ hk => absurd hk (List.not_mem_nil _)) h
  | cons k rest ih =>
    by_cases hk : Present validator.MessageMap k
    · have hrest : ¬ ∀ key ∈ rest, Present validator.MessageMap key := by
        intro hall
        apply h
        intro key hkey
        rcases List.mem_cons.1 hkey with rfl | hmem
        · exact hk
        · exact hall key hmem
      obtain ⟨pre, key, post, heq, hpre, hkey⟩ := ih hrest
      refine ⟨k :: pre, key, post, by simp [heq], ?_, hkey⟩
      intro x hx
      rcases List.mem_cons.1 hx with rfl | hmem
      · exact hk
      · exact hpre x hmem
    · exact ⟨[], k, rest, rfl, fun _ hx => absurd hx (List.not_mem_nil _), hk⟩

theorem validateSubscriptionKeys_cases (validator : SNSValidator) :
    (¬ Present validator.MessageMap "SubscribeURL" →
      validator.validateSubscriptionKeys =
        some ⟨"MissingKey", "\"SubscribeURL\" is required in Subscription message"⟩)
    ∧ (Present validator.MessageMap "SubscribeURL" →
      ¬ Present validator.MessageMap "Token" →
      validator.validateSubscriptionKeys =
        some ⟨"MissingKey", "\"Token\" is required in Subscription message"⟩)
    ∧ (Present validator.MessageMap "SubscribeURL" →
      Present validator.MessageMap "Token" →
      validator.validateSubscriptionKeys = none) := by
  refine ⟨?_, ?_, ?_⟩
  · intro h1
    have := (has_eq_false_iff validator "SubscribeURL").2 h1
    simp [SNSValidator.validateSubscriptionKeys, requiredSubscriptionKeys,
      SNSValidator.hasKeys, this, New, ErrMissingKey]
  · intro h1 h2
    have := (has_eq_true_iff validator "SubscribeURL").2 h1
    have := (has_eq_false_iff validator "Token").2 h2
    simp [SNSValidator.validateSubscriptionKeys, requiredSubscriptionKeys,
      SNSValidator.hasKeys, *, New, ErrMissingKey]
  · intro h1 h2
    have := (has_eq_true_iff validator "SubscribeURL").2 h1
    have := (has_eq_true_iff validator "Token").2 h2
    simp [SNSValidator.validateSubscriptionKeys, requiredSubscriptionKeys,
      SNSValidator.hasKeys, *]

theorem verifySignature_accepts_iff (env : Env) (validator : SNSValidator) :
    (validator.verifySignature env).val = none ↔
      ∃ parsedUrl, env.urlParse (validator.index "SigningCertURL") = .ok parsedUrl
        ∧ parsedUrl.Scheme = "https" ∧ MatchString parsedUrl.Hostname = true
        ∧ ∃ res body, env.httpGet (validator.index "SigningCertURL") = .ok res
          ∧ res.StatusCode = 200 ∧ res.Body = .ok body
          ∧ ∃ blockBytes, env.pemDecode body = some blockBytes
            ∧ ∃ cert, env.x509ParseCertificate blockBytes = .ok cert
              ∧ ∃ decodedSignature,
                env.base64DecodeString (validator.index "Signature") = .ok decodedSignature
                ∧ env.checkSignature cert SignatureAlgorithm.SHA1WithRSA
                    validator.buildSignableString decodedSignature = none := by
  unfold SNSValidator.verifySignature SNSValidator.getCertificate
  cases h1 : env.urlParse (validator.index "SigningCertURL") with
  | error e => simp
  | ok u =>
    by_cases h2 : u.Scheme = "https"
    · cases h3 : MatchString u.Hostname with
      | false => simp [h2, h3]
      | true =>
        cases h4 : env.httpGet (validator.index "SigningCertURL") with
        | error e => simp [h2, h3, h4]
        | ok res =>
          by_cases h5 : res.StatusCode = 200
          · cases h6 : res.Body with
            | error e => simp [h2, h3, h4, h5, h6]
            | ok body =>
              cases h7 : env.pemDecode body with
              | none => simp [h2, h3, h4, h5, h6, h7]
              | some blockBytes =>
                cases h8 : env.x509ParseCertificate blockBytes with
                | error e => simp [h2, h3, h4, h5, h6, h7, h8]
                | ok cert =>
                  cases h9 : env.base64DecodeString (validator.index "Signature") with
                  | error e => simp [h2, h3, h4, h5, h6, h7, h8, h9]
                  | ok sig =>
                    cases h10 : env.checkSignature cert SignatureAlgorithm.SHA1WithRSA
                      validator.buildSignableString sig with
                    | some e => simp [h2, h3, h4, h5, h6, h7, h8, h9, h10]
                    | none => simp [h2, h3, h4, h5, h6, h7, h8, h9, h10]
          · simp [h2, h3, h4, h5]
    · simp [h2]

theorem verifySignature_of_insecure_scheme (env : Env) (validator : SNSValidator)
    (parsedUrl : URL)
    (hparse : env.urlParse (validator.index "SigningCertURL") = .ok parsedUrl)
    (hscheme : parsedUrl.Scheme ≠ "https") :
    (validator.verifySignature env).val =
        some ⟨"InvalidCert", "The certificate URL is using insecure HTTP scheme"⟩
      ∧ (validator.verifySignature env).gets = [] := by
  simp [SNSValidator.verifySignature, hparse, hscheme, New, ErrInvalidCert]

theorem verifySignature_of_untrusted_host (env : Env) (validator : SNSValidator)
    (parsedUrl : URL)
    (hparse : env.urlParse (validator.index "SigningCertURL") = .ok parsedUrl)
    (hscheme : parsedUrl.Scheme = "https")
    (hhost : MatchString parsedUrl.Hostname = false) :
    (validator.verifySignature env).val =
        some ⟨"InvalidCert", "The certificate URL belongs to an untrusted host"⟩
      ∧ (validator.verifySignature env).gets = [] := by
  simp [SNSValidator.verifySignature, hparse, hscheme, hhost, New, ErrInvalidCert]

theorem ValidateMessage_of_structure_ok (env : Env) (validator : SNSValidator)
    (hstruct : validator.validateMessageStructure = none) :
    (validator.ValidateMessage env).val = (validator.verifySignature env).val
      ∧ (validator.ValidateMessage env).gets = (validator.verifySignature env).gets := by
  unfold SNSValidator.ValidateMessage
  rw [hstruct]
  rcases validator.verifySignature env with ⟨_ | err, gets⟩ <;> simp

/-! ### The validator reads its map only through `index` -/

theorem has_congr (v w : SNSValidator) (h : ∀ key, v.index key = w.index key)
    (key : String) : v.has key = w.has key := by
  rw [has_eq_index, has_eq_index, h]

theorem hasKeys_congr (v w : SNSValidator) (h : ∀ key, v.index key = w.index key)
    (keylist : List String) : v.hasKeys keylist = w.hasKeys keylist := by
  induction keylist with
  | nil => rfl
  | cons key rest ih => simp [SNSValidator.hasKeys, has_congr v w h, ih]

theorem validateMessageStructure_congr (v w : SNSValidator)
    (h : ∀ key, v.index key = w.index key) :
    v.validateMessageStructure = w.validateMessageStructure := by
  simp only [SNSValidator.validateMessageStructure, SNSValidator.validateRequiredKeys,
    SNSValidator.validateMessageType, SNSValidator.validateSubscriptionKeys,
    SNSValidator.isTypes, hasKeys_congr v w h, h]

theorem buildSignableString_congr (v w : SNSValidator)
    (h : ∀ key, v.index key = w.index key) :
    v.buildSignableString = w.buildSignableString := by
  simp only [SNSValidator.buildSignableString, SNSValidator.isTypes, has_congr v w h, h]

theorem verifySignature_congr (env : Env) (v w : SNSValidator)
    (h : ∀ key, v.index key = w.index key) :
    v.verifySignature env = w.verifySignature env := by
  simp only [SNSValidator.verifySignature, SNSValidator.getCertificate,
    buildSignableString_congr v w h, h]

theorem ValidateMessage_congr (env : Env) (v w : SNSValidator)
    (h : ∀ key, v.index key = w.index key) :
    v.ValidateMessage env = w.ValidateMessage env := by
  simp only [SNSValidator.ValidateMessage, validateMessageStructure_congr v w h,
    verifySignature_congr env v w h]

theorem index_withField_empty (validator : SNSValidator) (key k : String) :
    (withField validator key "").index k = (withoutField validator key).index k := by
  unfold SNSValidator.index withField withoutField
  by_cases hk : k = key <;> simp [hk]

/-! ### The signable string as a concatenation -/

theorem foldl_append_acc (l : List String) (acc : String) :
    l.foldl (fun r s => r ++ s) acc = acc ++ l.foldl (fun r s => r ++ s) "" := by
  induction l generalizing acc with
  | nil => simp
  | cons a rest ih =>
    rw [List.foldl_cons, List.foldl_cons, ih (acc ++ a), ih ("" ++ a)]
    simp [String.append_assoc]

theorem join_cons (a : String) (l : List String) :
    String.join (a :: l) = a ++ String.join l := by
  unfold String.join
  rw [List.foldl_cons, foldl_append_acc]
  simp

theorem foldl_segments (seg : String → String) (step : String → String → String)
    (hstep : ∀ acc key, step acc key = acc ++ seg key) (keys : List String) (acc : String) :
    keys.foldl step acc = acc ++ String.join (keys.map seg) := by
  induction keys generalizing acc with
  | nil => simp [String.join]
  | cons key rest ih =>
    rw [List.foldl_cons, ih, hstep, List.map_cons, join_cons, String.append_assoc]

theorem isTypes_subscription_iff (validator : SNSValidator) :
    validator.isTypes subscriptionMessageTypes = true ↔
      (validator.MessageMap "Type" = some "SubscriptionConfirmation"
        ∨ validator.MessageMap "Type" = some "UnsubscribeConfirmation") := by
  rw [isTypes_eq_true_iff]
  unfold SNSValidator.index
  cases validator.MessageMap "Type" with
  | none =>
    simp [subscriptionMessageTypes, TypeSubscriptionConfirmation, TypeUnsubscribeConfirmation]
  | some t =>
    simp [subscriptionMessageTypes, TypeSubscriptionConfirmation, TypeUnsubscribeConfirmation]

/-! ### The host pattern -/

theorem literal_rmatch_iff (cs x : List Char) :
    (cs.foldr (fun c r => RegularExpression.char c * r) 1).rmatch x = true ↔ x = cs := by
  induction cs generalizing x with
  | nil => simp [RegularExpression.one_rmatch_iff x]
  | cons c rest ih =>
    rw [List.foldr_cons, RegularExpression.mul_rmatch_iff]
    constructor
    · rintro ⟨t, u, rfl, ht, hu⟩
      rw [RegularExpression.char_rmatch_iff] at ht
      rw [ih] at hu
      subst ht hu
      rfl
    · rintro rfl
      exact ⟨[c], rest, rfl, (RegularExpression.char_rmatch_iff _ _).2 rfl, (ih _).2 rfl⟩

theorem oneOf_rmatch_iff (cs x : List Char) :
    (oneOf cs).rmatch x = true ↔ ∃ c ∈ cs, x = [c] := by
  induction cs with
  | nil => simp [oneOf, RegularExpression.zero_rmatch]
  | cons a rest ih =>
    unfold oneOf at ih ⊢
    rw [List.foldr_cons, RegularExpression.add_rmatch_iff, RegularExpression.char_rmatch_iff, ih]
    simp

theorem star_oneOf_rmatch_iff (cs x : List Char) :
    (RegularExpression.star (oneOf cs)).rmatch x = true ↔ ∀ c ∈ x, c ∈ cs := by
  rw [RegularExpression.star_rmatch_iff]
  constructor
  · rintro ⟨S, rfl, hS⟩ c hc
    obtain ⟨t, ht, hct⟩ := List.mem_flatten.1 hc
    obtain ⟨d, hd, rfl⟩ := (oneOf_rmatch_iff cs t).1 (hS t ht).2
    rw [List.mem_singleton] at hct
    subst hct
    exact hd
  · intro h
    refine ⟨x.map (fun c => [c]), ?_, ?_⟩
    · clear h
      induction x with
      | nil => rfl
      | cons a rest ih => simpa using ih
    · intro t ht
      obtain ⟨c, hc, rfl⟩ := List.mem_map.1 ht
      exact ⟨by simp, (oneOf_rmatch_iff cs [c]).2 ⟨c, h c hc, rfl⟩⟩

theorem repeatMin_oneOf_rmatch_iff (cs : List Char) (n : Nat) (x : List Char) :
    (repeatMin (oneOf cs) n).rmatch x = true ↔ n ≤ x.length ∧ ∀ c ∈ x, c ∈ cs := by
  induction n generalizing x with
  | zero =>
    unfold repeatMin
    rw [star_oneOf_rmatch_iff]
    simp
  | succ n ih =>
    unfold repeatMin
    rw [RegularExpression.mul_rmatch_iff]
    constructor
    · rintro ⟨t, u, rfl, ht, hu⟩
      obtain ⟨c, hc, rfl⟩ := (oneOf_rmatch_iff cs t).1 ht
      obtain ⟨hlen, hall⟩ := (ih u).1 hu
      refine ⟨by simpa using hlen, ?_⟩
      intro d hd
      rcases List.mem_cons.1 hd with rfl | hmem
      · exact hc
      · exact hall d hmem
    · rintro ⟨hlen, hall⟩
      cases x with
      | nil => simp at hlen
      | cons c u =>
        refine ⟨[c], u, rfl, (oneOf_rmatch_iff cs [c]).2 ⟨c, hall c (List.mem_cons_self _ _), rfl⟩,
          (ih u).2 ⟨by simpa using hlen, fun d hd => hall d (List.mem_cons_of_mem _ hd)⟩⟩

theorem defaultHostPatternRegexp_rmatch_iff (x : List Char) :
    defaultHostPatternRegexp.rmatch x = true ↔
      ∃ r : List Char, 3 ≤ r.length ∧ (∀ c ∈ r, c ∈ regionClassChars)
        ∧ (x = "sns.".toList ++ r ++ ".amazonaws.com".toList
          ∨ x = "sns.".toList ++ r ++ ".amazonaws.com".toList ++ ".cn".toList) := by
  unfold defaultHostPatternRegexp literal optional
  constructor
  · intro h
    obtain ⟨t1, u1, rfl, h1, h2⟩ := (RegularExpression.mul_rmatch_iff _ _ _).1 h
    obtain ⟨t2, u2, rfl, h3, h4⟩ := (RegularExpression.mul_rmatch_iff _ _ _).1 h1
    obtain ⟨t3, u3, rfl, h5, h6⟩ := (RegularExpression.mul_rmatch_iff _ _ _).1 h3
    rw [literal_rmatch_iff] at h5 h4
    rw [repeatMin_oneOf_rmatch_iff] at h6
    refine ⟨u3, h6.1, h6.2, ?_⟩
    rcases (RegularExpression.add_rmatch_iff _ _ _).1 h2 with h7 | h7
    · rw [literal_rmatch_iff] at h7
      subst h5 h4 h7
      exact Or.inr rfl
    · rw [RegularExpression.one_rmatch_iff] at h7
      subst h5 h4 h7
      exact Or.inl (by simp)
  · rintro ⟨r, hlen, hall, rfl | rfl⟩
    · refine (RegularExpression.mul_rmatch_iff _ _ _).2
        ⟨"sns.".toList ++ r ++ ".amazonaws.com".toList, [], (List.append_nil _).symm, ?_, ?_⟩
      · refine (RegularExpression.mul_rmatch_iff _ _ _).2 ⟨_, _, rfl, ?_, ?_⟩
        · refine (RegularExpression.mul_rmatch_iff _ _ _).2 ⟨_, _, rfl, ?_, ?_⟩
          · exact (literal_rmatch_iff _ _).2 rfl
          · exact (repeatMin_oneOf_rmatch_iff _ _ _).2 ⟨hlen, hall⟩
        · exact (literal_rmatch_iff _ _).2 rfl
      · exact (RegularExpression.add_rmatch_iff _ _ _).2
          (Or.inr ((RegularExpression.one_rmatch_iff _).2 rfl))
    · refine (RegularExpression.mul_rmatch_iff _ _ _).2 ⟨_, _, rfl, ?_, ?_⟩
      · refine (RegularExpression.mul_rmatch_iff _ _ _).2 ⟨_, _, rfl, ?_, ?_⟩
        · refine (RegularExpression.mul_rmatch_iff _ _ _).2 ⟨_, _, rfl, ?_, ?_⟩
          · exact (literal_rmatch_iff _ _).2 rfl
          · exact (repeatMin_oneOf_rmatch_iff _ _ _).2 ⟨hlen, hall⟩
        · exact (literal_rmatch_iff _ _).2 rfl
      · exact (RegularExpression.add_rmatch_iff _ _ _).2
          (Or.inl ((literal_rmatch_iff _ _).2 rfl))

theorem regionClassChars_all :
    regionClassChars.all (fun c => c.isAlpha || c.isDigit || c == '-') = true := by
  decide

theorem ofNat_mem_regionClassChars (n : Nat)
    (h : (65 ≤ n ∧ n ≤ 90) ∨ (97 ≤ n ∧ n ≤ 122) ∨ (48 ≤ n ∧ n ≤ 57)) :
    Char.ofNat n ∈ regionClassChars := by
  rcases h with ⟨h1, h2⟩ | ⟨h1, h2⟩ | ⟨h1, h2⟩ <;> interval_cases n <;> decide

theorem isAlpha_bounds (c : Char) (h : c.isAlpha = true) :
    (65 ≤ c.toNat ∧ c.toNat ≤ 90) ∨ (97 ≤ c.toNat ∧ c.toNat ≤ 122) := by
  simp only [Char.isAlpha, Char.isUpper, Char.isLower, Bool.or_eq_true, Bool.and_eq_true,
    decide_eq_true_eq, ge_iff_le, UInt32.le_def, BitVec.le_def] at h
  exact h

theorem isDigit_bounds (c : Char) (h : c.isDigit = true) :
    48 ≤ c.toNat ∧ c.toNat ≤ 57 := by
  simp only [Char.isDigit, Bool.and_eq_true, decide_eq_true_eq, ge_iff_le, UInt32.le_def,
    BitVec.le_def] at h
  exact h

theorem mem_regionClassChars_iff (c : Char) :
    c ∈ regionClassChars ↔ (c.isAlpha = true ∨ c.isDigit = true ∨ c = '-') := by
  constructor
  · intro h
    have := List.all_eq_true.1 regionClassChars_all c h
    simpa [or_assoc] using this
  · rintro (h | h | h)
    · rw [← Char.ofNat_toNat c]
      exact ofNat_mem_regionClassChars _ ((isAlpha_bounds c h).elim Or.inl (Or.inr ∘ Or.inl))
    · rw [← Char.ofNat_toNat c]
      exact ofNat_mem_regionClassChars _ (Or.inr (Or.inr (isDigit_bounds c h)))
    · subst h
      decide

theorem MatchString_iff (h : String) :
    MatchString h = true ↔
      ∃ r : String, 3 ≤ r.length
        ∧ (∀ c ∈ r.toList, c.isAlpha = true ∨ c.isDigit = true ∨ c = '-')
        ∧ (h = "sns." ++ r ++ ".amazonaws.com" ∨ h = "sns." ++ r ++ ".amazonaws.com.cn") := by
  unfold MatchString
  rw [defaultHostPatternRegexp_rmatch_iff]
  constructor
  · rintro ⟨r, hlen, hall, hx⟩
    refine ⟨⟨r⟩, hlen, fun c hc => (mem_regionClassChars_iff c).1 (hall c hc), ?_⟩
    rcases hx with hx | hx
    · left
      apply String.ext
      simpa [String.data_append] using hx
    · right
      apply String.ext
      simpa [String.data_append] using hx
  · rintro ⟨r, hlen, hall, hx⟩
    refine ⟨r.toList, hlen, fun c hc => (mem_regionClassChars_iff c).2 (hall c hc), ?_⟩
    rcases hx with rfl | rfl
    · left
      simp [String.data_append]
    · right
      simp [String.data_append]

theorem MatchString_region_host : MatchString "sns.us-east-1.amazonaws.com" = true := by
  decide

theorem MatchString_china_host : MatchString "sns.cn-north-1.amazonaws.com.cn" = true := by
  decide

theorem MatchString_upper_case : MatchString "SNS.us-east-1.amazonaws.com" = false := by
  decide

theorem MatchString_short_region : MatchString "sns.us.amazonaws.com" = false := by
  decide

theorem MatchString_leading_label : MatchString "www.sns.us-east-1.amazonaws.com" = false := by
  decide

theorem MatchString_trailing_label :
    MatchString "sns.us-east-1.amazonaws.com.attacker.com" = false := by
  decide

theorem MatchString_trailing_label_cn :
    MatchString "sns.us-east-1.amazonaws.com.cn.attacker.com" = false := by
  decide

/-- The Notification example is accepted when the network serves a certificate
that accepts its signature, after exactly one GET of the certificate URL. -/
theorem ValidateMessage_accepts_example :
    (notificationMessage.ValidateMessage servingEnv).val = none
      ∧ (notificationMessage.ValidateMessage servingEnv).gets
        = ["https://sns.ap-northeast-1.amazonaws.com/cert.pem"] := by
  decide

/-! ### Structural validation: the accepting case and the error kinds -/

theorem validateMessageStructure_of_notification (validator : SNSValidator)
    (hreq : ∀ key ∈ requiredKeys, Present validator.MessageMap key)
    (htype : validator.MessageMap "Type" = some "Notification") :
    validator.validateMessageStructure = none := by
  have h1 := validateRequiredKeys_none validator hreq
  have h2 : validator.index "Type" = "Notification" := index_of_some _ _ _ htype
  have h3 : validator.isTypes validMessageTypes = true := by
    rw [isTypes_eq_true_iff, h2]
    decide
  have h4 : validator.isTypes subscriptionMessageTypes = false := by
    rw [← Bool.not_eq_true, isTypes_eq_true_iff, h2]
    decide
  simp [SNSValidator.validateMessageStructure, h1, SNSValidator.validateMessageType, h3, h4]

theorem validateMessageStructure_none_iff (validator : SNSValidator) :
    validator.validateMessageStructure = none ↔
      (∀ key ∈ requiredKeys, Present validator.MessageMap key)
      ∧ (validator.MessageMap "Type" = some "Notification"
        ∨ validator.MessageMap "Type" = some "SubscriptionConfirmation"
        ∨ validator.MessageMap "Type" = some "UnsubscribeConfirmation")
      ∧ ((validator.MessageMap "Type" = some "SubscriptionConfirmation"
          ∨ validator.MessageMap "Type" = some "UnsubscribeConfirmation") →
        Present validator.MessageMap "SubscribeURL" ∧ Present validator.MessageMap "Token") := by
  by_cases hreq : ∀ key ∈ requiredKeys, Present validator.MessageMap key
  · have hT : Present validator.MessageMap "Type" := hreq "Type" (by simp [requiredKeys])
    cases ht : validator.MessageMap "Type" with
    | none => exact absurd ht hT.1
    | some t =>
      by_cases hn : t = "Notification"
      · subst hn
        rw [validateMessageStructure_of_notification validator hreq ht]
        exact ⟨fun _ => ⟨hreq, Or.inl rfl, fun h => absurd h (by decide)⟩, fun _ => rfl⟩
      · by_cases hs : t = "SubscriptionConfirmation" ∨ t = "UnsubscribeConfirmation"
        · have hs2 : validator.MessageMap "Type" = some "SubscriptionConfirmation"
              ∨ validator.MessageMap "Type" = some "UnsubscribeConfirmation" := by
            rcases hs with h | h
            · exact Or.inl (by rw [ht, h])
            · exact Or.inr (by rw [ht, h])
          rw [validateMessageStructure_of_subscription validator hreq hs2]
          obtain ⟨c1, c2, c3⟩ := validateSubscriptionKeys_cases validator
          have hs3 : some t = some "SubscriptionConfirmation"
              ∨ some t = some "UnsubscribeConfirmation" := by
            rcases hs with h | h
            · exact Or.inl (by rw [h])
            · exact Or.inr (by rw [h])
          by_cases hu : Present validator.MessageMap "SubscribeURL"
          · by_cases hk : Present validator.MessageMap "Token"
            · rw [c3 hu hk]
              simp only [true_iff]
              exact ⟨hreq, Or.inr hs3, fun _ => ⟨hu, hk⟩⟩
            · rw [c2 hu hk]
              constructor
              · intro h
                exact absurd h (by simp)
              · rintro ⟨_, _, h⟩
                exact absurd (h hs3).2 hk
          · rw [c1 hu]
            constructor
            · intro h
              exact absurd h (by simp)
            · rintro ⟨_, _, h⟩
              exact absurd (h hs3).1 hu
        · have hbad : t ∉ ["Notification", "SubscriptionConfirmation",
              "UnsubscribeConfirmation"] := by
            simp only [List.mem_cons, List.mem_singleton, List.not_mem_nil, or_false]
            tauto
          rw [validateMessageStructure_of_invalid_type validator t hreq ht hbad]
          constructor
          · intro h
            exact absurd h (by simp)
          · rintro ⟨_, h, _⟩
            simp only [Option.some.injEq] at h
            tauto
  · obtain ⟨pre, key, post, heq, hpre, hkey⟩ :=
      exists_missing_of_not_all validator _ hreq
    rw [validateMessageStructure_of_missing validator pre post key heq hpre hkey]
    constructor
    · intro h
      exact absurd h (by simp)
    · rintro ⟨h, _⟩
      exact absurd h hreq

theorem validateMessageStructure_kind (validator : SNSValidator) (err : SNSError)
    (h : validator.validateMessageStructure = some err) :
    err.t = "MissingKey" ∨ err.t = "InvalidType" := by
  by_cases hreq : ∀ key ∈ requiredKeys, Present validator.MessageMap key
  · have hT : Present validator.MessageMap "Type" := hreq "Type" (by simp [requiredKeys])
    cases ht : validator.MessageMap "Type" with
    | none => exact absurd ht hT.1
    | some t =>
      by_cases hbad : t ∈ ["Notification", "SubscriptionConfirmation",
          "UnsubscribeConfirmation"]
      · simp only [List.mem_cons, List.mem_singleton, List.not_mem_nil, or_false] at hbad
        rcases hbad with hn | hs
        · subst hn
          rw [validateMessageStructure_of_notification validator hreq ht] at h
          exact absurd h (by simp)
        · have hs2 : validator.MessageMap "Type" = some "SubscriptionConfirmation"
              ∨ validator.MessageMap "Type" = some "UnsubscribeConfirmation" := by
            rcases hs with h' | h'
            · exact Or.inl (by rw [ht, h'])
            · exact Or.inr (by rw [ht, h'])
          rw [validateMessageStructure_of_subscription validator hreq hs2] at h
          obtain ⟨c1, c2, c3⟩ := validateSubscriptionKeys_cases validator
          by_cases hu : Present validator.MessageMap "SubscribeURL"
          · by_cases hk : Present validator.MessageMap "Token"
            · rw [c3 hu hk] at h
              exact absurd h (by simp)
            · rw [c2 hu hk] at h
              injection h with h
              subst h
              exact Or.inl rfl
          · rw [c1 hu] at h
            injection h with h
            subst h
            exact Or.inl rfl
      · rw [validateMessageStructure_of_invalid_type validator t hreq ht hbad] at h
        injection h with h
        subst h
        exact Or.inr rfl
  · obtain ⟨pre, key, post, heq, hpre, hkey⟩ :=
      exists_missing_of_not_all validator _ hreq
    rw [validateMessageStructure_of_missing validator pre post key heq hpre hkey] at h
    injection h with h
    subst h
    exact Or.inl rfl

/-! ### The stages of `getCertificate` and `verifySignature` -/

theorem getCertificate_of_get_error (env : Env) (validator : SNSValidator) (e : String)
    (hget : env.httpGet (validator.index "SigningCertURL") = .error e) :
    validator.getCertificate env
      = ⟨(none, some ⟨"InvalidCert", e⟩), [validator.index "SigningCertURL"]⟩ := by
  simp [SNSValidator.getCertificate, hget, New, ErrInvalidCert]

theorem getCertificate_of_bad_status (env : Env) (validator : SNSValidator) (res : Response)
    (hget : env.httpGet (validator.index "SigningCertURL") = .ok res)
    (hstatus : res.StatusCode ≠ 200) :
    validator.getCertificate env
      = ⟨(none, some ⟨"InvalidCert", "Could not retrive the certificate"⟩),
          [validator.index "SigningCertURL"]⟩ := by
  simp [SNSValidator.getCertificate, hget, hstatus, New, ErrInvalidCert]

theorem getCertificate_of_read_error (env : Env) (validator : SNSValidator) (res : Response)
    (e : String)
    (hget : env.httpGet (validator.index "SigningCertURL") = .ok res)
    (hstatus : res.StatusCode = 200) (hbody : res.Body = .error e) :
    validator.getCertificate env
      = ⟨(none, some ⟨"InvalidCert", e⟩), [validator.index "SigningCertURL"]⟩ := by
  simp [SNSValidator.getCertificate, hget, hstatus, hbody, New, ErrInvalidCert]

theorem getCertificate_of_body (env : Env) (validator : SNSValidator) (res : Response)
    (body : Bytes)
    (hget : env.httpGet (validator.index "SigningCertURL") = .ok res)
    (hstatus : res.StatusCode = 200) (hbody : res.Body = .ok body) :
    validator.getCertificate env
      = ⟨(some body, none), [validator.index "SigningCertURL"]⟩ := by
  simp [SNSValidator.getCertificate, hget, hstatus, hbody]

theorem verifySignature_of_parse_error (env : Env) (validator : SNSValidator) (e : String)
    (hparse : env.urlParse (validator.index "SigningCertURL") = .error e) :
    validator.verifySignature env = ⟨some ⟨"InvalidCert", e⟩, []⟩ := by
  simp [SNSValidator.verifySignature, hparse, New, ErrInvalidCert]

theorem verifySignature_of_certificate_error (env : Env) (validator : SNSValidator)
    (parsedUrl : URL) (data : Option Bytes) (snserr : SNSError) (gets : List String)
    (hparse : env.urlParse (validator.index "SigningCertURL") = .ok parsedUrl)
    (hscheme : parsedUrl.Scheme = "https")
    (hhost : MatchString parsedUrl.Hostname = true)
    (hcert : validator.getCertificate env = ⟨(data, some snserr), gets⟩) :
    validator.verifySignature env = ⟨some snserr, gets⟩ := by
  simp [SNSValidator.verifySignature, hparse, hscheme, hhost, hcert]

theorem verifySignature_of_certificate_data (env : Env) (validator : SNSValidator)
    (parsedUrl : URL) (body : Bytes) (gets : List String)
    (hparse : env.urlParse (validator.index "SigningCertURL") = .ok parsedUrl)
    (hscheme : parsedUrl.Scheme = "https")
    (hhost : MatchString parsedUrl.Hostname = true)
    (hcert : validator.getCertificate env = ⟨(some body, none), gets⟩) :
    validator.verifySignature env =
      match env.pemDecode body with
      | none => ⟨some ⟨"InvalidCert", "Could not decode the certificate"⟩, gets⟩
      | some blockBytes =>
        match env.x509ParseCertificate blockBytes with
        | .error err => ⟨some ⟨"InvalidCert", err⟩, gets⟩
        | .ok cert =>
          match env.base64DecodeString (validator.index "Signature") with
          | .error _ =>
            ⟨some ⟨"IncorrectSignature", "Could not base64 decode the signature"⟩, gets⟩
          | .ok decodedSignature =>
            match env.checkSignature cert SignatureAlgorithm.SHA1WithRSA
                validator.buildSignableString decodedSignature with
            | some err => ⟨some ⟨"IncorrectSignature", "Incorrect signature: " ++ err⟩, gets⟩
            | none => ⟨none, gets⟩ := by
  simp [SNSValidator.verifySignature, hparse, hscheme, hhost, hcert, New, ErrInvalidCert,
    ErrIncorrectSignature]

theorem getCertificate_cases (env : Env) (validator : SNSValidator) :
    (∃ snserr, snserr.t = "InvalidCert"
        ∧ validator.getCertificate env
          = ⟨(none, some snserr), [validator.index "SigningCertURL"]⟩)
      ∨ ∃ body, validator.getCertificate env
          = ⟨(some body, none), [validator.index "SigningCertURL"]⟩ := by
  cases hget : env.httpGet (validator.index "SigningCertURL") with
  | error e => exact Or.inl ⟨_, rfl, getCertificate_of_get_error env validator e hget⟩
  | ok res =>
    by_cases hstatus : res.StatusCode = 200
    · cases hbody : res.Body with
      | error e =>
        exact Or.inl ⟨_, rfl, getCertificate_of_read_error env validator res e hget hstatus hbody⟩
      | ok body =>
        exact Or.inr ⟨body, getCertificate_of_body env validator res body hget hstatus hbody⟩
    · exact Or.inl ⟨_, rfl, getCertificate_of_bad_status env validator res hget hstatus⟩

theorem verifySignature_kind (env : Env) (validator : SNSValidator) (err : SNSError)
    (h : (validator.verifySignature env).val = some err) :
    err.t = "InvalidCert" ∨ err.t = "IncorrectSignature" := by
  cases hparse : env.urlParse (validator.index "SigningCertURL") with
  | error e =>
    rw [verifySignature_of_parse_error env validator e hparse] at h
    injection h with h
    subst h
    exact Or.inl rfl
  | ok parsedUrl =>
    by_cases hscheme : parsedUrl.Scheme = "https"
    · cases hhost : MatchString parsedUrl.Hostname with
      | false =>
        rw [(verifySignature_of_untrusted_host env validator parsedUrl hparse hscheme hhost).1]
          at h
        injection h with h
        subst h
        exact Or.inl rfl
      | true =>
        rcases getCertificate_cases env validator with ⟨snserr, hk, hcert⟩ | ⟨body, hcert⟩
        · rw [verifySignature_of_certificate_error env validator parsedUrl none snserr _
            hparse hscheme hhost hcert] at h
          injection h with h
          subst h
          exact Or.inl hk
        · rw [verifySignature_of_certificate_data env validator parsedUrl body _
            hparse hscheme hhost hcert] at h
          split at h
          · simp only [Option.some.injEq] at h
            subst h
            exact Or.inl rfl
          · split at h
            · simp only [Option.some.injEq] at h
              subst h
              exact Or.inl rfl
            · split at h
              · simp only [Option.some.injEq] at h
                subst h
                exact Or.inr rfl
              · split at h
                · simp only [Option.some.injEq] at h
                  subst h
                  exact Or.inr rfl
                · exact absurd h (by simp)
    · rw [(verifySignature_of_insecure_scheme env validator parsedUrl hparse hscheme).1] at h
      injection h with h
      subst h
      exact Or.inl rfl

theorem verifySignature_after_fetch (env : Env) (validator : SNSValidator)
    (parsedUrl : URL) (res : Response) (body : Bytes)
    (hparse : env.urlParse (validator.index "SigningCertURL") = .ok parsedUrl)
    (hscheme : parsedUrl.Scheme = "https")
    (hhost : MatchString parsedUrl.Hostname = true)
    (hget : env.httpGet (validator.index "SigningCertURL") = .ok res)
    (hstatus : res.StatusCode = 200) (hbody : res.Body = .ok body) :
    (validator.verifySignature env).val =
      match env.pemDecode body with
      | none => some ⟨"InvalidCert", "Could not decode the certificate"⟩
      | some blockBytes =>
        match env.x509ParseCertificate blockBytes with
        | .error err => some ⟨"InvalidCert", err⟩
        | .ok cert =>
          match env.base64DecodeString (validator.index "Signature") with
          | .error _ => some ⟨"IncorrectSignature", "Could not base64 decode the signature"⟩
          | .ok decodedSignature =>
            match env.checkSignature cert SignatureAlgorithm.SHA1WithRSA
                validator.buildSignableString decodedSignature with
            | some err => some ⟨"IncorrectSignature", "Incorrect signature: " ++ err⟩
            | none => none := by
  rw [verifySignature_of_certificate_data env validator parsedUrl body _ hparse hscheme hhost
    (getCertificate_of_body env validator res body hget hstatus hbody)]
  cases env.pemDecode body with
  | none => rfl
  | some blockBytes =>
    simp only []
    cases env.x509ParseCertificate blockBytes with
    | error e => rfl
    | ok cert =>
      simp only []
      cases env.base64DecodeString (validator.index "Signature") with
      | error e => rfl
      | ok sig =>
        simp only []
        cases env.checkSignature cert SignatureAlgorithm.SHA1WithRSA
            validator.buildSignableString sig with
        | some e => rfl
        | none => rfl

theorem MatchString_northeast_host :
    MatchString "sns.ap-northeast-1.amazonaws.com" = true := by
  decide

set_option maxRecDepth 8192 in
theorem pinnedEnv_accepts_signed_message :
    ((withField notificationMessage "Signature" "AQID").ValidateMessage pinnedEnv).val
      = none := by
  rw [(ValidateMessage_of_structure_ok pinnedEnv _ (by decide)).1,
    verifySignature_after_fetch pinnedEnv _ ⟨"https", "sns.ap-northeast-1.amazonaws.com"⟩
      ⟨200, .ok [1, 2, 3]⟩ [1, 2, 3] (by rfl) rfl MatchString_northeast_host (by rfl) rfl rfl]
  decide

/-! ### The signable string reads only the selected keys -/

theorem buildSignableString_congr_keys (v w : SNSValidator)
    (h : ∀ key ∈ (if v.isTypes subscriptionMessageTypes then signableKeysForSubscription
        else signableKeysForNotification), v.index key = w.index key) :
    v.buildSignableString = w.buildSignableString := by
  have htype : v.index "Type" = w.index "Type" := by
    apply h
    by_cases hs : v.isTypes subscriptionMessageTypes = true
    · rw [if_pos hs]
      decide
    · rw [if_neg hs]
      decide
  have hsub : w.isTypes subscriptionMessageTypes = v.isTypes subscriptionMessageTypes := by
    unfold SNSValidator.isTypes
    rw [htype]
  unfold SNSValidator.buildSignableString
  simp only [hsub]
  apply List.foldl_ext
  intro acc key hkey
  rw [has_eq_index, has_eq_index, h key hkey]

theorem buildSignableString_join (validator : SNSValidator) :
    validator.buildSignableString =
      String.join
        ((if validator.MessageMap "Type" = some "SubscriptionConfirmation"
              ∨ validator.MessageMap "Type" = some "UnsubscribeConfirmation" then
            ["Message", "MessageId", "Subject", "SubscribeURL", "Timestamp", "Token",
              "TopicArn", "Type"]
          else
            ["Message", "MessageId", "Subject", "SubscribeURL", "Timestamp", "TopicArn",
              "Type"]).map
          (fun key =>
            match validator.MessageMap key with
            | some value => if value = "" then "" else key ++ "\n" ++ value ++ "\n"
            | none => "")) := by
  have hstep : ∀ acc key,
      (fun signableString key =>
        if validator.has key then
          (((signableString ++ key) ++ "\n") ++ validator.index key) ++ "\n"
        else signableString) acc key
      = acc ++ (fun key =>
            match validator.MessageMap key with
            | some value => if value = "" then "" else key ++ "\n" ++ value ++ "\n"
            | none => "") key := by
    intro acc key
    simp only [SNSValidator.has, SNSValidator.index]
    cases validator.MessageMap key with
    | none => simp
    | some value => by_cases hv : value = "" <;> simp [hv, String.append_assoc]
  unfold SNSValidator.buildSignableString
  simp only []
  rw [foldl_segments _ _ hstep, String.empty_append]
  by_cases hsub : validator.isTypes subscriptionMessageTypes = true
  · rw [if_pos hsub, if_pos ((isTypes_subscription_iff validator).1 hsub)]
    rfl
  · rw [if_neg hsub, if_neg (fun h => hsub ((isTypes_subscription_iff validator).2 h))]
    rfl

/-! ### Package snsmessage -/

theorem matchField_callbackStyle (key : String) :
    matchField (callbackStyle key) = matchField key := by
  unfold callbackStyle
  by_cases h1 : key = "SubscribeURL"
  · subst h1
    decide
  · by_cases h2 : key = "SigningCertURL"
    · subst h2
      decide
    · by_cases h3 : key = "UnsubscribeURL"
      · subst h3
        decide
      · simp [h1, h2, h3]

theorem unmarshalMember_callbackStyle (state : SNSMessage × Option String)
    (member : String × JSONValue) :
    unmarshalMember state (callbackStyle member.1, member.2) = unmarshalMember state member := by
  unfold unmarshalMember
  simp only [matchField_callbackStyle]

theorem unmarshalObject_callbackStyle (members : List (String × JSONValue)) :
    unmarshalObject (members.map (fun kv => (callbackStyle kv.1, kv.2)))
      = unmarshalObject members := by
  unfold unmarshalObject
  rw [List.foldl_map]
  simp only [unmarshalMember_callbackStyle]

theorem unmarshalMember_no_error (state : SNSMessage × Option String)
    (member : String × JSONValue) (hstate : state.2 = none)
    (h : ∀ kind, member.2 = JSONValue.other kind → matchField member.1 = none) :
    (unmarshalMember state member).2 = none := by
  unfold unmarshalMember
  cases hm : matchField member.1 with
  | none => exact hstate
  | some tag =>
    cases hv : member.2 with
    | null => exact hstate
    | string s => exact hstate
    | other kind =>
      have := h kind hv
      rw [hm] at this
      cases this

theorem foldl_unmarshalMember_no_error (members : List (String × JSONValue))
    (state : SNSMessage × Option String) (hstate : state.2 = none)
    (h : ∀ member ∈ members, ∀ kind, member.2 = JSONValue.other kind →
      matchField member.1 = none) :
    (members.foldl unmarshalMember state).2 = none := by
  induction members generalizing state with
  | nil => exact hstate
  | cons member rest ih =>
    rw [List.foldl_cons]
    exact ih _ (unmarshalMember_no_error state member hstate
        (h member (List.mem_cons_self _ _)))
      (fun m hm => h m (List.mem_cons_of_mem _ hm))

theorem unmarshalObject_ok (members : List (String × JSONValue))
    (h : ∀ member ∈ members, ∀ kind, member.2 = JSONValue.other kind →
      matchField member.1 = none) :
    unmarshalObject members = .ok (members.foldl unmarshalMember (zeroMessage, none)).1 := by
  have h2 := foldl_unmarshalMember_no_error members (zeroMessage, none) rfl h
  unfold unmarshalObject
  generalize members.foldl unmarshalMember (zeroMessage, none) = state at h2
  obtain ⟨message, err⟩ := state
  simp only at h2
  subst h2
  rfl

theorem matchField_special_runes :
    matchField "To\u212Aen" = some "Token" ∧ matchField "\u017Fubject" = some "Subject"
      ∧ matchField "\u017Fub\u017Fcribeurl" = some "SubscribeURL"
      ∧ matchField "S\u0130gnature" = none := by
  decide

theorem unmarshalObject_later_member_wins :
    unmarshalObject [ ("SubscribeURL", JSONValue.string "a"),
        ("\u017Fub\u017Fcribeurl", JSONValue.string "b") ]
      = .ok { zeroMessage with SubscribeURL := "b" } := by
  rfl

theorem unmarshalObject_type_error :
    unmarshalObject [ ("Type", JSONValue.string "Notification"),
        ("SubscribeUrl", JSONValue.other "number"), ("Extra", JSONValue.other "array"),
        ("Token", JSONValue.null) ]
      = .error
        "json: cannot unmarshal number into Go struct field SNSMessage.SubscribeURL of type string" := by
  rfl

theorem toMap_of_other_key (message : SNSMessage) (key : String)
    (h : key ∉ ["Type", "MessageId", "Token", "TopicArn", "Message", "Timestamp", "Subject",
      "SubscribeURL", "SignatureVersion", "Signature", "SigningCertURL", "UnsubscribeURL"]) :
    message.toMap key = none := by
  simp only [List.mem_cons, List.mem_singleton, List.not_mem_nil, or_false, not_or] at h
  obtain ⟨h1, h2, h3, h4, h5, h6, h7, h8, h9, h10, h11, h12⟩ := h
  simp [SNSMessage.toMap, mapOf, List.find?, Ne.symm h1, Ne.symm h2, Ne.symm h3, Ne.symm h4,
    Ne.symm h5, Ne.symm h6, Ne.symm h7, Ne.symm h8, Ne.symm h9, Ne.symm h10, Ne.symm h11,
    Ne.symm h12]

theorem MatchString_attacker_host : MatchString "attacker.example.com" = false := by
  decide

/-! ### The GET trace -/

theorem verifySignature_gets_of_trusted (env : Env) (validator : SNSValidator)
    (parsedUrl : URL)
    (hparse : env.urlParse (validator.index "SigningCertURL") = .ok parsedUrl)
    (hscheme : parsedUrl.Scheme = "https")
    (hhost : MatchString parsedUrl.Hostname = true) :
    (validator.verifySignature env).gets = [validator.index "SigningCertURL"] := by
  rcases getCertificate_cases env validator with ⟨snserr, _, hcert⟩ | ⟨body, hcert⟩
  · rw [verifySignature_of_certificate_error env validator parsedUrl none snserr _ hparse
      hscheme hhost hcert]
  · rw [verifySignature_of_certificate_data env validator parsedUrl body _ hparse hscheme
      hhost hcert]
    repeat' split
    all_goals rfl

theorem verifySignature_gets_ne_nil_iff (env : Env) (validator : SNSValidator) :
    (validator.verifySignature env).gets ≠ [] ↔
      ∃ parsedUrl, env.urlParse (validator.index "SigningCertURL") = .ok parsedUrl
        ∧ parsedUrl.Scheme = "https" ∧ MatchString parsedUrl.Hostname = true := by
  cases hparse : env.urlParse (validator.index "SigningCertURL") with
  | error e =>
    rw [verifySignature_of_parse_error env validator e hparse]
    simp
  | ok parsedUrl =>
    by_cases hscheme : parsedUrl.Scheme = "https"
    · cases hhost : MatchString parsedUrl.Hostname with
      | false =>
        rw [(verifySignature_of_untrusted_host env validator parsedUrl hparse hscheme hhost).2]
        simp [hhost]
      | true =>
        rw [verifySignature_gets_of_trusted env validator parsedUrl hparse hscheme hhost]
        simp [hscheme, hhost]
    · rw [(verifySignature_of_insecure_scheme env validator parsedUrl hparse hscheme).2]
      simp [hscheme]

/-! ### What `validateMessageStructure` and `verifySignature` read -/

theorem hasKeys_congr_has (v w : SNSValidator) (h : ∀ key, v.has key = w.has key)
    (keylist : List String) : v.hasKeys keylist = w.hasKeys keylist := by
  induction keylist with
  | nil => rfl
  | cons key rest ih => simp [SNSValidator.hasKeys, h, ih]

theorem validateMessageStructure_congr_has (v w : SNSValidator)
    (hhas : ∀ key, v.has key = w.has key)
    (htype : v.index "Type" = w.index "Type") :
    v.validateMessageStructure = w.validateMessageStructure := by
  simp only [SNSValidator.validateMessageStructure, SNSValidator.validateRequiredKeys,
    SNSValidator.validateMessageType, SNSValidator.validateSubscriptionKeys,
    SNSValidator.isTypes, hasKeys_congr_has v w hhas, htype]

theorem verifySignature_congr_reads (env : Env) (v w : SNSValidator)
    (hurl : v.index "SigningCertURL" = w.index "SigningCertURL")
    (hsig : v.index "Signature" = w.index "Signature")
    (hbss : v.buildSignableString = w.buildSignableString) :
    v.verifySignature env = w.verifySignature env := by
  simp only [SNSValidator.verifySignature, SNSValidator.getCertificate, hurl, hsig, hbss]

theorem ValidateMessage_congr_reads (env : Env) (v w : SNSValidator)
    (hstruct : v.validateMessageStructure = w.validateMessageStructure)
    (hurl : v.index "SigningCertURL" = w.index "SigningCertURL")
    (hsig : v.index "Signature" = w.index "Signature")
    (hbss : v.buildSignableString = w.buildSignableString) :
    v.ValidateMessage env = w.ValidateMessage env := by
  simp only [SNSValidator.ValidateMessage, hstruct,
    verifySignature_congr_reads env v w hurl hsig hbss]

theorem ValidateMessage_congr_check (env : Env) (validator : SNSValidator)
    (check : Certificate → SignatureAlgorithm → String → Bytes → Option String)
    (h : ∀ cert signed signature, check cert SignatureAlgorithm.SHA1WithRSA signed signature
      = env.checkSignature cert SignatureAlgorithm.SHA1WithRSA signed signature) :
    validator.ValidateMessage { env with checkSignature := check }
      = validator.ValidateMessage env := by
  simp only [SNSValidator.ValidateMessage, SNSValidator.verifySignature,
    SNSValidator.getCertificate, h]

theorem signableKeys_eq (validator : SNSValidator) :
    validator.signableKeys = signableKeysForSubscription
      ∨ validator.signableKeys = signableKeysForNotification := by
  unfold SNSValidator.signableKeys
  by_cases h : validator.isTypes subscriptionMessageTypes = true
  · exact Or.inl (by rw [if_pos h])
  · exact Or.inr (by rw [if_neg h])

theorem type_mem_signableKeys (validator : SNSValidator) : "Type" ∈ validator.signableKeys := by
  rcases signableKeys_eq validator with h | h <;> rw [h] <;> decide

theorem signableKeys_congr (v w : SNSValidator) (h : v.index "Type" = w.index "Type") :
    v.signableKeys = w.signableKeys := by
  unfold SNSValidator.signableKeys SNSValidator.isTypes
  rw [h]

theorem buildSignableString_congr_signableKeys (v w : SNSValidator)
    (h : ∀ key ∈ v.signableKeys, v.index key = w.index key) :
    v.buildSignableString = w.buildSignableString :=
  buildSignableString_congr_keys v w h

/-! ### The signable string as a list of segments -/

theorem join_append (l₁ l₂ : List String) :
    String.join (l₁ ++ l₂) = String.join l₁ ++ String.join l₂ := by
  induction l₁ with
  | nil => simp [String.join]
  | cons a rest ih => rw [List.cons_append, join_cons, join_cons, ih, String.append_assoc]

theorem buildSignableString_segments (validator : SNSValidator) :
    validator.buildSignableString =
      String.join (validator.signableKeys.map (fun key =>
        if validator.index key = "" then "" else key ++ "\n" ++ validator.index key ++ "\n")) := by
  have hstep : ∀ acc key,
      (fun signableString key =>
        if validator.has key then
          (((signableString ++ key) ++ "\n") ++ validator.index key) ++ "\n"
        else signableString) acc key
      = acc ++ (fun key =>
          if validator.index key = "" then ""
          else key ++ "\n" ++ validator.index key ++ "\n") key := by
    intro acc key
    simp only [has_eq_index]
    by_cases h : validator.index key = "" <;> simp [h, String.append_assoc]
  unfold SNSValidator.buildSignableString SNSValidator.signableKeys
  simp only []
  rw [foldl_segments _ _ hstep, String.empty_append]

theorem string_append_cancel (a b s₁ s₂ : String) (h : a ++ s₁ ++ b = a ++ s₂ ++ b) :
    s₁ = s₂ := by
  apply String.ext
  have h2 := congrArg String.data h
  simpa [String.data_append] using h2

theorem segment_injective (key a b : String)
    (h : (if a = "" then "" else key ++ "\n" ++ a ++ "\n")
      = (if b = "" then "" else key ++ "\n" ++ b ++ "\n")) : a = b := by
  by_cases ha : a = ""
  · by_cases hb : b = ""
    · rw [ha, hb]
    · rw [if_pos ha, if_neg hb] at h
      have h2 := congrArg String.length h
      have hl : ("\n" : String).length = 1 := rfl
      have h0 : ("" : String).length = 0 := rfl
      simp only [String.length_append, hl, h0] at h2
      omega
  · by_cases hb : b = ""
    · rw [if_neg ha, if_pos hb] at h
      have h2 := congrArg String.length h
      have hl : ("\n" : String).length = 1 := rfl
      have h0 : ("" : String).length = 0 := rfl
      simp only [String.length_append, hl, h0] at h2
      omega
    · rw [if_neg ha, if_neg hb] at h
      apply String.ext
      have h2 := congrArg String.data h
      simpa [String.data_append] using h2

theorem signableKeys_nodup (validator : SNSValidator) : validator.signableKeys.Nodup := by
  rcases signableKeys_eq validator with h | h <;> rw [h] <;> decide

theorem buildSignableString_ne_of_index_ne (v w : SNSValidator) (key : String)
    (hkey : key ∈ v.signableKeys)
    (hother : ∀ x ∈ v.signableKeys, x ≠ key → v.index x = w.index x)
    (hne : key ≠ "Type")
    (hdiff : v.index key ≠ w.index key) :
    v.buildSignableString ≠ w.buildSignableString := by
  intro heq
  have hkeys : w.signableKeys = v.signableKeys :=
    (signableKeys_congr v w (hother "Type" (type_mem_signableKeys v) (Ne.symm hne))).symm
  rw [buildSignableString_segments v, buildSignableString_segments w, hkeys] at heq
  have hnodup := signableKeys_nodup v
  obtain ⟨pre, post, hsplit⟩ := List.append_of_mem hkey
  rw [hsplit] at heq hnodup
  have hpre : key ∉ pre := by
    intro hmem
    have := List.nodup_append.1 hnodup
    exact this.2.2 hmem (List.mem_cons_self _ _)
  have hpost : key ∉ post := by
    have := (List.nodup_append.1 hnodup).2.1
    exact (List.nodup_cons.1 this).1
  have hmap_pre : pre.map (fun key =>
        if v.index key = "" then "" else key ++ "\n" ++ v.index key ++ "\n")
      = pre.map (fun key =>
        if w.index key = "" then "" else key ++ "\n" ++ w.index key ++ "\n") := by
    apply List.map_congr_left
    intro x hx
    have hxk : x ≠ key := fun h => hpre (h ▸ hx)
    rw [hother x (by rw [hsplit]; exact List.mem_append_left _ hx) hxk]
  have hmap_post : post.map (fun key =>
        if v.index key = "" then "" else key ++ "\n" ++ v.index key ++ "\n")
      = post.map (fun key =>
        if w.index key = "" then "" else key ++ "\n" ++ w.index key ++ "\n") := by
    apply List.map_congr_left
    intro x hx
    have hxk : x ≠ key := fun h => hpost (h ▸ hx)
    rw [hother x (by rw [hsplit]; exact List.mem_append_right _ (List.mem_cons_of_mem _ hx)) hxk]
  rw [List.map_append, List.map_append, List.map_cons, List.map_cons, join_append, join_append,
    join_cons, join_cons, hmap_pre, hmap_post, ← String.append_assoc, ← String.append_assoc]
    at heq
  exact hdiff (segment_injective key _ _ (string_append_cancel _ _ _ _ heq))

/-! ### Reading the segments back -/

theorem append_cons_unique {α : Type} (c : α) (a a' x y : List α)
    (ha : c ∉ a) (ha' : c ∉ a') (h : a ++ c :: x = a' ++ c :: y) : a = a' ∧ x = y := by
  induction a generalizing a' with
  | nil =>
    cases a' with
    | nil => exact ⟨rfl, by simpa using h⟩
    | cons d r =>
      exfalso
      simp only [List.nil_append, List.cons_append, List.cons.injEq] at h
      exact ha' (by rw [h.1]; exact List.mem_cons_self _ _)
  | cons d r ih =>
    cases a' with
    | nil =>
      exfalso
      simp only [List.nil_append, List.cons_append, List.cons.injEq] at h
      exact ha (by rw [← h.1]; exact List.mem_cons_self _ _)
    | cons d' r' =>
      simp only [List.cons_append, List.cons.injEq] at h
      have hr : c ∉ r := fun hm => ha (List.mem_cons_of_mem _ hm)
      have hr' : c ∉ r' := fun hm => ha' (List.mem_cons_of_mem _ hm)
      obtain ⟨h1, h2⟩ := ih r' hr hr' h.2
      exact ⟨by rw [h.1, h1], h2⟩

theorem pairs_join_injective (P Q : List (String × String))
    (hP : ∀ p ∈ P, '\n' ∉ p.1.data ∧ '\n' ∉ p.2.data)
    (hQ : ∀ q ∈ Q, '\n' ∉ q.1.data ∧ '\n' ∉ q.2.data)
    (h : String.join (P.map (fun p => p.1 ++ "\n" ++ p.2 ++ "\n"))
      = String.join (Q.map (fun p => p.1 ++ "\n" ++ p.2 ++ "\n"))) : P = Q := by
  induction P generalizing Q with
  | nil =>
    cases Q with
    | nil => rfl
    | cons q Q' =>
      exfalso
      rw [List.map_cons, join_cons] at h
      have hj : String.join (List.map (fun p : String × String => p.1 ++ "\n" ++ p.2 ++ "\n") [])
          = "" := rfl
      rw [hj] at h
      have h2 := congrArg String.length h
      have hl : ("\n" : String).length = 1 := rfl
      have h0 : ("" : String).length = 0 := rfl
      simp only [String.length_append, hl, h0] at h2
      omega
  | cons p P' ih =>
    cases Q with
    | nil =>
      exfalso
      rw [List.map_cons, join_cons] at h
      have hj : String.join (List.map (fun p : String × String => p.1 ++ "\n" ++ p.2 ++ "\n") [])
          = "" := rfl
      rw [hj] at h
      have h2 := congrArg String.length h
      have hl : ("\n" : String).length = 1 := rfl
      have h0 : ("" : String).length = 0 := rfl
      simp only [String.length_append, hl, h0] at h2
      omega
    | cons q Q' =>
      rw [List.map_cons, List.map_cons, join_cons, join_cons] at h
      have h2 := congrArg String.data h
      simp only [String.data_append, List.append_assoc] at h2
      have hp := hP p (List.mem_cons_self _ _)
      have hq := hQ q (List.mem_cons_self _ _)
      simp only [List.singleton_append] at h2
      obtain ⟨e1, h3⟩ := append_cons_unique '\n' _ _ _ _ hp.1 hq.1 h2
      obtain ⟨e2, h4⟩ := append_cons_unique '\n' _ _ _ _ hp.2 hq.2 h3
      have hpq : p = q := Prod.ext (String.ext e1) (String.ext e2)
      have hrest : P' = Q' :=
        ih Q' (fun x hx => hP x (List.mem_cons_of_mem _ hx))
          (fun x hx => hQ x (List.mem_cons_of_mem _ hx)) (String.ext h4)
      rw [hpq, hrest]

theorem segments_eq_pairs (validator : SNSValidator) (keys : List String) :
    String.join (keys.map (fun key =>
        if validator.index key = "" then "" else key ++ "\n" ++ validator.index key ++ "\n"))
      = String.join (((keys.filter (fun key => validator.has key)).map
          (fun key => (key, validator.index key))).map
          (fun p => p.1 ++ "\n" ++ p.2 ++ "\n")) := by
  induction keys with
  | nil => rfl
  | cons key rest ih =>
    by_cases h : validator.index key = ""
    · have hh : validator.has key = false := by rw [has_eq_index]; simp [h]
      rw [List.map_cons, join_cons, if_pos h, String.empty_append, ih, List.filter_cons,
        hh]
      simp
    · have hh : validator.has key = true := by rw [has_eq_index]; simp [h]
      rw [List.map_cons, join_cons, if_neg h, ih, List.filter_cons, hh]
      simp [join_cons]

theorem mem_present_pairs (validator : SNSValidator) (keys : List String) (key a : String) :
    (key, a) ∈ (keys.filter (fun key => validator.has key)).map
        (fun key => (key, validator.index key))
      ↔ key ∈ keys ∧ validator.has key = true ∧ a = validator.index key := by
  simp only [List.mem_map, List.mem_filter, Prod.mk.injEq]
  constructor
  · rintro ⟨x, ⟨hx, hh⟩, rfl, rfl⟩
    exact ⟨hx, hh, rfl⟩
  · rintro ⟨hx, hh, rfl⟩
    exact ⟨key, ⟨hx, hh⟩, rfl, rfl⟩

theorem index_eq_of_present_pairs_eq (v w : SNSValidator) (key : String)
    (hP : (v.signableKeys.filter (fun key => v.has key)).map (fun key => (key, v.index key))
      = (w.signableKeys.filter (fun key => w.has key)).map (fun key => (key, w.index key)))
    (hv : key ∈ v.signableKeys) (hw : key ∈ w.signableKeys) :
    v.index key = w.index key := by
  cases hhv : v.has key with
  | true =>
    have hm := (mem_present_pairs v v.signableKeys key (v.index key)).2 ⟨hv, hhv, rfl⟩
    rw [hP] at hm
    exact ((mem_present_pairs w w.signableKeys key (v.index key)).1 hm).2.2
  | false =>
    have h1 : v.index key = "" := by
      rw [has_eq_index] at hhv
      simpa using hhv
    cases hhw : w.has key with
    | true =>
      have hm := (mem_present_pairs w w.signableKeys key (w.index key)).2 ⟨hw, hhw, rfl⟩
      rw [← hP] at hm
      have := ((mem_present_pairs v v.signableKeys key (w.index key)).1 hm).2.1
      rw [hhv] at this
      exact absurd this (by simp)
    | false =>
      have h2 : w.index key = "" := by
        rw [has_eq_index] at hhw
        simpa using hhw
      rw [h1, h2]

theorem signableKeys_newline_free (validator : SNSValidator) :
    ∀ key ∈ validator.signableKeys, '\n' ∉ key.data := by
  rcases signableKeys_eq validator with h | h <;> rw [h] <;> decide

theorem buildSignableString_injective (v w : SNSValidator)
    (hv : ∀ key ∈ v.signableKeys, '\n' ∉ (v.index key).data)
    (hw : ∀ key ∈ w.signableKeys, '\n' ∉ (w.index key).data)
    (heq : v.buildSignableString = w.buildSignableString) :
    v.signableKeys = w.signableKeys ∧ ∀ key ∈ v.signableKeys, v.index key = w.index key := by
  rw [buildSignableString_segments v, buildSignableString_segments w, segments_eq_pairs,
    segments_eq_pairs] at heq
  have hP := pairs_join_injective _ _
    (fun p hp => by
      obtain ⟨key, a⟩ := p
      obtain ⟨hk, _, rfl⟩ := (mem_present_pairs v v.signableKeys key a).1 hp
      exact ⟨signableKeys_newline_free v key hk, hv key hk⟩)
    (fun p hp => by
      obtain ⟨key, a⟩ := p
      obtain ⟨hk, _, rfl⟩ := (mem_present_pairs w w.signableKeys key a).1 hp
      exact ⟨signableKeys_newline_free w key hk, hw key hk⟩)
    heq
  have htype := index_eq_of_present_pairs_eq v w "Type" hP (type_mem_signableKeys v)
    (type_mem_signableKeys w)
  have hkeys := signableKeys_congr v w htype
  refine ⟨hkeys, ?_⟩
  intro key hk
  exact index_eq_of_present_pairs_eq v w key hP hk (hkeys ▸ hk)

set_option maxRecDepth 8192 in
theorem split_merged_same_string :
    splitFieldsMessage.buildSignableString = mergedFieldsMessage.buildSignableString := by
  decide

theorem index_withField_of_ne (validator : SNSValidator) (key value k : String)
    (h : k ≠ key) : (withField validator key value).index k = validator.index k := by
  simp [SNSValidator.index, withField, h]

theorem index_withField_self (validator : SNSValidator) (key value : String) :
    (withField validator key value).index key = value := by
  simp [SNSValidator.index, withField]

theorem index_withoutField_of_ne (validator : SNSValidator) (key k : String)
    (h : k ≠ key) : (withoutField validator key).index k = validator.index k := by
  simp [SNSValidator.index, withoutField, h]

theorem index_withoutField_self (validator : SNSValidator) (key : String) :
    (withoutField validator key).index key = "" := by
  simp [SNSValidator.index, withoutField]

theorem signatureVersion_not_signable (validator : SNSValidator) :
    ∀ key ∈ ["Signature", "SignatureVersion", "SigningCertURL", "UnsubscribeURL"],
      key ∉ validator.signableKeys := by
  rcases signableKeys_eq validator with h | h <;> rw [h] <;> decide

theorem pinnedEnv_accepts_version_one :
    ((withField (withField notificationMessage "Signature" "AQID")
        "SignatureVersion" "1").ValidateMessage pinnedEnv).val = none := by
  have h : ∀ key, (withField (withField notificationMessage "Signature" "AQID")
      "SignatureVersion" "1").index key
      = (withField notificationMessage "Signature" "AQID").index key := by
    intro key
    by_cases hk : key = "SignatureVersion"
    · subst hk
      decide
    · exact index_withField_of_ne _ _ _ _ hk
  rw [ValidateMessage_congr pinnedEnv _ _ h]
  exact pinnedEnv_accepts_signed_message

/-! ### The requests on the network -/

theorem redirectingWire_calls_once :
    (notificationMessage.ValidateMessage (overWire servingEnv redirectingWire)).gets
      = ["https://sns.ap-northeast-1.amazonaws.com/cert.pem"] := by
  rw [(ValidateMessage_of_structure_ok _ notificationMessage (by decide)).2,
    verifySignature_gets_of_trusted _ notificationMessage
      ⟨"https", "sns.ap-northeast-1.amazonaws.com"⟩ (by rfl) rfl MatchString_northeast_host]
  decide

theorem redirectingWire_requests :
    notificationMessage.wireRequests servingEnv redirectingWire
      = ["https://sns.ap-northeast-1.amazonaws.com/cert.pem",
          "https://attacker.example.com/cert.pem"] := by
  unfold SNSValidator.wireRequests
  rw [redirectingWire_calls_once]
  decide

theorem redirectingWire_accepts :
    (notificationMessage.ValidateMessage (overWire servingEnv redirectingWire)).val
      = none := by
  rw [(ValidateMessage_of_structure_ok _ notificationMessage (by decide)).1,
    verifySignature_after_fetch _ notificationMessage
      ⟨"https", "sns.ap-northeast-1.amazonaws.com"⟩ ⟨200, .ok [1, 2, 3]⟩ [1, 2, 3]
      (by rfl) rfl MatchString_northeast_host (by rfl) rfl rfl]
  rfl

/-! ## The claims -/

/-- C7: when a required field is absent or empty, `validateMessageStructure`
and `ValidateMessage` return a `MissingKey` error whose message names the first
absent-or-empty field in the order Type, MessageId, TopicArn, Message,
Timestamp, Signature, SignatureVersion, SigningCertURL, whatever the other
fields are, and no certificate is fetched. -/
theorem missing_required_key_names_first (env : Env) (validator : SNSValidator)
    (pre post : List String) (key : String)
    (horder : ["Type", "MessageId", "TopicArn", "Message", "Timestamp", "Signature",
      "SignatureVersion", "SigningCertURL"] = pre ++ key :: post)
    (hpre : ∀ x ∈ pre, Present validator.MessageMap x)
    (hkey : ¬ Present validator.MessageMap key) :
    validator.validateMessageStructure =
        some ⟨"MissingKey", "\"" ++ key ++ "\" is required in SNS message"⟩
      ∧ (validator.ValidateMessage env).val =
        some ⟨"MissingKey", "\"" ++ key ++ "\" is required in SNS message"⟩
      ∧ (validator.ValidateMessage env).gets = [] := by
  have h := validateMessageStructure_of_missing validator pre post key horder hpre hkey
  simp [SNSValidator.ValidateMessage, h]

/-- C7 at a concrete input: a Notification with an empty Message and no
Signature reports Message, the first of the two in the fixed order. -/
theorem missing_required_key_names_first_witness :
    (["Type", "MessageId", "TopicArn", "Message", "Timestamp", "Signature",
      "SignatureVersion", "SigningCertURL"]
        = ["Type", "MessageId", "TopicArn"] ++ "Message" ::
          ["Timestamp", "Signature", "SignatureVersion", "SigningCertURL"])
      ∧ (∀ x ∈ ["Type", "MessageId", "TopicArn"],
          Present (withoutField (withField notificationMessage "Message" "")
            "Signature").MessageMap x)
      ∧ ¬ Present (withoutField (withField notificationMessage "Message" "")
            "Signature").MessageMap "Message"
      ∧ ((withoutField (withField notificationMessage "Message" "")
            "Signature").validateMessageStructure =
          some ⟨"MissingKey", "\"" ++ "Message" ++ "\" is required in SNS message"⟩
        ∧ ((withoutField (withField notificationMessage "Message" "")
            "Signature").ValidateMessage failingEnv).val =
          some ⟨"MissingKey", "\"" ++ "Message" ++ "\" is required in SNS message"⟩
        ∧ ((withoutField (withField notificationMessage "Message" "")
            "Signature").ValidateMessage failingEnv).gets = []) :=
  ⟨rfl, by decide, by decide,
    missing_required_key_names_first failingEnv
      (withoutField (withField notificationMessage "Message" "") "Signature")
      ["Type", "MessageId", "TopicArn"]
      ["Timestamp", "Signature", "SignatureVersion", "SigningCertURL"] "Message"
      rfl (by decide) (by decide)⟩

/-- C8: when the eight required fields are present and the Type value `t` is
none of Notification, SubscriptionConfirmation, UnsubscribeConfirmation,
`validateMessageStructure` and `ValidateMessage` return the `InvalidType` error
with message `Invalid message type "t"`, whatever SubscribeURL and Token are. -/
theorem invalid_type_reported (env : Env) (validator : SNSValidator) (t : String)
    (hreq : ∀ key ∈ ["Type", "MessageId", "TopicArn", "Message", "Timestamp", "Signature",
      "SignatureVersion", "SigningCertURL"], Present validator.MessageMap key)
    (ht : validator.MessageMap "Type" = some t)
    (hbad : t ∉ ["Notification", "SubscriptionConfirmation", "UnsubscribeConfirmation"]) :
    validator.validateMessageStructure =
        some ⟨"InvalidType", "Invalid message type \"" ++ t ++ "\""⟩
      ∧ (validator.ValidateMessage env).val =
        some ⟨"InvalidType", "Invalid message type \"" ++ t ++ "\""⟩ := by
  have h := validateMessageStructure_of_invalid_type validator t hreq ht hbad
  simp [SNSValidator.ValidateMessage, h]

/-- C8 at a concrete input: the Notification example with Type set to
`InvalidType` and a Token and SubscribeURL present. -/
theorem invalid_type_reported_witness :
    (∀ key ∈ ["Type", "MessageId", "TopicArn", "Message", "Timestamp", "Signature",
        "SignatureVersion", "SigningCertURL"],
        Present (withField (withField notificationMessage "Type" "InvalidType")
          "Token" "abc").MessageMap key)
      ∧ (withField (withField notificationMessage "Type" "InvalidType")
          "Token" "abc").MessageMap "Type" = some "InvalidType"
      ∧ "InvalidType" ∉ ["Notification", "SubscriptionConfirmation", "UnsubscribeConfirmation"]
      ∧ ((withField (withField notificationMessage "Type" "InvalidType")
          "Token" "abc").validateMessageStructure =
            some ⟨"InvalidType", "Invalid message type \"" ++ "InvalidType" ++ "\""⟩
        ∧ ((withField (withField notificationMessage "Type" "InvalidType")
          "Token" "abc").ValidateMessage failingEnv).val =
            some ⟨"InvalidType", "Invalid message type \"" ++ "InvalidType" ++ "\""⟩) :=
  ⟨by decide, by decide, by decide,
    invalid_type_reported failingEnv
      (withField (withField notificationMessage "Type" "InvalidType") "Token" "abc")
      "InvalidType" (by decide) (by decide) (by decide)⟩

/-- C9, as stated, fails: a map whose Type is `InvalidType` and that has no
other field gets a `MissingKey` error about MessageId, not an `InvalidType`
error. -/
theorem invalid_type_without_required_keys_counterexample :
    (NewV1 (mapOf [("Type", "InvalidType")])).MessageMap "Type" = some "InvalidType"
      ∧ "InvalidType" ∉ ["Notification", "SubscriptionConfirmation", "UnsubscribeConfirmation"]
      ∧ ((NewV1 (mapOf [("Type", "InvalidType")])).ValidateMessage failingEnv).val =
          some ⟨"MissingKey", "\"MessageId\" is required in SNS message"⟩
      ∧ ¬ ∃ err, ((NewV1 (mapOf [("Type", "InvalidType")])).ValidateMessage failingEnv).val
          = some err ∧ err.t = "InvalidType" := by
  have h : ((NewV1 (mapOf [("Type", "InvalidType")])).ValidateMessage failingEnv).val =
      some ⟨"MissingKey", "\"MessageId\" is required in SNS message"⟩ := by decide
  refine ⟨by decide, by decide, h, ?_⟩
  rintro ⟨err, he, hk⟩
  rw [h] at he
  injection he with he
  subst he
  revert hk
  decide

/-- C9, amended: for a map whose Type is none of Notification,
SubscriptionConfirmation, UnsubscribeConfirmation (or is absent),
`ValidateMessage` returns the `InvalidType` error embedding the Type value when
the eight required fields are all present, and a `MissingKey` error when one of
them is absent or empty. -/
theorem invalid_type_or_missing_key (env : Env) (validator : SNSValidator)
    (hbad : ∀ t, validator.MessageMap "Type" = some t →
      t ∉ ["Notification", "SubscriptionConfirmation", "UnsubscribeConfirmation"]) :
    ((∀ key ∈ ["Type", "MessageId", "TopicArn", "Message", "Timestamp", "Signature",
        "SignatureVersion", "SigningCertURL"], Present validator.MessageMap key) →
      ∃ t, validator.MessageMap "Type" = some t
        ∧ (validator.ValidateMessage env).val =
          some ⟨"InvalidType", "Invalid message type \"" ++ t ++ "\""⟩)
    ∧ ((¬ ∀ key ∈ ["Type", "MessageId", "TopicArn", "Message", "Timestamp", "Signature",
        "SignatureVersion", "SigningCertURL"], Present validator.MessageMap key) →
      ∃ err, (validator.ValidateMessage env).val = some err ∧ err.t = "MissingKey") := by
  constructor
  · intro hreq
    have hT : Present validator.MessageMap "Type" := hreq "Type" (by simp)
    cases ht : validator.MessageMap "Type" with
    | none => exact absurd ht hT.1
    | some t =>
      refine ⟨t, rfl, ?_⟩
      have h := validateMessageStructure_of_invalid_type validator t hreq ht (hbad t ht)
      simp [SNSValidator.ValidateMessage, h]
  · intro hnot
    obtain ⟨pre, key, post, heq, hpre, hkey⟩ :=
      exists_missing_of_not_all validator _ hnot
    have h := validateMessageStructure_of_missing validator pre post key heq hpre hkey
    exact ⟨⟨"MissingKey", "\"" ++ key ++ "\" is required in SNS message"⟩,
      by simp [SNSValidator.ValidateMessage, h], rfl⟩

/-- C9 amended, at a concrete input: the Notification example with Type set to
`InvalidType`. -/
theorem invalid_type_or_missing_key_witness :
    (∀ t, (withField notificationMessage "Type" "InvalidType").MessageMap "Type" = some t →
        t ∉ ["Notification", "SubscriptionConfirmation", "UnsubscribeConfirmation"])
      ∧ ∃ t, (withField notificationMessage "Type" "InvalidType").MessageMap "Type" = some t
        ∧ ((withField notificationMessage "Type" "InvalidType").ValidateMessage failingEnv).val
          = some ⟨"InvalidType", "Invalid message type \"" ++ t ++ "\""⟩ :=
  have hbad : ∀ t, (withField notificationMessage "Type" "InvalidType").MessageMap "Type"
      = some t →
      t ∉ ["Notification", "SubscriptionConfirmation", "UnsubscribeConfirmation"] := by
    intro t ht
    have h2 : (withField notificationMessage "Type" "InvalidType").MessageMap "Type"
        = some "InvalidType" := by decide
    rw [h2] at ht
    injection ht with ht
    subst ht
    decide
  ⟨hbad,
    (invalid_type_or_missing_key failingEnv
      (withField notificationMessage "Type" "InvalidType") hbad).1 (by decide)⟩

/-- C10: when the eight required fields are present and Type is
SubscriptionConfirmation or UnsubscribeConfirmation, an absent or empty
SubscribeURL gives the `MissingKey` error
`"SubscribeURL" is required in Subscription message` (whatever Token is), and
otherwise an absent or empty Token gives the `MissingKey` error
`"Token" is required in Subscription message`, from both
`validateMessageStructure` and `ValidateMessage`. -/
theorem subscription_keys_required (env : Env) (validator : SNSValidator)
    (hreq : ∀ key ∈ ["Type", "MessageId", "TopicArn", "Message", "Timestamp", "Signature",
      "SignatureVersion", "SigningCertURL"], Present validator.MessageMap key)
    (htype : validator.MessageMap "Type" = some "SubscriptionConfirmation"
      ∨ validator.MessageMap "Type" = some "UnsubscribeConfirmation") :
    (¬ Present validator.MessageMap "SubscribeURL" →
      validator.validateMessageStructure =
          some ⟨"MissingKey", "\"SubscribeURL\" is required in Subscription message"⟩
        ∧ (validator.ValidateMessage env).val =
          some ⟨"MissingKey", "\"SubscribeURL\" is required in Subscription message"⟩)
    ∧ (Present validator.MessageMap "SubscribeURL" →
      ¬ Present validator.MessageMap "Token" →
      validator.validateMessageStructure =
          some ⟨"MissingKey", "\"Token\" is required in Subscription message"⟩
        ∧ (validator.ValidateMessage env).val =
          some ⟨"MissingKey", "\"Token\" is required in Subscription message"⟩) := by
  have h := validateMessageStructure_of_subscription validator hreq htype
  obtain ⟨c1, c2, _⟩ := validateSubscriptionKeys_cases validator
  constructor
  · intro h1
    have h2 := h.trans (c1 h1)
    simp [SNSValidator.ValidateMessage, h2]
  · intro h1 h2
    have h3 := h.trans (c2 h1 h2)
    simp [SNSValidator.ValidateMessage, h3]

/-- C10 at concrete inputs: the subscription example without SubscribeURL and
with an empty Token reports SubscribeURL; with only the Token removed, and Type
UnsubscribeConfirmation, it reports Token. -/
theorem subscription_keys_required_witness :
    ((withoutField (withField subscriptionMessage "Token" "") "SubscribeURL"
        ).validateMessageStructure =
          some ⟨"MissingKey", "\"SubscribeURL\" is required in Subscription message"⟩
      ∧ ((withoutField (withField subscriptionMessage "Token" "") "SubscribeURL"
        ).ValidateMessage failingEnv).val =
          some ⟨"MissingKey", "\"SubscribeURL\" is required in Subscription message"⟩)
    ∧ ((withoutField (withField subscriptionMessage "Type" "UnsubscribeConfirmation") "Token"
        ).validateMessageStructure =
          some ⟨"MissingKey", "\"Token\" is required in Subscription message"⟩
      ∧ ((withoutField (withField subscriptionMessage "Type" "UnsubscribeConfirmation") "Token"
        ).ValidateMessage failingEnv).val =
          some ⟨"MissingKey", "\"Token\" is required in Subscription message"⟩) :=
  ⟨(subscription_keys_required failingEnv
      (withoutField (withField subscriptionMessage "Token" "") "SubscribeURL")
      (by decide) (Or.inl (by decide))).1 (by decide),
    (subscription_keys_required failingEnv
      (withoutField (withField subscriptionMessage "Type" "UnsubscribeConfirmation") "Token")
      (by decide) (Or.inr (by decide))).2 (by decide) (by decide)⟩

/-- C1: `ValidateMessage` returns no error exactly when the map passes
structural validation, SigningCertURL parses to an `https` URL whose hostname
matches the allow-pattern, the GET answers 200 and its body is read, the body
PEM-decodes to a block that parses as a certificate, Signature decodes as
base64, and the certificate's SHA1WithRSA check of the decoded signature over
`buildSignableString` succeeds. -/
theorem ValidateMessage_accepts_iff (env : Env) (validator : SNSValidator) :
    (validator.ValidateMessage env).val = none ↔
      validator.validateMessageStructure = none
      ∧ ∃ parsedUrl, env.urlParse (validator.index "SigningCertURL") = .ok parsedUrl
        ∧ parsedUrl.Scheme = "https" ∧ MatchString parsedUrl.Hostname = true
        ∧ ∃ res body, env.httpGet (validator.index "SigningCertURL") = .ok res
          ∧ res.StatusCode = 200 ∧ res.Body = .ok body
          ∧ ∃ blockBytes, env.pemDecode body = some blockBytes
            ∧ ∃ cert, env.x509ParseCertificate blockBytes = .ok cert
              ∧ ∃ decodedSignature,
                env.base64DecodeString (validator.index "Signature") = .ok decodedSignature
                ∧ env.checkSignature cert SignatureAlgorithm.SHA1WithRSA
                    validator.buildSignableString decodedSignature = none := by
  cases hs : validator.validateMessageStructure with
  | some err => simp [SNSValidator.ValidateMessage, hs]
  | none =>
    rw [(ValidateMessage_of_structure_ok env validator hs).1, verifySignature_accepts_iff]
    simp

/-- C2: for a structurally valid map whose SigningCertURL parses with scheme
`https` and a hostname outside the allow-pattern, `verifySignature` and
`ValidateMessage` return the `InvalidCert` error
`The certificate URL belongs to an untrusted host`, in every environment (so
for every network response), and no GET is issued. -/
theorem untrusted_host_rejected (env : Env) (validator : SNSValidator)
    (certURL : String) (parsedUrl : URL)
    (hstruct : validator.validateMessageStructure = none)
    (hurl : validator.MessageMap "SigningCertURL" = some certURL)
    (hparse : env.urlParse certURL = .ok parsedUrl)
    (hscheme : parsedUrl.Scheme = "https")
    (hhost : MatchString parsedUrl.Hostname = false) :
    ((validator.verifySignature env).val =
        some ⟨"InvalidCert", "The certificate URL belongs to an untrusted host"⟩
      ∧ (validator.verifySignature env).gets = [])
    ∧ ((validator.ValidateMessage env).val =
        some ⟨"InvalidCert", "The certificate URL belongs to an untrusted host"⟩
      ∧ (validator.ValidateMessage env).gets = []) := by
  have hidx := index_of_some validator "SigningCertURL" certURL hurl
  have h := verifySignature_of_untrusted_host env validator parsedUrl
    (by rw [hidx]; exact hparse) hscheme hhost
  have h2 := ValidateMessage_of_structure_ok env validator hstruct
  exact ⟨h, by rw [h2.1, h2.2]; exact h⟩

/-- C2 at a concrete input: the certificate URL `https://localhost/cert.pem`
is rejected although the network would serve a certificate that accepts every
signature. -/
theorem untrusted_host_rejected_witness :
    (withField notificationMessage "SigningCertURL"
        "https://localhost/cert.pem").validateMessageStructure = none
      ∧ servingEnv.urlParse "https://localhost/cert.pem" = .ok ⟨"https", "localhost"⟩
      ∧ MatchString "localhost" = false
      ∧ (((withField notificationMessage "SigningCertURL"
          "https://localhost/cert.pem").verifySignature servingEnv).val =
            some ⟨"InvalidCert", "The certificate URL belongs to an untrusted host"⟩
        ∧ ((withField notificationMessage "SigningCertURL"
          "https://localhost/cert.pem").verifySignature servingEnv).gets = [])
      ∧ (((withField notificationMessage "SigningCertURL"
          "https://localhost/cert.pem").ValidateMessage servingEnv).val =
            some ⟨"InvalidCert", "The certificate URL belongs to an untrusted host"⟩
        ∧ ((withField notificationMessage "SigningCertURL"
          "https://localhost/cert.pem").ValidateMessage servingEnv).gets = []) :=
  ⟨by decide, by rfl, by decide,
    untrusted_host_rejected servingEnv
      (withField notificationMessage "SigningCertURL" "https://localhost/cert.pem")
      "https://localhost/cert.pem" ⟨"https", "localhost"⟩
      (by decide) (by decide) (by rfl) rfl (by decide)⟩

/-- C3: for a structurally valid map whose SigningCertURL parses to a URL
whose scheme is not `https`, `verifySignature` and `ValidateMessage` return the
`InvalidCert` error `The certificate URL is using insecure HTTP scheme`, in
every environment (so for every network response), and no GET is issued. -/
theorem insecure_scheme_rejected (env : Env) (validator : SNSValidator)
    (certURL : String) (parsedUrl : URL)
    (hstruct : validator.validateMessageStructure = none)
    (hurl : validator.MessageMap "SigningCertURL" = some certURL)
    (hparse : env.urlParse certURL = .ok parsedUrl)
    (hscheme : parsedUrl.Scheme ≠ "https") :
    ((validator.verifySignature env).val =
        some ⟨"InvalidCert", "The certificate URL is using insecure HTTP scheme"⟩
      ∧ (validator.verifySignature env).gets = [])
    ∧ ((validator.ValidateMessage env).val =
        some ⟨"InvalidCert", "The certificate URL is using insecure HTTP scheme"⟩
      ∧ (validator.ValidateMessage env).gets = []) := by
  have hidx := index_of_some validator "SigningCertURL" certURL hurl
  have h := verifySignature_of_insecure_scheme env validator parsedUrl
    (by rw [hidx]; exact hparse) hscheme
  have h2 := ValidateMessage_of_structure_ok env validator hstruct
  exact ⟨h, by rw [h2.1, h2.2]; exact h⟩

/-- C3 at a concrete input: an `http` URL on an allow-listed SNS hostname is
rejected although the network would serve a certificate that accepts every
signature. -/
theorem insecure_scheme_rejected_witness :
    (withField notificationMessage "SigningCertURL"
        "http://sns.ap-northeast-1.amazonaws.com/cert.pem").validateMessageStructure = none
      ∧ servingEnv.urlParse "http://sns.ap-northeast-1.amazonaws.com/cert.pem"
          = .ok ⟨"http", "sns.ap-northeast-1.amazonaws.com"⟩
      ∧ MatchString "sns.ap-northeast-1.amazonaws.com" = true
      ∧ (((withField notificationMessage "SigningCertURL"
          "http://sns.ap-northeast-1.amazonaws.com/cert.pem").verifySignature servingEnv).val =
            some ⟨"InvalidCert", "The certificate URL is using insecure HTTP scheme"⟩
        ∧ ((withField notificationMessage "SigningCertURL"
          "http://sns.ap-northeast-1.amazonaws.com/cert.pem").verifySignature servingEnv).gets
            = [])
      ∧ (((withField notificationMessage "SigningCertURL"
          "http://sns.ap-northeast-1.amazonaws.com/cert.pem").ValidateMessage servingEnv).val =
            some ⟨"InvalidCert", "The certificate URL is using insecure HTTP scheme"⟩
        ∧ ((withField notificationMessage "SigningCertURL"
          "http://sns.ap-northeast-1.amazonaws.com/cert.pem").ValidateMessage servingEnv).gets
            = []) :=
  ⟨by decide, by rfl, by decide,
    insecure_scheme_rejected servingEnv
      (withField notificationMessage "SigningCertURL"
        "http://sns.ap-northeast-1.amazonaws.com/cert.pem")
      "http://sns.ap-northeast-1.amazonaws.com/cert.pem"
      ⟨"http", "sns.ap-northeast-1.amazonaws.com"⟩
      (by decide) (by decide) (by rfl) (by decide)⟩

/-- C5: `buildSignableString` is the concatenation, over the keys of the
selected order taken in that order, of `key ++ "\n" ++ value ++ "\n"` for a key
bound to a non-empty value and of nothing for an absent or empty key; the order
is Message, MessageId, Subject, SubscribeURL, Timestamp, Token, TopicArn, Type
when Type is SubscriptionConfirmation or UnsubscribeConfirmation, and the same
without Token otherwise. -/
theorem buildSignableString_eq_concat (validator : SNSValidator) :
    validator.buildSignableString =
      String.join
        ((if validator.MessageMap "Type" = some "SubscriptionConfirmation"
              ∨ validator.MessageMap "Type" = some "UnsubscribeConfirmation" then
            ["Message", "MessageId", "Subject", "SubscribeURL", "Timestamp", "Token",
              "TopicArn", "Type"]
          else
            ["Message", "MessageId", "Subject", "SubscribeURL", "Timestamp", "TopicArn",
              "Type"]).map
          (fun key =>
            match validator.MessageMap key with
            | some value => if value = "" then "" else key ++ "\n" ++ value ++ "\n"
            | none => "")) := by
  have hstep : ∀ acc key,
      (fun signableString key =>
        if validator.has key then
          (((signableString ++ key) ++ "\n") ++ validator.index key) ++ "\n"
        else signableString) acc key
      = acc ++ (fun key =>
            match validator.MessageMap key with
            | some value => if value = "" then "" else key ++ "\n" ++ value ++ "\n"
            | none => "") key := by
    intro acc key
    simp only [SNSValidator.has, SNSValidator.index]
    cases validator.MessageMap key with
    | none => simp
    | some value => by_cases hv : value = "" <;> simp [hv, String.append_assoc]
  unfold SNSValidator.buildSignableString
  simp only []
  rw [foldl_segments _ _ hstep, String.empty_append]
  by_cases hsub : validator.isTypes subscriptionMessageTypes = true
  · rw [if_pos hsub, if_pos ((isTypes_subscription_iff validator).1 hsub)]
    rfl
  · rw [if_neg hsub, if_neg (fun h => hsub ((isTypes_subscription_iff validator).2 h))]
    rfl

/-- C6: binding a key to the empty string and removing the key give the same
result of `validateMessageStructure`, the same `buildSignableString`, and, in
every environment, the same result and the same GET trace of
`ValidateMessage`. -/
theorem empty_field_same_as_missing (validator : SNSValidator) (key : String) :
    (withField validator key "").validateMessageStructure
        = (withoutField validator key).validateMessageStructure
      ∧ (withField validator key "").buildSignableString
        = (withoutField validator key).buildSignableString
      ∧ ∀ env : Env,
        ((withField validator key "").ValidateMessage env).val
            = ((withoutField validator key).ValidateMessage env).val
          ∧ ((withField validator key "").ValidateMessage env).gets
            = ((withoutField validator key).ValidateMessage env).gets := by
  have h := index_withField_empty validator key
  refine ⟨validateMessageStructure_congr _ _ h, buildSignableString_congr _ _ h, ?_⟩
  intro env
  rw [ValidateMessage_congr env _ _ h]
  exact ⟨rfl, rfl⟩

/-- C4: the allow-pattern accepts `h` exactly when `h` is `sns.` followed by a
region of at least three ASCII letters, digits or hyphens followed by
`.amazonaws.com` or `.amazonaws.com.cn`; upper-case `SNS`, a two-character
region, a label before `sns.` and a label after `.com` are all rejected. -/
theorem host_pattern_accepts_iff :
    (∀ h : String, MatchString h = true ↔
      ∃ r : String, 3 ≤ r.length
        ∧ (∀ c ∈ r.toList, c.isAlpha = true ∨ c.isDigit = true ∨ c = '-')
        ∧ (h = "sns." ++ r ++ ".amazonaws.com" ∨ h = "sns." ++ r ++ ".amazonaws.com.cn"))
    ∧ MatchString "sns.us-east-1.amazonaws.com" = true
    ∧ MatchString "sns.cn-north-1.amazonaws.com.cn" = true
    ∧ MatchString "SNS.us-east-1.amazonaws.com" = false
    ∧ MatchString "sns.us.amazonaws.com" = false
    ∧ MatchString "www.sns.us-east-1.amazonaws.com" = false
    ∧ MatchString "sns.us-east-1.amazonaws.com.attacker.com" = false
    ∧ MatchString "sns.us-east-1.amazonaws.com.cn.attacker.com" = false := by
  exact ⟨MatchString_iff, MatchString_region_host, MatchString_china_host,
    MatchString_upper_case, MatchString_short_region, MatchString_leading_label,
    MatchString_trailing_label, MatchString_trailing_label_cn⟩

/-- C11: when the eight required fields are present and Type is Notification,
`validateMessageStructure` returns no error, and it still does after
SubscribeURL and Token are rebound to any values or removed. -/
theorem notification_ignores_subscription_keys (validator : SNSValidator)
    (hreq : ∀ key ∈ ["Type", "MessageId", "TopicArn", "Message", "Timestamp", "Signature",
      "SignatureVersion", "SigningCertURL"], Present validator.MessageMap key)
    (htype : validator.MessageMap "Type" = some "Notification") :
    validator.validateMessageStructure = none
      ∧ ∀ subscribeURL token : Option String,
        (SNSValidator.mk validator.Version (fun key =>
          if key = "SubscribeURL" then subscribeURL
          else if key = "Token" then token
          else validator.MessageMap key)).validateMessageStructure = none := by
  refine ⟨validateMessageStructure_of_notification validator hreq htype, ?_⟩
  intro subscribeURL token
  apply validateMessageStructure_of_notification
  · intro key hkey
    have hk := hreq key hkey
    have h1 : key ≠ "SubscribeURL" := by
      rintro rfl
      revert hkey
      decide
    have h2 : key ≠ "Token" := by
      rintro rfl
      revert hkey
      decide
    simpa [Present, h1, h2] using hk
  · simpa using htype

/-- C11 at a concrete input: the Notification example, also with a Token and a
SubscribeURL bound to non-empty values. -/
theorem notification_ignores_subscription_keys_witness :
    (∀ key ∈ ["Type", "MessageId", "TopicArn", "Message", "Timestamp", "Signature",
        "SignatureVersion", "SigningCertURL"], Present notificationMessage.MessageMap key)
      ∧ notificationMessage.MessageMap "Type" = some "Notification"
      ∧ notificationMessage.validateMessageStructure = none
      ∧ (SNSValidator.mk notificationMessage.Version (fun key =>
          if key = "SubscribeURL" then some "https://localhost/subscribe"
          else if key = "Token" then some "token-is-unnecessary-in-notification-message"
          else notificationMessage.MessageMap key)).validateMessageStructure = none :=
  ⟨by decide, by decide,
    (notification_ignores_subscription_keys notificationMessage (by decide) (by decide)).1,
    (notification_ignores_subscription_keys notificationMessage (by decide) (by decide)).2
      (some "https://localhost/subscribe")
      (some "token-is-unnecessary-in-notification-message")⟩

/-- C12: `validateMessageStructure` returns no error exactly when the eight
required fields are present, Type is Notification, SubscriptionConfirmation or
UnsubscribeConfirmation, and, for the two subscription types, SubscribeURL and
Token are present too. -/
theorem structure_valid_iff (validator : SNSValidator) :
    validator.validateMessageStructure = none ↔
      (∀ key ∈ ["Type", "MessageId", "TopicArn", "Message", "Timestamp", "Signature",
        "SignatureVersion", "SigningCertURL"], Present validator.MessageMap key)
      ∧ (validator.MessageMap "Type" = some "Notification"
        ∨ validator.MessageMap "Type" = some "SubscriptionConfirmation"
        ∨ validator.MessageMap "Type" = some "UnsubscribeConfirmation")
      ∧ ((validator.MessageMap "Type" = some "SubscriptionConfirmation"
          ∨ validator.MessageMap "Type" = some "UnsubscribeConfirmation") →
        Present validator.MessageMap "SubscribeURL" ∧ Present validator.MessageMap "Token") :=
  validateMessageStructure_none_iff validator

/-- C13: `ValidateMessage` is fail-fast. An error of `validateMessageStructure`
is returned as it is, in every environment and without a GET; when the
structure is valid the result and the GET trace are those of
`verifySignature`. -/
theorem ValidateMessage_fail_fast (validator : SNSValidator) :
    (∀ err, validator.validateMessageStructure = some err →
      ∀ env : Env, (validator.ValidateMessage env).val = some err
        ∧ (validator.ValidateMessage env).gets = [])
    ∧ (validator.validateMessageStructure = none →
      ∀ env : Env, (validator.ValidateMessage env).val = (validator.verifySignature env).val
        ∧ (validator.ValidateMessage env).gets = (validator.verifySignature env).gets) := by
  constructor
  · intro err h env
    simp [SNSValidator.ValidateMessage, h]
  · intro h env
    exact ValidateMessage_of_structure_ok env validator h

/-- C13 at concrete inputs: the Notification example without its Message is
rejected with the structural error although the network would serve an
accepting certificate; the complete example gets the result of
`verifySignature`. -/
theorem ValidateMessage_fail_fast_witness :
    (((withoutField notificationMessage "Message").ValidateMessage servingEnv).val
        = some ⟨"MissingKey", "\"Message\" is required in SNS message"⟩
      ∧ ((withoutField notificationMessage "Message").ValidateMessage servingEnv).gets = [])
    ∧ ((notificationMessage.ValidateMessage servingEnv).val
        = (notificationMessage.verifySignature servingEnv).val
      ∧ (notificationMessage.ValidateMessage servingEnv).gets
        = (notificationMessage.verifySignature servingEnv).gets) :=
  ⟨(ValidateMessage_fail_fast (withoutField notificationMessage "Message")).1
      ⟨"MissingKey", "\"Message\" is required in SNS message"⟩ (by decide) servingEnv,
    (ValidateMessage_fail_fast notificationMessage).2 (by decide) servingEnv⟩

/-- C14: in every environment `ValidateMessage` returns no error or one error
whose kind is MissingKey, InvalidType, InvalidCert or IncorrectSignature. -/
theorem ValidateMessage_error_kinds (env : Env) (validator : SNSValidator) :
    (validator.ValidateMessage env).val = none
      ∨ ∃ err, (validator.ValidateMessage env).val = some err
        ∧ err.t ∈ ["MissingKey", "InvalidType", "InvalidCert", "IncorrectSignature"] := by
  cases hs : validator.validateMessageStructure with
  | some err =>
    right
    refine ⟨err, by simp [SNSValidator.ValidateMessage, hs], ?_⟩
    rcases validateMessageStructure_kind validator err hs with h | h <;> simp [h]
  | none =>
    rw [(ValidateMessage_of_structure_ok env validator hs).1]
    cases hv : (validator.verifySignature env).val with
    | none => exact Or.inl rfl
    | some err =>
      right
      refine ⟨err, rfl, ?_⟩
      rcases verifySignature_kind env validator err hv with h | h <;> simp [h]

/-- C15: for a structurally valid map whose certificate is fetched from a
trusted URL, PEM-decoded and parsed, and whose Signature decodes as base64, a
failure `e` of the SHA1WithRSA check of the decoded signature over
`buildSignableString` makes `verifySignature` and `ValidateMessage` return the
`IncorrectSignature` error with message `Incorrect signature: ` followed by
`e`. -/
theorem incorrect_signature_reported (env : Env) (validator : SNSValidator)
    (parsedUrl : URL) (res : Response) (body blockBytes decodedSignature : Bytes)
    (cert : Certificate) (e : String)
    (hstruct : validator.validateMessageStructure = none)
    (hparse : env.urlParse (validator.index "SigningCertURL") = .ok parsedUrl)
    (hscheme : parsedUrl.Scheme = "https")
    (hhost : MatchString parsedUrl.Hostname = true)
    (hget : env.httpGet (validator.index "SigningCertURL") = .ok res)
    (hstatus : res.StatusCode = 200) (hbody : res.Body = .ok body)
    (hpem : env.pemDecode body = some blockBytes)
    (hx509 : env.x509ParseCertificate blockBytes = .ok cert)
    (hdecode : env.base64DecodeString (validator.index "Signature") = .ok decodedSignature)
    (hcheck : env.checkSignature cert SignatureAlgorithm.SHA1WithRSA
      validator.buildSignableString decodedSignature = some e) :
    (validator.verifySignature env).val
        = some ⟨"IncorrectSignature", "Incorrect signature: " ++ e⟩
      ∧ (validator.ValidateMessage env).val
        = some ⟨"IncorrectSignature", "Incorrect signature: " ++ e⟩ := by
  have h : (validator.verifySignature env).val
      = some ⟨"IncorrectSignature", "Incorrect signature: " ++ e⟩ := by
    rw [verifySignature_after_fetch env validator parsedUrl res body hparse hscheme hhost hget
      hstatus hbody]
    simp [hpem, hx509, hdecode, hcheck]
  exact ⟨h, by rw [(ValidateMessage_of_structure_ok env validator hstruct).1]; exact h⟩

/-- C15 at a concrete input: the certificate accepts the signature over the
signable string of the Notification example, the example is accepted, and the
same message with one character of Message altered is rejected. -/
theorem incorrect_signature_reported_witness :
    ((withField notificationMessage "Signature" "AQID").ValidateMessage pinnedEnv).val = none
      ∧ pinnedEnv.checkSignature ⟨[1, 2, 3]⟩ SignatureAlgorithm.SHA1WithRSA
          (withField (withField notificationMessage "Signature" "AQID")
            "Message" "Test notificatioN").buildSignableString [1, 2, 3]
          = some "crypto/rsa: verification error"
      ∧ ((withField (withField notificationMessage "Signature" "AQID")
            "Message" "Test notificatioN").verifySignature pinnedEnv).val
          = some ⟨"IncorrectSignature",
              "Incorrect signature: " ++ "crypto/rsa: verification error"⟩
      ∧ ((withField (withField notificationMessage "Signature" "AQID")
            "Message" "Test notificatioN").ValidateMessage pinnedEnv).val
          = some ⟨"IncorrectSignature",
              "Incorrect signature: " ++ "crypto/rsa: verification error"⟩ :=
  ⟨pinnedEnv_accepts_signed_message, by decide,
    incorrect_signature_reported pinnedEnv
      (withField (withField notificationMessage "Signature" "AQID")
        "Message" "Test notificatioN")
      ⟨"https", "sns.ap-northeast-1.amazonaws.com"⟩ ⟨200, .ok [1, 2, 3]⟩ [1, 2, 3] [1, 2, 3]
      [1, 2, 3] ⟨[1, 2, 3]⟩ "crypto/rsa: verification error"
      (by decide) (by rfl) rfl MatchString_northeast_host (by rfl) rfl rfl rfl rfl (by rfl)
      (by decide)⟩

/-- C16: for a structurally valid map whose certificate is fetched from a
trusted URL, PEM-decoded and parsed, a Signature that does not decode as
standard base64 makes `verifySignature` and `ValidateMessage` return the
`IncorrectSignature` error `Could not base64 decode the signature`, whatever
the signature check of the certificate would answer. -/
theorem undecodable_signature_reported (env : Env) (validator : SNSValidator)
    (parsedUrl : URL) (res : Response) (body blockBytes : Bytes)
    (cert : Certificate) (e : String)
    (hstruct : validator.validateMessageStructure = none)
    (hparse : env.urlParse (validator.index "SigningCertURL") = .ok parsedUrl)
    (hscheme : parsedUrl.Scheme = "https")
    (hhost : MatchString parsedUrl.Hostname = true)
    (hget : env.httpGet (validator.index "SigningCertURL") = .ok res)
    (hstatus : res.StatusCode = 200) (hbody : res.Body = .ok body)
    (hpem : env.pemDecode body = some blockBytes)
    (hx509 : env.x509ParseCertificate blockBytes = .ok cert)
    (hdecode : env.base64DecodeString (validator.index "Signature") = .error e) :
    ∀ check : Certificate → SignatureAlgorithm → String → Bytes → Option String,
      (validator.verifySignature { env with checkSignature := check }).val
          = some ⟨"IncorrectSignature", "Could not base64 decode the signature"⟩
        ∧ (validator.ValidateMessage { env with checkSignature := check }).val
          = some ⟨"IncorrectSignature", "Could not base64 decode the signature"⟩ := by
  intro check
  have h : (validator.verifySignature { env with checkSignature := check }).val
      = some ⟨"IncorrectSignature", "Could not base64 decode the signature"⟩ := by
    rw [verifySignature_after_fetch { env with checkSignature := check } validator parsedUrl
      res body hparse hscheme hhost hget hstatus hbody]
    simp [hpem, hx509, hdecode]
  exact ⟨h, by rw [(ValidateMessage_of_structure_ok _ validator hstruct).1]; exact h⟩

/-- C16 at concrete inputs: the 37-character Signature of the Notification
example and the Signature `not-base64!!` are both rejected by the base64
decoder, and the message is rejected although the certificate check would
accept. -/
theorem undecodable_signature_reported_witness :
    (stdDecodeString "EXAMPLEpH+DcEwjAPg8O9mY8dReBSwksfg2S=" = .error "illegal base64 data"
      ∧ stdDecodeString "not-base64!!" = .error "illegal base64 data")
    ∧ ((notificationMessage.verifySignature
          { pinnedEnv with checkSignature := fun _ _ _ _ => none }).val
        = some ⟨"IncorrectSignature", "Could not base64 decode the signature"⟩
      ∧ (notificationMessage.ValidateMessage
          { pinnedEnv with checkSignature := fun _ _ _ _ => none }).val
        = some ⟨"IncorrectSignature", "Could not base64 decode the signature"⟩)
    ∧ (((withField notificationMessage "Signature" "not-base64!!").verifySignature
          { pinnedEnv with checkSignature := fun _ _ _ _ => none }).val
        = some ⟨"IncorrectSignature", "Could not base64 decode the signature"⟩
      ∧ ((withField notificationMessage "Signature" "not-base64!!").ValidateMessage
          { pinnedEnv with checkSignature := fun _ _ _ _ => none }).val
        = some ⟨"IncorrectSignature", "Could not base64 decode the signature"⟩) :=
  ⟨⟨by rfl, by rfl⟩,
    undecodable_signature_reported pinnedEnv notificationMessage
      ⟨"https", "sns.ap-northeast-1.amazonaws.com"⟩ ⟨200, .ok [1, 2, 3]⟩ [1, 2, 3] [1, 2, 3]
      ⟨[1, 2, 3]⟩ "illegal base64 data"
      (by decide) (by rfl) rfl MatchString_northeast_host (by rfl) rfl rfl rfl rfl (by rfl)
      (fun _ _ _ _ => none),
    undecodable_signature_reported pinnedEnv
      (withField notificationMessage "Signature" "not-base64!!")
      ⟨"https", "sns.ap-northeast-1.amazonaws.com"⟩ ⟨200, .ok [1, 2, 3]⟩ [1, 2, 3] [1, 2, 3]
      ⟨[1, 2, 3]⟩ "illegal base64 data"
      (by decide) (by rfl) rfl MatchString_northeast_host (by rfl) rfl rfl rfl rfl (by rfl)
      (fun _ _ _ _ => none)⟩

/-- C17: for a structurally valid map with a trusted `https` SigningCertURL
whose GET answers 200 with a body, a body without a PEM block gives the
`InvalidCert` error `Could not decode the certificate`, and a PEM block that
does not parse as a certificate gives an `InvalidCert` error with the parser's
text; both results hold whatever the base64 decoder and the signature check
would answer. -/
theorem undecodable_certificate_reported (env : Env) (validator : SNSValidator)
    (parsedUrl : URL) (res : Response) (body : Bytes)
    (hstruct : validator.validateMessageStructure = none)
    (hparse : env.urlParse (validator.index "SigningCertURL") = .ok parsedUrl)
    (hscheme : parsedUrl.Scheme = "https")
    (hhost : MatchString parsedUrl.Hostname = true)
    (hget : env.httpGet (validator.index "SigningCertURL") = .ok res)
    (hstatus : res.StatusCode = 200) (hbody : res.Body = .ok body) :
    (env.pemDecode body = none →
      ∀ (decode : String → Except String Bytes)
        (check : Certificate → SignatureAlgorithm → String → Bytes → Option String),
        (validator.verifySignature
            { env with base64DecodeString := decode, checkSignature := check }).val
          = some ⟨"InvalidCert", "Could not decode the certificate"⟩
        ∧ (validator.ValidateMessage
            { env with base64DecodeString := decode, checkSignature := check }).val
          = some ⟨"InvalidCert", "Could not decode the certificate"⟩)
    ∧ (∀ blockBytes e, env.pemDecode body = some blockBytes →
      env.x509ParseCertificate blockBytes = .error e →
      ∀ (decode : String → Except String Bytes)
        (check : Certificate → SignatureAlgorithm → String → Bytes → Option String),
        (validator.verifySignature
            { env with base64DecodeString := decode, checkSignature := check }).val
          = some ⟨"InvalidCert", e⟩
        ∧ (validator.ValidateMessage
            { env with base64DecodeString := decode, checkSignature := check }).val
          = some ⟨"InvalidCert", e⟩) := by
  constructor
  · intro hpem decode check
    have h : (validator.verifySignature
        { env with base64DecodeString := decode, checkSignature := check }).val
        = some ⟨"InvalidCert", "Could not decode the certificate"⟩ := by
      rw [verifySignature_after_fetch
        { env with base64DecodeString := decode, checkSignature := check } validator
        parsedUrl res body hparse hscheme hhost hget hstatus hbody]
      simp [hpem]
    exact ⟨h, by rw [(ValidateMessage_of_structure_ok _ validator hstruct).1]; exact h⟩
  · intro blockBytes e hpem hx509 decode check
    have h : (validator.verifySignature
        { env with base64DecodeString := decode, checkSignature := check }).val
        = some ⟨"InvalidCert", e⟩ := by
      rw [verifySignature_after_fetch
        { env with base64DecodeString := decode, checkSignature := check } validator
        parsedUrl res body hparse hscheme hhost hget hstatus hbody]
      simp [hpem, hx509]
    exact ⟨h, by rw [(ValidateMessage_of_structure_ok _ validator hstruct).1]; exact h⟩

/-- C17 at concrete inputs: an empty body, and a body whose PEM block is not a
certificate, with a decoder and a check that would both succeed. -/
theorem undecodable_certificate_reported_witness :
    ((notificationMessage.verifySignature
          { respondingEnv ⟨200, .ok []⟩ with
            base64DecodeString := fun _ => .ok [], checkSignature := fun _ _ _ _ => none }).val
        = some ⟨"InvalidCert", "Could not decode the certificate"⟩
      ∧ (notificationMessage.ValidateMessage
          { respondingEnv ⟨200, .ok []⟩ with
            base64DecodeString := fun _ => .ok [], checkSignature := fun _ _ _ _ => none }).val
        = some ⟨"InvalidCert", "Could not decode the certificate"⟩)
    ∧ ((notificationMessage.verifySignature
          { badCertificateEnv with
            base64DecodeString := fun _ => .ok [], checkSignature := fun _ _ _ _ => none }).val
        = some ⟨"InvalidCert", "asn1: structure error"⟩
      ∧ (notificationMessage.ValidateMessage
          { badCertificateEnv with
            base64DecodeString := fun _ => .ok [], checkSignature := fun _ _ _ _ => none }).val
        = some ⟨"InvalidCert", "asn1: structure error"⟩) :=
  ⟨(undecodable_certificate_reported (respondingEnv ⟨200, .ok []⟩) notificationMessage
      ⟨"https", "sns.ap-northeast-1.amazonaws.com"⟩ ⟨200, .ok []⟩ []
      (by decide) (by rfl) rfl MatchString_northeast_host (by rfl) rfl rfl).1 (by decide)
      (fun _ => .ok []) (fun _ _ _ _ => none),
    (undecodable_certificate_reported badCertificateEnv notificationMessage
      ⟨"https", "sns.ap-northeast-1.amazonaws.com"⟩ ⟨200, .ok [1, 2, 3]⟩ [1, 2, 3]
      (by decide) (by rfl) rfl MatchString_northeast_host (by rfl) rfl rfl).2
      [1, 2, 3] "asn1: structure error" (by decide) (by rfl)
      (fun _ => .ok []) (fun _ _ _ _ => none)⟩

/-- C18: when the certificate GET answers with a status code other than 200,
`getCertificate` returns no data and the `InvalidCert` error
`Could not retrive the certificate`; `verifySignature`, once the URL checks
have passed, and `ValidateMessage`, once the structure is valid too, return
that same error. -/
theorem bad_status_reported (env : Env) (validator : SNSValidator) (res : Response)
    (hget : env.httpGet (validator.index "SigningCertURL") = .ok res)
    (hstatus : res.StatusCode ≠ 200) :
    (validator.getCertificate env).val
        = (none, some ⟨"InvalidCert", "Could not retrive the certificate"⟩)
    ∧ ∀ parsedUrl, env.urlParse (validator.index "SigningCertURL") = .ok parsedUrl →
      parsedUrl.Scheme = "https" → MatchString parsedUrl.Hostname = true →
      (validator.verifySignature env).val
          = some ⟨"InvalidCert", "Could not retrive the certificate"⟩
        ∧ (validator.validateMessageStructure = none →
          (validator.ValidateMessage env).val
            = some ⟨"InvalidCert", "Could not retrive the certificate"⟩) := by
  have hc := getCertificate_of_bad_status env validator res hget hstatus
  refine ⟨by rw [hc], ?_⟩
  intro parsedUrl hparse hscheme hhost
  have h : (validator.verifySignature env).val
      = some ⟨"InvalidCert", "Could not retrive the certificate"⟩ := by
    rw [verifySignature_of_certificate_error env validator parsedUrl none _ _ hparse hscheme
      hhost hc]
  exact ⟨h, fun hstruct => by
    rw [(ValidateMessage_of_structure_ok env validator hstruct).1]; exact h⟩

/-- C18 at concrete inputs: a 204 answer with a body, and a 404 answer. -/
theorem bad_status_reported_witness :
    ((notificationMessage.getCertificate (respondingEnv ⟨204, .ok [1, 2, 3]⟩)).val
        = (none, some ⟨"InvalidCert", "Could not retrive the certificate"⟩)
      ∧ (notificationMessage.verifySignature (respondingEnv ⟨204, .ok [1, 2, 3]⟩)).val
        = some ⟨"InvalidCert", "Could not retrive the certificate"⟩
      ∧ (notificationMessage.ValidateMessage (respondingEnv ⟨204, .ok [1, 2, 3]⟩)).val
        = some ⟨"InvalidCert", "Could not retrive the certificate"⟩)
    ∧ ((notificationMessage.getCertificate (respondingEnv ⟨404, .ok []⟩)).val
        = (none, some ⟨"InvalidCert", "Could not retrive the certificate"⟩)
      ∧ (notificationMessage.verifySignature (respondingEnv ⟨404, .ok []⟩)).val
        = some ⟨"InvalidCert", "Could not retrive the certificate"⟩
      ∧ (notificationMessage.ValidateMessage (respondingEnv ⟨404, .ok []⟩)).val
        = some ⟨"InvalidCert", "Could not retrive the certificate"⟩) :=
  ⟨⟨(bad_status_reported (respondingEnv ⟨204, .ok [1, 2, 3]⟩) notificationMessage
        ⟨204, .ok [1, 2, 3]⟩ (by rfl) (by decide)).1,
      ((bad_status_reported (respondingEnv ⟨204, .ok [1, 2, 3]⟩) notificationMessage
        ⟨204, .ok [1, 2, 3]⟩ (by rfl) (by decide)).2
        ⟨"https", "sns.ap-northeast-1.amazonaws.com"⟩ (by rfl) rfl
        MatchString_northeast_host).1,
      ((bad_status_reported (respondingEnv ⟨204, .ok [1, 2, 3]⟩) notificationMessage
        ⟨204, .ok [1, 2, 3]⟩ (by rfl) (by decide)).2
        ⟨"https", "sns.ap-northeast-1.amazonaws.com"⟩ (by rfl) rfl
        MatchString_northeast_host).2 (by decide)⟩,
    ⟨(bad_status_reported (respondingEnv ⟨404, .ok []⟩) notificationMessage
        ⟨404, .ok []⟩ (by rfl) (by decide)).1,
      ((bad_status_reported (respondingEnv ⟨404, .ok []⟩) notificationMessage
        ⟨404, .ok []⟩ (by rfl) (by decide)).2
        ⟨"https", "sns.ap-northeast-1.amazonaws.com"⟩ (by rfl) rfl
        MatchString_northeast_host).1,
      ((bad_status_reported (respondingEnv ⟨404, .ok []⟩) notificationMessage
        ⟨404, .ok []⟩ (by rfl) (by decide)).2
        ⟨"https", "sns.ap-northeast-1.amazonaws.com"⟩ (by rfl) rfl
        MatchString_northeast_host).2 (by decide)⟩⟩

/-- C19: `getCertificate` returns the body and no error when the GET answers
200 and the body is read; it returns no data and an `InvalidCert` error
carrying the underlying text when the request fails or the body cannot be
read; in every case exactly one of data and error is returned. -/
theorem getCertificate_data_or_error (env : Env) (validator : SNSValidator) :
    (∀ res body, env.httpGet (validator.index "SigningCertURL") = .ok res →
      res.StatusCode = 200 → res.Body = .ok body →
      (validator.getCertificate env).val = (some body, none))
    ∧ (∀ e, env.httpGet (validator.index "SigningCertURL") = .error e →
      (validator.getCertificate env).val = (none, some ⟨"InvalidCert", e⟩))
    ∧ (∀ res e, env.httpGet (validator.index "SigningCertURL") = .ok res →
      res.StatusCode = 200 → res.Body = .error e →
      (validator.getCertificate env).val = (none, some ⟨"InvalidCert", e⟩))
    ∧ (((validator.getCertificate env).val.1 = none
        ∧ (validator.getCertificate env).val.2 ≠ none)
      ∨ ((validator.getCertificate env).val.1 ≠ none
        ∧ (validator.getCertificate env).val.2 = none)) := by
  refine ⟨?_, ?_, ?_, ?_⟩
  · intro res body hget hstatus hbody
    rw [getCertificate_of_body env validator res body hget hstatus hbody]
  · intro e hget
    rw [getCertificate_of_get_error env validator e hget]
  · intro res e hget hstatus hbody
    rw [getCertificate_of_read_error env validator res e hget hstatus hbody]
  · rcases getCertificate_cases env validator with ⟨snserr, _, h⟩ | ⟨body, h⟩
    · rw [h]
      exact Or.inl ⟨rfl, by simp⟩
    · rw [h]
      exact Or.inr ⟨by simp, rfl⟩

/-- C19 at concrete inputs: a 200 answer with body `[1, 2, 3]`, a refused
connection, and a 200 answer whose body cannot be read. -/
theorem getCertificate_data_or_error_witness :
    (notificationMessage.getCertificate servingEnv).val = (some [1, 2, 3], none)
      ∧ (notificationMessage.getCertificate failingEnv).val
        = (none, some ⟨"InvalidCert", "connection refused"⟩)
      ∧ (notificationMessage.getCertificate
          (respondingEnv ⟨200, .error "unexpected EOF"⟩)).val
        = (none, some ⟨"InvalidCert", "unexpected EOF"⟩) :=
  ⟨(getCertificate_data_or_error servingEnv notificationMessage).1
      ⟨200, .ok [1, 2, 3]⟩ [1, 2, 3] (by rfl) rfl rfl,
    (getCertificate_data_or_error failingEnv notificationMessage).2.1
      "connection refused" (by rfl),
    (getCertificate_data_or_error (respondingEnv ⟨200, .error "unexpected EOF"⟩)
      notificationMessage).2.2.1
      ⟨200, .error "unexpected EOF"⟩ "unexpected EOF" (by rfl) rfl rfl⟩

/-- C20: for a structurally valid map whose SigningCertURL does not parse as a
URL, `verifySignature` and `ValidateMessage` return an `InvalidCert` error
carrying the parser's text, and no GET is issued. -/
theorem unparsable_url_rejected (env : Env) (validator : SNSValidator) (e : String)
    (hstruct : validator.validateMessageStructure = none)
    (hparse : env.urlParse (validator.index "SigningCertURL") = .error e) :
    ((validator.verifySignature env).val = some ⟨"InvalidCert", e⟩
      ∧ (validator.verifySignature env).gets = [])
    ∧ ((validator.ValidateMessage env).val = some ⟨"InvalidCert", e⟩
      ∧ (validator.ValidateMessage env).gets = []) := by
  have h := verifySignature_of_parse_error env validator e hparse
  have h2 := ValidateMessage_of_structure_ok env validator hstruct
  refine ⟨⟨by rw [h], by rw [h]⟩, ⟨by rw [h2.1, h], by rw [h2.2, h]⟩⟩

/-- C20 at a concrete input: the Notification example with SigningCertURL
`!@#$%^&*`, on a network that would serve an accepting certificate. -/
theorem unparsable_url_rejected_witness :
    (withField notificationMessage "SigningCertURL" "!@#$%^&*").validateMessageStructure = none
      ∧ servingEnv.urlParse "!@#$%^&*" = .error "parse error"
      ∧ (((withField notificationMessage "SigningCertURL" "!@#$%^&*").verifySignature
            servingEnv).val = some ⟨"InvalidCert", "parse error"⟩
        ∧ ((withField notificationMessage "SigningCertURL" "!@#$%^&*").verifySignature
            servingEnv).gets = [])
      ∧ (((withField notificationMessage "SigningCertURL" "!@#$%^&*").ValidateMessage
            servingEnv).val = some ⟨"InvalidCert", "parse error"⟩
        ∧ ((withField notificationMessage "SigningCertURL" "!@#$%^&*").ValidateMessage
            servingEnv).gets = []) :=
  ⟨by decide, by rfl,
    unparsable_url_rejected servingEnv
      (withField notificationMessage "SigningCertURL" "!@#$%^&*") "parse error"
      (by decide) (by rfl)⟩

/-- C21: when Type is neither SubscriptionConfirmation nor
UnsubscribeConfirmation (Notification, any other value, or no Type),
`buildSignableString` is unchanged by rebinding or removing Token, and it is
the concatenation of the segments of Message, MessageId, Subject, SubscribeURL,
Timestamp, TopicArn, Type: no segment is emitted for Token. -/
theorem signable_string_ignores_token (validator : SNSValidator)
    (htype : ¬ (validator.MessageMap "Type" = some "SubscriptionConfirmation"
      ∨ validator.MessageMap "Type" = some "UnsubscribeConfirmation")) :
    (∀ token : Option String,
      (SNSValidator.mk validator.Version (fun key =>
        if key = "Token" then token else validator.MessageMap key)).buildSignableString
        = validator.buildSignableString)
    ∧ validator.buildSignableString =
      String.join
        (["Message", "MessageId", "Subject", "SubscribeURL", "Timestamp", "TopicArn",
            "Type"].map
          (fun key =>
            match validator.MessageMap key with
            | some value => if value = "" then "" else key ++ "\n" ++ value ++ "\n"
            | none => "")) := by
  constructor
  · intro token
    symm
    apply buildSignableString_congr_keys
    have hsub : ¬ validator.isTypes subscriptionMessageTypes = true :=
      fun h => htype ((isTypes_subscription_iff validator).1 h)
    rw [if_neg hsub]
    intro key hkey
    have hne : key ≠ "Token" := by
      rintro rfl
      revert hkey
      decide
    simp [SNSValidator.index, hne]
  · rw [buildSignableString_join, if_neg htype]

/-- C21 at a concrete input: the Notification example gives the same signable
string with the Token of the test, with an empty Token and without Token. -/
theorem signable_string_ignores_token_witness :
    ¬ (notificationMessage.MessageMap "Type" = some "SubscriptionConfirmation"
        ∨ notificationMessage.MessageMap "Type" = some "UnsubscribeConfirmation")
      ∧ (SNSValidator.mk notificationMessage.Version (fun key =>
          if key = "Token" then some "token-is-unnecessary-in-notification-message"
          else notificationMessage.MessageMap key)).buildSignableString
        = notificationMessage.buildSignableString
      ∧ (SNSValidator.mk notificationMessage.Version (fun key =>
          if key = "Token" then none
          else notificationMessage.MessageMap key)).buildSignableString
        = notificationMessage.buildSignableString :=
  ⟨by decide,
    (signable_string_ignores_token notificationMessage (by decide)).1
      (some "token-is-unnecessary-in-notification-message"),
    (signable_string_ignores_token notificationMessage (by decide)).1 none⟩

/-- C23 fails on the code: when decoding succeeds `NewFromJSON` returns a nil
`*SNSError`, and a nil pointer stored in a variable of type `error` is an
interface value that holds the pointer, so it does not compare equal to nil.
This holds for every decoder and input, and at the server-style example. -/
theorem NewFromJSON_error_interface_not_nil :
    (∀ (unmarshal : String → Except String SNSMessage) (encoded : String)
        (message : SNSMessage), unmarshal encoded = .ok message →
        (NewFromJSON unmarshal encoded).2 = none
          ∧ asError (NewFromJSON unmarshal encoded).2 = ErrorInterface.pointer none
          ∧ (asError (NewFromJSON unmarshal encoded).2).isNil = false)
    ∧ (NewFromJSON (unmarshalWith exampleParseJSON) serverJSON).1
        = some ⟨"SubscriptionConfirmation", "", "", "", "", "", "https://localhost/subscribe",
            "", "", "", "https://localhost/cert.pem", ""⟩
    ∧ (asError (NewFromJSON (unmarshalWith exampleParseJSON) serverJSON).2).isNil = false := by
  refine ⟨?_, by decide, by decide⟩
  intro unmarshal encoded message h
  simp [NewFromJSON, h, asError, ErrorInterface.isNil]

/-- C24: when decoding fails `NewFromJSON` returns a nil message and an error
whose type is `MalformedJSON` and whose message is the decoder's text; when
decoding succeeds it returns the decoded message and a nil error; so exactly one
of the two results is nil. -/
theorem NewFromJSON_message_or_error (unmarshal : String → Except String SNSMessage)
    (encoded : String) :
    (∀ e, unmarshal encoded = .error e →
      (NewFromJSON unmarshal encoded).1 = none
        ∧ ∃ err, (NewFromJSON unmarshal encoded).2 = some err
          ∧ err.Type = "MalformedJSON" ∧ err.Error = e)
    ∧ (∀ message, unmarshal encoded = .ok message →
      (NewFromJSON unmarshal encoded).1 = some message
        ∧ (NewFromJSON unmarshal encoded).2 = none)
    ∧ (((NewFromJSON unmarshal encoded).1 = none ∧ (NewFromJSON unmarshal encoded).2 ≠ none)
      ∨ ((NewFromJSON unmarshal encoded).1 ≠ none
        ∧ (NewFromJSON unmarshal encoded).2 = none)) := by
  refine ⟨?_, ?_, ?_⟩
  · intro e h
    simp [NewFromJSON, h, New, ErrMalformedJSON, SNSError.Type, SNSError.Error]
  · intro message h
    simp [NewFromJSON, h]
  · cases h : unmarshal encoded with
    | error e => simp [NewFromJSON, h]
    | ok message => simp [NewFromJSON, h]

/-- C24 at concrete inputs: the truncated message of the test, and the
server-style example. -/
theorem NewFromJSON_message_or_error_witness :
    ((NewFromJSON (unmarshalWith exampleParseJSON)
          "\x7b\"Type\": \"SubscriptionConfirmation").1 = none
      ∧ ∃ err, (NewFromJSON (unmarshalWith exampleParseJSON)
          "\x7b\"Type\": \"SubscriptionConfirmation").2 = some err
        ∧ err.Type = "MalformedJSON" ∧ err.Error = "unexpected end of JSON input")
    ∧ ((NewFromJSON (unmarshalWith exampleParseJSON) serverJSON).1
        = some ⟨"SubscriptionConfirmation", "", "", "", "", "", "https://localhost/subscribe",
            "", "", "", "https://localhost/cert.pem", ""⟩
      ∧ (NewFromJSON (unmarshalWith exampleParseJSON) serverJSON).2 = none) :=
  ⟨(NewFromJSON_message_or_error (unmarshalWith exampleParseJSON)
      "\x7b\"Type\": \"SubscriptionConfirmation").1 "unexpected end of JSON input" (by rfl),
    (NewFromJSON_message_or_error (unmarshalWith exampleParseJSON) serverJSON).2.1
      ⟨"SubscriptionConfirmation", "", "", "", "", "", "https://localhost/subscribe",
        "", "", "", "https://localhost/cert.pem", ""⟩ (by rfl)⟩

/-- C25: for every JSON object, whatever the kinds of its values, when the syntax
parser reads one input as the object and another input as the same object with
the three URL keys spelled callback-style, `NewFromJSON` returns the same pair
for both: the same message, or the same `MalformedJSON` error. When no value of
a kind other than string and null stands under a key that matches a field, both
calls return a message and a nil error, and the fields SubscribeURL,
SigningCertURL and UnsubscribeURL of the two messages are the same. -/
theorem NewFromJSON_accepts_callback_style
    (parse : String → Except String (List (String × JSONValue)))
    (server callback : String) (members : List (String × JSONValue))
    (hserver : parse server = .ok members)
    (hcallback : parse callback
      = .ok (members.map (fun kv => (callbackStyle kv.1, kv.2)))) :
    NewFromJSON (unmarshalWith parse) callback = NewFromJSON (unmarshalWith parse) server
      ∧ ((∀ member ∈ members, ∀ kind, member.2 = JSONValue.other kind →
            matchField member.1 = none) →
        ∃ m, NewFromJSON (unmarshalWith parse) server = (some m, none)
          ∧ ∃ m', NewFromJSON (unmarshalWith parse) callback = (some m', none)
            ∧ m'.SubscribeURL = m.SubscribeURL ∧ m'.SigningCertURL = m.SigningCertURL
            ∧ m'.UnsubscribeURL = m.UnsubscribeURL) := by
  have h : NewFromJSON (unmarshalWith parse) callback
      = NewFromJSON (unmarshalWith parse) server := by
    simp only [NewFromJSON, unmarshalWith, hserver, hcallback, unmarshalObject_callbackStyle]
  refine ⟨h, ?_⟩
  intro hkinds
  have h1 : NewFromJSON (unmarshalWith parse) server
      = (some (members.foldl unmarshalMember (zeroMessage, none)).1, none) := by
    simp only [NewFromJSON, unmarshalWith, hserver, unmarshalObject_ok members hkinds]
  rw [h, h1]
  exact ⟨_, rfl, _, rfl, rfl, rfl, rfl⟩

/-- C25 at a concrete input: the server-style and the callback-style
example. -/
theorem NewFromJSON_accepts_callback_style_witness :
    NewFromJSON (unmarshalWith exampleParseJSON) callbackJSON
        = NewFromJSON (unmarshalWith exampleParseJSON) serverJSON
      ∧ (NewFromJSON (unmarshalWith exampleParseJSON) callbackJSON).1
        = some ⟨"SubscriptionConfirmation", "", "", "", "", "", "https://localhost/subscribe",
            "", "", "", "https://localhost/cert.pem", ""⟩
      ∧ ∃ m, NewFromJSON (unmarshalWith exampleParseJSON) serverJSON = (some m, none)
        ∧ ∃ m', NewFromJSON (unmarshalWith exampleParseJSON) callbackJSON = (some m', none)
          ∧ m'.SubscribeURL = m.SubscribeURL ∧ m'.SigningCertURL = m.SigningCertURL
          ∧ m'.UnsubscribeURL = m.UnsubscribeURL :=
  ⟨(NewFromJSON_accepts_callback_style exampleParseJSON serverJSON callbackJSON
      [ ("Type", JSONValue.string "SubscriptionConfirmation"),
        ("SubscribeURL", JSONValue.string "https://localhost/subscribe"),
        ("SigningCertURL", JSONValue.string "https://localhost/cert.pem") ]
      (by rfl) (by rfl)).1,
    by decide,
    (NewFromJSON_accepts_callback_style exampleParseJSON serverJSON callbackJSON
      [ ("Type", JSONValue.string "SubscriptionConfirmation"),
        ("SubscribeURL", JSONValue.string "https://localhost/subscribe"),
        ("SigningCertURL", JSONValue.string "https://localhost/cert.pem") ]
      (by rfl) (by rfl)).2 (by simp)⟩

/-- C26: `GetValidator` is `NewV1` of `toMap`: a version 1 validator whose map
binds each of the twelve keys to the field of that name and binds no other
key. -/
theorem GetValidator_map (message : SNSMessage) :
    message.GetValidator = NewV1 message.toMap
      ∧ message.GetValidator.Version = 1
      ∧ message.GetValidator.MessageMap "Type" = some message.Type_
      ∧ message.GetValidator.MessageMap "MessageId" = some message.MessageId
      ∧ message.GetValidator.MessageMap "Token" = some message.Token
      ∧ message.GetValidator.MessageMap "TopicArn" = some message.TopicArn
      ∧ message.GetValidator.MessageMap "Message" = some message.Message
      ∧ message.GetValidator.MessageMap "Timestamp" = some message.Timestamp
      ∧ message.GetValidator.MessageMap "Subject" = some message.Subject
      ∧ message.GetValidator.MessageMap "SubscribeURL" = some message.SubscribeURL
      ∧ message.GetValidator.MessageMap "SignatureVersion" = some message.SignatureVersion
      ∧ message.GetValidator.MessageMap "Signature" = some message.Signature
      ∧ message.GetValidator.MessageMap "SigningCertURL" = some message.SigningCertURL
      ∧ message.GetValidator.MessageMap "UnsubscribeURL" = some message.UnsubscribeURL
      ∧ ∀ key, key ∉ ["Type", "MessageId", "Token", "TopicArn", "Message", "Timestamp",
          "Subject", "SubscribeURL", "SignatureVersion", "Signature", "SigningCertURL",
          "UnsubscribeURL"] → message.GetValidator.MessageMap key = none := by
  refine ⟨rfl, rfl, ?_, ?_, ?_, ?_, ?_, ?_, ?_, ?_, ?_, ?_, ?_, ?_, ?_⟩
  all_goals first
    | exact fun key h => toMap_of_other_key message key h
    | simp [SNSMessage.GetValidator, NewV1, SNSMessage.toMap, mapOf, List.find?]

/-- C27: `NewV1 m` is a validator of version 1 whose message map is `m`. -/
theorem NewV1_version_and_map (messageMap : String → Option String) :
    (NewV1 messageMap).Version = 1 ∧ (NewV1 messageMap).MessageMap = messageMap
      ∧ ∀ key, (NewV1 messageMap).MessageMap key = messageMap key :=
  ⟨rfl, rfl, fun _ => rfl⟩

/-- C28: an error built by `New t s` has type `t` and message `s`, is the pair
`(t, s)`, and the pointer to it is not nil, also as a value of type `error`. -/
theorem New_type_and_message (t s : String) :
    (New t s).Type = t ∧ (New t s).Error = s ∧ New t s = ⟨t, s⟩
      ∧ (some (New t s) : Option SNSError) ≠ none
      ∧ (asError (some (New t s))).isNil = false :=
  ⟨rfl, rfl, rfl, by simp, rfl⟩

/-- C29: `New(t, s).Is(u)` is true exactly when `u = t`, whatever `s` is; the
comparison is case-sensitive. -/
theorem Is_iff_same_type (t s u : String) :
    ((New t s).Is u = true ↔ u = t)
      ∧ (New "TestError" s).Is "TestError" = true
      ∧ (New "TestError" s).Is "CustomError" = false
      ∧ (New "TestError" s).Is "testerror" = false := by
  refine ⟨?_, by simp [SNSError.Is, New], by simp [SNSError.Is, New],
    by simp [SNSError.Is, New]⟩
  simp only [SNSError.Is, New, decide_eq_true_eq]
  exact eq_comm

/-- C30: `verifySignature` reports the error of the first failing stage, in the
order URL parse, scheme, hostname, request, status code, body read, PEM decode,
certificate parse, base64 decode of Signature, signature check. Each part
assumes only that the earlier stages pass and that its stage fails; the
environment is arbitrary otherwise, so the result is the same whatever the
later stages would do. -/
theorem verifySignature_first_failing_stage (env : Env) (validator : SNSValidator) :
    (∀ e, env.urlParse (validator.index "SigningCertURL") = .error e →
      (validator.verifySignature env).val = some ⟨"InvalidCert", e⟩)
    ∧ (∀ parsedUrl, env.urlParse (validator.index "SigningCertURL") = .ok parsedUrl →
      parsedUrl.Scheme ≠ "https" →
      (validator.verifySignature env).val
        = some ⟨"InvalidCert", "The certificate URL is using insecure HTTP scheme"⟩)
    ∧ (∀ parsedUrl, env.urlParse (validator.index "SigningCertURL") = .ok parsedUrl →
      parsedUrl.Scheme = "https" → MatchString parsedUrl.Hostname = false →
      (validator.verifySignature env).val
        = some ⟨"InvalidCert", "The certificate URL belongs to an untrusted host"⟩)
    ∧ (∀ parsedUrl, env.urlParse (validator.index "SigningCertURL") = .ok parsedUrl →
      parsedUrl.Scheme = "https" → MatchString parsedUrl.Hostname = true →
      (∀ e, env.httpGet (validator.index "SigningCertURL") = .error e →
        (validator.verifySignature env).val = some ⟨"InvalidCert", e⟩)
      ∧ (∀ res, env.httpGet (validator.index "SigningCertURL") = .ok res →
        (res.StatusCode ≠ 200 →
          (validator.verifySignature env).val
            = some ⟨"InvalidCert", "Could not retrive the certificate"⟩)
        ∧ (res.StatusCode = 200 →
          (∀ e, res.Body = .error e →
            (validator.verifySignature env).val = some ⟨"InvalidCert", e⟩)
          ∧ (∀ body, res.Body = .ok body →
            (env.pemDecode body = none →
              (validator.verifySignature env).val
                = some ⟨"InvalidCert", "Could not decode the certificate"⟩)
            ∧ (∀ blockBytes, env.pemDecode body = some blockBytes →
              (∀ e, env.x509ParseCertificate blockBytes = .error e →
                (validator.verifySignature env).val = some ⟨"InvalidCert", e⟩)
              ∧ (∀ cert, env.x509ParseCertificate blockBytes = .ok cert →
                (∀ e, env.base64DecodeString (validator.index "Signature") = .error e →
                  (validator.verifySignature env).val
                    = some ⟨"IncorrectSignature", "Could not base64 decode the signature"⟩)
                ∧ (∀ decodedSignature,
                  env.base64DecodeString (validator.index "Signature")
                    = .ok decodedSignature →
                  ∀ e, env.checkSignature cert SignatureAlgorithm.SHA1WithRSA
                      validator.buildSignableString decodedSignature = some e →
                    (validator.verifySignature env).val
                      = some ⟨"IncorrectSignature", "Incorrect signature: " ++ e⟩))))))) := by
  refine ⟨?_, ?_, ?_, ?_⟩
  · intro e hparse
    rw [verifySignature_of_parse_error env validator e hparse]
  · intro parsedUrl hparse hscheme
    exact (verifySignature_of_insecure_scheme env validator parsedUrl hparse hscheme).1
  · intro parsedUrl hparse hscheme hhost
    exact (verifySignature_of_untrusted_host env validator parsedUrl hparse hscheme hhost).1
  · intro parsedUrl hparse hscheme hhost
    constructor
    · intro e hget
      rw [verifySignature_of_certificate_error env validator parsedUrl none _ _ hparse hscheme
        hhost (getCertificate_of_get_error env validator e hget)]
    · intro res hget
      constructor
      · intro hstatus
        rw [verifySignature_of_certificate_error env validator parsedUrl none _ _ hparse
          hscheme hhost (getCertificate_of_bad_status env validator res hget hstatus)]
      · intro hstatus
        constructor
        · intro e hbody
          rw [verifySignature_of_certificate_error env validator parsedUrl none _ _ hparse
            hscheme hhost (getCertificate_of_read_error env validator res e hget hstatus hbody)]
        · intro body hbody
          have h := verifySignature_after_fetch env validator parsedUrl res body hparse hscheme
            hhost hget hstatus hbody
          constructor
          · intro hpem
            rw [h]
            simp [hpem]
          · intro blockBytes hpem
            constructor
            · intro e hx509
              rw [h]
              simp [hpem, hx509]
            · intro cert hx509
              constructor
              · intro e hdecode
                rw [h]
                simp [hpem, hx509, hdecode]
              · intro decodedSignature hdecode e hcheck
                rw [h]
                simp [hpem, hx509, hdecode, hcheck]

/-- C30 at concrete inputs: the Notification example, whose Signature is not
valid base64, gets `InvalidCert` when the served block is not a certificate;
and an `http` URL on an untrusted host gets the insecure-scheme message. -/
theorem verifySignature_first_failing_stage_witness :
    (stdDecodeString (notificationMessage.index "Signature") = .error "illegal base64 data"
      ∧ (notificationMessage.verifySignature badCertificateEnv).val
        = some ⟨"InvalidCert", "asn1: structure error"⟩)
    ∧ (MatchString "attacker.example.com" = false
      ∧ (notificationMessage.verifySignature insecureUntrustedEnv).val
        = some ⟨"InvalidCert", "The certificate URL is using insecure HTTP scheme"⟩) :=
  ⟨⟨by rfl,
      ((((((verifySignature_first_failing_stage badCertificateEnv notificationMessage).2.2.2
        ⟨"https", "sns.ap-northeast-1.amazonaws.com"⟩ (by rfl) rfl
        MatchString_northeast_host).2 ⟨200, .ok [1, 2, 3]⟩ (by rfl)).2 rfl).2
        [1, 2, 3] rfl).2 [1, 2, 3] rfl).1 "asn1: structure error" (by rfl)⟩,
    ⟨MatchString_attacker_host,
      (verifySignature_first_failing_stage insecureUntrustedEnv notificationMessage).2.1
        ⟨"http", "attacker.example.com"⟩ (by rfl) (by decide)⟩⟩

/-- C31 fails on the code as it is stated: `http.Get` follows redirects, so one
call of `ValidateMessage` may request several URLs, and only the first of them
went through the `https` check and the hostname check. On a network where the
certificate URL of the Notification example, on a trusted host, redirects to a
URL on another host, one call of `ValidateMessage` calls `http.Get` once, two
URLs are requested, the host of the second does not match the allow-pattern,
and the message is accepted with the certificate served there. -/
theorem several_requests_in_one_call_counterexample :
    (notificationMessage.ValidateMessage (overWire servingEnv redirectingWire)).gets
        = ["https://sns.ap-northeast-1.amazonaws.com/cert.pem"]
      ∧ notificationMessage.wireRequests servingEnv redirectingWire
        = ["https://sns.ap-northeast-1.amazonaws.com/cert.pem",
            "https://attacker.example.com/cert.pem"]
      ∧ ¬ (notificationMessage.wireRequests servingEnv redirectingWire).length ≤ 1
      ∧ MatchString "attacker.example.com" = false
      ∧ (notificationMessage.ValidateMessage (overWire servingEnv redirectingWire)).val
        = none := by
  have hgets := redirectingWire_calls_once
  have hreq := redirectingWire_requests
  refine ⟨hgets, hreq, ?_, MatchString_attacker_host, redirectingWire_accepts⟩
  rw [hreq]
  decide

/-- C31, amended: `ValidateMessage` calls `http.Get` at most once, with the
SigningCertURL; it calls it exactly when structural validation, URL parsing,
the `https` check and the hostname check have all passed; and when that call
fails the error is returned as `InvalidCert` with the text of the failure,
after the single call. -/
theorem at_most_one_fetch (env : Env) (validator : SNSValidator) :
    ((validator.ValidateMessage env).gets = []
      ∨ (validator.ValidateMessage env).gets = [validator.index "SigningCertURL"])
    ∧ ((validator.ValidateMessage env).gets ≠ [] ↔
      validator.validateMessageStructure = none
        ∧ ∃ parsedUrl, env.urlParse (validator.index "SigningCertURL") = .ok parsedUrl
          ∧ parsedUrl.Scheme = "https" ∧ MatchString parsedUrl.Hostname = true)
    ∧ (∀ parsedUrl e, validator.validateMessageStructure = none →
      env.urlParse (validator.index "SigningCertURL") = .ok parsedUrl →
      parsedUrl.Scheme = "https" → MatchString parsedUrl.Hostname = true →
      env.httpGet (validator.index "SigningCertURL") = .error e →
      (validator.ValidateMessage env).val = some ⟨"InvalidCert", e⟩
        ∧ (validator.ValidateMessage env).gets = [validator.index "SigningCertURL"]) := by
  have hiff : (validator.ValidateMessage env).gets ≠ [] ↔
      validator.validateMessageStructure = none
        ∧ ∃ parsedUrl, env.urlParse (validator.index "SigningCertURL") = .ok parsedUrl
          ∧ parsedUrl.Scheme = "https" ∧ MatchString parsedUrl.Hostname = true := by
    cases hs : validator.validateMessageStructure with
    | some err => simp [SNSValidator.ValidateMessage, hs]
    | none =>
      rw [(ValidateMessage_of_structure_ok env validator hs).2,
        verifySignature_gets_ne_nil_iff]
      simp
  refine ⟨?_, hiff, ?_⟩
  · by_cases hg : (validator.ValidateMessage env).gets = []
    · exact Or.inl hg
    · right
      obtain ⟨hs, parsedUrl, hparse, hscheme, hhost⟩ := hiff.1 hg
      rw [(ValidateMessage_of_structure_ok env validator hs).2]
      exact verifySignature_gets_of_trusted env validator parsedUrl hparse hscheme hhost
  · intro parsedUrl e hs hparse hscheme hhost hget
    have h := verifySignature_of_certificate_error env validator parsedUrl none _ _ hparse
      hscheme hhost (getCertificate_of_get_error env validator e hget)
    have h2 := ValidateMessage_of_structure_ok env validator hs
    rw [h2.1, h2.2, h]
    exact ⟨rfl, rfl⟩

/-- C31, amended, at concrete inputs: a refused connection is reported after
one call of `http.Get`, and a message without its Message field causes no
call. -/
theorem at_most_one_fetch_witness :
    ((notificationMessage.ValidateMessage unreachableEnv).val
        = some ⟨"InvalidCert", "dial tcp: connection refused"⟩
      ∧ (notificationMessage.ValidateMessage unreachableEnv).gets
        = [notificationMessage.index "SigningCertURL"])
    ∧ ((withoutField notificationMessage "Message").ValidateMessage unreachableEnv).gets = [] :=
  ⟨(at_most_one_fetch unreachableEnv notificationMessage).2.2
      ⟨"https", "sns.ap-northeast-1.amazonaws.com"⟩ "dial tcp: connection refused"
      (by decide) (by rfl) rfl MatchString_northeast_host (by rfl),
    by
      have h := (at_most_one_fetch unreachableEnv
        (withoutField notificationMessage "Message")).2.1
      by_contra hne
      have hs := (h.1 hne).1
      revert hs
      decide⟩

/-- C32: for a key of the selected order other than Type, setting the key to a
value that differs from its current value (an absent key counting as the empty
string) changes `buildSignableString`; so does removing a key that has a
non-empty value. -/
theorem signable_string_tamper_sensitive (validator : SNSValidator) (key value : String)
    (hkey : key ∈ validator.signableKeys) (hne : key ≠ "Type")
    (hdiff : value ≠ validator.index key) :
    (withField validator key value).buildSignableString ≠ validator.buildSignableString
      ∧ (validator.index key ≠ "" →
        (withoutField validator key).buildSignableString ≠ validator.buildSignableString) := by
  constructor
  · intro h
    refine buildSignableString_ne_of_index_ne validator (withField validator key value) key hkey
      ?_ hne ?_ h.symm
    · intro x _ hx
      rw [index_withField_of_ne validator key value x hx]
    · rw [index_withField_self]
      exact Ne.symm hdiff
  · intro hpresent h
    refine buildSignableString_ne_of_index_ne validator (withoutField validator key) key hkey
      ?_ hne ?_ h.symm
    · intro x _ hx
      rw [index_withoutField_of_ne validator key x hx]
    · rw [index_withoutField_self]
      exact hpresent

/-- C32 at a concrete input: altering one character of Message, or removing
Message, changes the signable string of the Notification example. -/
theorem signable_string_tamper_sensitive_witness :
    "Message" ∈ notificationMessage.signableKeys
      ∧ "Test notificatioN" ≠ notificationMessage.index "Message"
      ∧ (withField notificationMessage "Message" "Test notificatioN").buildSignableString
        ≠ notificationMessage.buildSignableString
      ∧ (withoutField notificationMessage "Message").buildSignableString
        ≠ notificationMessage.buildSignableString :=
  ⟨by decide, by decide,
    (signable_string_tamper_sensitive notificationMessage "Message" "Test notificatioN"
      (by decide) (by decide) (by decide)).1,
    (signable_string_tamper_sensitive notificationMessage "Message" "Test notificatioN"
      (by decide) (by decide) (by decide)).2 (by decide)⟩

/-- C33: if no value of a key of the selected order contains a line feed, in
either of two maps, and the two `buildSignableString` outputs are equal, then
the two maps select the same key order and give every key of that order the
same value (an absent key counting as the empty string). -/
theorem signable_string_injective_without_newlines (v w : SNSValidator)
    (hv : ∀ key ∈ v.signableKeys, '\n' ∉ (v.index key).toList)
    (hw : ∀ key ∈ w.signableKeys, '\n' ∉ (w.index key).toList)
    (heq : v.buildSignableString = w.buildSignableString) :
    v.signableKeys = w.signableKeys
      ∧ ∀ key ∈ v.signableKeys, v.index key = w.index key :=
  buildSignableString_injective v w hv hw heq

/-- C33 at a concrete input: the Notification example and the same message
with another UnsubscribeURL, a key outside the order, have the same signable
string and agree on every key of the order. -/
theorem signable_string_injective_without_newlines_witness :
    (∀ key ∈ notificationMessage.signableKeys,
        '\n' ∉ (notificationMessage.index key).toList)
      ∧ (∀ key ∈ (withField notificationMessage "UnsubscribeURL" "x").signableKeys,
        '\n' ∉ ((withField notificationMessage "UnsubscribeURL" "x").index key).toList)
      ∧ notificationMessage.buildSignableString
        = (withField notificationMessage "UnsubscribeURL" "x").buildSignableString
      ∧ (notificationMessage.signableKeys
          = (withField notificationMessage "UnsubscribeURL" "x").signableKeys
        ∧ ∀ key ∈ notificationMessage.signableKeys,
          notificationMessage.index key
            = (withField notificationMessage "UnsubscribeURL" "x").index key) :=
  have heq : notificationMessage.buildSignableString
      = (withField notificationMessage "UnsubscribeURL" "x").buildSignableString :=
    buildSignableString_congr_signableKeys _ _ (fun key hk =>
      (index_withField_of_ne notificationMessage "UnsubscribeURL" "x" key
        (fun h => signatureVersion_not_signable notificationMessage "UnsubscribeURL"
          (by decide) (h ▸ hk))).symm)
  ⟨by decide, by decide, heq,
    signable_string_injective_without_newlines notificationMessage
      (withField notificationMessage "UnsubscribeURL" "x") (by decide) (by decide) heq⟩

/-- C34: with a line feed in a value the signable string is not injective. Two
maps that both pass `validateMessageStructure`, one with MessageId `b` and
Subject `c`, the other with MessageId `b\nSubject\nc` and no Subject, have the
same `buildSignableString`, and `ValidateMessage` returns the same result for
both in every environment. -/
theorem signable_string_not_injective_with_newlines :
    splitFieldsMessage.validateMessageStructure = none
      ∧ mergedFieldsMessage.validateMessageStructure = none
      ∧ splitFieldsMessage.MessageMap "MessageId" = some "b"
      ∧ splitFieldsMessage.MessageMap "Subject" = some "c"
      ∧ mergedFieldsMessage.MessageMap "MessageId" = some "b\nSubject\nc"
      ∧ mergedFieldsMessage.MessageMap "Subject" = none
      ∧ splitFieldsMessage.buildSignableString = mergedFieldsMessage.buildSignableString
      ∧ ∀ env : Env,
        (splitFieldsMessage.ValidateMessage env).val
            = (mergedFieldsMessage.ValidateMessage env).val
          ∧ (splitFieldsMessage.ValidateMessage env).gets
            = (mergedFieldsMessage.ValidateMessage env).gets := by
  have hs1 : splitFieldsMessage.validateMessageStructure = none := by decide
  have hs2 : mergedFieldsMessage.validateMessageStructure = none := by decide
  refine ⟨hs1, hs2, by decide, by decide, by decide, by decide, split_merged_same_string, ?_⟩
  intro env
  rw [ValidateMessage_congr_reads env splitFieldsMessage mergedFieldsMessage
    (by rw [hs1, hs2]) (by decide) (by decide) split_merged_same_string]
  exact ⟨rfl, rfl⟩

/-- C35: rebinding or removing a key that is not in the selected order leaves
`buildSignableString` unchanged; Signature, SignatureVersion, SigningCertURL and
UnsubscribeURL are never in the selected order. -/
theorem signable_string_ignores_other_keys (validator : SNSValidator) (key : String)
    (hkey : key ∉ validator.signableKeys) :
    (∀ value : Option String,
      (SNSValidator.mk validator.Version (fun k =>
        if k = key then value else validator.MessageMap k)).buildSignableString
        = validator.buildSignableString)
    ∧ ∀ k ∈ ["Signature", "SignatureVersion", "SigningCertURL", "UnsubscribeURL"],
      k ∉ validator.signableKeys := by
  refine ⟨?_, signatureVersion_not_signable validator⟩
  intro value
  symm
  apply buildSignableString_congr_signableKeys
  intro k hk
  have hne : k ≠ key := fun h => hkey (h ▸ hk)
  simp [SNSValidator.index, hne]

/-- C35 at concrete inputs: another SignatureVersion, no SigningCertURL, and a
key outside the vocabulary leave the signable string of the Notification
example unchanged. -/
theorem signable_string_ignores_other_keys_witness :
    "SignatureVersion" ∉ notificationMessage.signableKeys
      ∧ (SNSValidator.mk notificationMessage.Version (fun k =>
          if k = "SignatureVersion" then some "2"
          else notificationMessage.MessageMap k)).buildSignableString
        = notificationMessage.buildSignableString
      ∧ (SNSValidator.mk notificationMessage.Version (fun k =>
          if k = "SigningCertURL" then none
          else notificationMessage.MessageMap k)).buildSignableString
        = notificationMessage.buildSignableString
      ∧ (SNSValidator.mk notificationMessage.Version (fun k =>
          if k = "X-Custom" then some "anything"
          else notificationMessage.MessageMap k)).buildSignableString
        = notificationMessage.buildSignableString :=
  ⟨by decide,
    (signable_string_ignores_other_keys notificationMessage "SignatureVersion"
      (by decide)).1 (some "2"),
    (signable_string_ignores_other_keys notificationMessage "SigningCertURL"
      (by decide)).1 none,
    (signable_string_ignores_other_keys notificationMessage "X-Custom"
      (by decide)).1 (some "anything")⟩

/-- C36: two non-empty values of SignatureVersion give the same result and the
same GET trace of `ValidateMessage` in every environment; and the result does
not change when the signature check of the certificate is replaced by one that
agrees with it on SHA1WithRSA, the only algorithm the validator asks for. -/
theorem signature_version_not_interpreted (validator : SNSValidator) (a b : String)
    (ha : a ≠ "") (hb : b ≠ "") :
    (∀ env : Env,
      ((withField validator "SignatureVersion" a).ValidateMessage env).val
          = ((withField validator "SignatureVersion" b).ValidateMessage env).val
        ∧ ((withField validator "SignatureVersion" a).ValidateMessage env).gets
          = ((withField validator "SignatureVersion" b).ValidateMessage env).gets)
    ∧ ∀ (env : Env)
        (check : Certificate → SignatureAlgorithm → String → Bytes → Option String),
      (∀ cert signed signature,
        check cert SignatureAlgorithm.SHA1WithRSA signed signature
          = env.checkSignature cert SignatureAlgorithm.SHA1WithRSA signed signature) →
      ((withField validator "SignatureVersion" a).ValidateMessage
          { env with checkSignature := check }).val
        = ((withField validator "SignatureVersion" a).ValidateMessage env).val := by
  constructor
  · intro env
    have hidx : ∀ k, k ≠ "SignatureVersion" →
        (withField validator "SignatureVersion" a).index k
          = (withField validator "SignatureVersion" b).index k := by
      intro k hk
      rw [index_withField_of_ne _ _ _ _ hk, index_withField_of_ne _ _ _ _ hk]
    have hhas : ∀ k, (withField validator "SignatureVersion" a).has k
        = (withField validator "SignatureVersion" b).has k := by
      intro k
      by_cases hk : k = "SignatureVersion"
      · subst hk
        rw [has_eq_index, has_eq_index, index_withField_self, index_withField_self]
        simp [ha, hb]
      · rw [has_eq_index, has_eq_index, hidx k hk]
    have hstruct := validateMessageStructure_congr_has _ _ hhas (hidx "Type" (by decide))
    have hbss : (withField validator "SignatureVersion" a).buildSignableString
        = (withField validator "SignatureVersion" b).buildSignableString := by
      apply buildSignableString_congr_signableKeys
      intro k hk
      apply hidx
      intro h
      exact signatureVersion_not_signable _ "SignatureVersion" (by decide) (h ▸ hk)
    rw [ValidateMessage_congr_reads env _ _ hstruct (hidx "SigningCertURL" (by decide))
      (hidx "Signature" (by decide)) hbss]
    exact ⟨rfl, rfl⟩
  · intro env check h
    rw [ValidateMessage_congr_check env _ check h]

/-- C36 at a concrete input: the signed Notification example gets the same
result with SignatureVersion `1` and with SignatureVersion `2`, and is accepted
with `2` by a certificate that accepts SHA1WithRSA only. -/
theorem signature_version_not_interpreted_witness :
    ((withField (withField notificationMessage "Signature" "AQID")
          "SignatureVersion" "1").ValidateMessage pinnedEnv).val
        = ((withField (withField notificationMessage "Signature" "AQID")
          "SignatureVersion" "2").ValidateMessage pinnedEnv).val
      ∧ ((withField (withField notificationMessage "Signature" "AQID")
          "SignatureVersion" "1").ValidateMessage pinnedEnv).gets
        = ((withField (withField notificationMessage "Signature" "AQID")
          "SignatureVersion" "2").ValidateMessage pinnedEnv).gets
      ∧ ((withField (withField notificationMessage "Signature" "AQID")
          "SignatureVersion" "2").ValidateMessage pinnedEnv).val = none :=
  ⟨((signature_version_not_interpreted (withField notificationMessage "Signature" "AQID")
      "1" "2" (by decide) (by decide)).1 pinnedEnv).1,
    ((signature_version_not_interpreted (withField notificationMessage "Signature" "AQID")
      "1" "2" (by decide) (by decide)).1 pinnedEnv).2,
    ((signature_version_not_interpreted (withField notificationMessage "Signature" "AQID")
      "1" "2" (by decide) (by decide)).1 pinnedEnv).1.symm.trans pinnedEnv_accepts_version_one⟩

/-- C37: `hasKeys` returns `(true, "")` when every key of the list is present
with a non-empty value, in particular for the empty list, and otherwise
`(false, k)` with `k` the first key of the list that is absent or empty. -/
theorem hasKeys_first_missing_key (validator : SNSValidator) (keylist : List String) :
    ((∀ key ∈ keylist, Present validator.MessageMap key) →
      validator.hasKeys keylist = (true, ""))
    ∧ validator.hasKeys [] = (true, "")
    ∧ (∀ pre key post, keylist = pre ++ key :: post →
      (∀ x ∈ pre, Present validator.MessageMap x) → ¬ Present validator.MessageMap key →
      validator.hasKeys keylist = (false, key))
    ∧ ((¬ ∀ key ∈ keylist, Present validator.MessageMap key) →
      ∃ pre key post, keylist = pre ++ key :: post
        ∧ (∀ x ∈ pre, Present validator.MessageMap x) ∧ ¬ Present validator.MessageMap key
        ∧ validator.hasKeys keylist = (false, key)) := by
  have hfirst : ∀ pre key post, keylist = pre ++ key :: post →
      (∀ x ∈ pre, Present validator.MessageMap x) → ¬ Present validator.MessageMap key →
      validator.hasKeys keylist = (false, key) := by
    intro pre key post hsplit hpre hkey
    rw [hsplit]
    exact hasKeys_first_missing validator pre post key
      (fun x hx => (has_eq_true_iff validator x).2 (hpre x hx))
      ((has_eq_false_iff validator key).2 hkey)
  refine ⟨?_, rfl, hfirst, ?_⟩
  · intro h
    exact hasKeys_all validator keylist (fun key hk => (has_eq_true_iff validator key).2 (h key hk))
  · intro h
    obtain ⟨pre, key, post, hsplit, hpre, hkey⟩ := exists_missing_of_not_all validator keylist h
    exact ⟨pre, key, post, hsplit, hpre, hkey, hfirst pre key post hsplit hpre hkey⟩

/-- C37 at concrete inputs: a map with Type and Message only has the keys Type
and Message, and misses Subject among Type and Subject. -/
theorem hasKeys_first_missing_key_witness :
    (NewV1 (mapOf [("Type", "Notification"), ("Message", "Test notification")])).hasKeys
        ["Type", "Message"] = (true, "")
      ∧ (NewV1 (mapOf [("Type", "Notification"), ("Message", "Test notification")])).hasKeys
        ["Type", "Subject"] = (false, "Subject") :=
  ⟨(hasKeys_first_missing_key
      (NewV1 (mapOf [("Type", "Notification"), ("Message", "Test notification")]))
      ["Type", "Message"]).1 (by decide),
    (hasKeys_first_missing_key
      (NewV1 (mapOf [("Type", "Notification"), ("Message", "Test notification")]))
      ["Type", "Subject"]).2.2.1 ["Type"] "Subject" [] rfl (by decide) (by decide)⟩

end SNS
